import Mathlib

/-!
# Swadeshi Satellite Tracker: pass prediction and visibility engine

A shallow embedding of `backend/utils/tleHelper.js`, `backend/utils/visibilityHelper.js`
and the position cache of `backend/controllers/predictionController.js`.

Conventions of the embedding:
* JavaScript numbers are exact rationals plus the three special values `NaN`, `+Infinity`
  and `-Infinity` (`JSNum`); a value whose `typeof` is not `'number'` is `none` (`JSVal`).
  Rounding error of IEEE doubles is not modelled.
* `Date` objects are integer milliseconds since the epoch.
* The libraries `tle.js` and `suncalc`, and number formatting and `parseInt` of the runtime,
  are parameters (`Externals`). A call that throws is `Except.error` carrying the message.
* The observer registry and the India polygon, which the helpers `require`, are parameters
  (`StaticData`).
* `new Date()` is a parameter of each function that reads the clock.
* A `for` loop is a recursive function on the number of iterations left; `break` returns.
-/

namespace SatTracker

/-! ## JavaScript values -/

/-- A JavaScript number. -/
inductive JSNum where
  | fin (q : ℚ)
  | nan
  | posInf
  | negInf
  deriving DecidableEq, Repr

/-- A JavaScript value as far as the engine inspects it: `some x` has `typeof` `'number'`,
`none` is anything else (`undefined` in practice). -/
abbrev JSVal := Option JSNum

namespace JSNum

/-- The global `isFinite` on a number. -/
def isFinite : JSNum → Bool
  | fin _ => true
  | _ => false

/-- The operator `a > b` on numbers (every comparison with `NaN` is false). -/
def gt : JSNum → JSNum → Bool
  | fin a, fin b => decide (b < a)
  | fin _, negInf => true
  | posInf, fin _ => true
  | posInf, negInf => true
  | _, _ => false

end JSNum

/-- `Math.round` on a finite number: the nearest integer, halves rounded up. -/
def mathRound (x : ℚ) : ℤ := ⌊x + 1 / 2⌋

/-- The idiom `Math.round(x * 100) / 100`. -/
def round2 (x : ℚ) : ℚ := (mathRound (x * 100) : ℚ) / 100

/-- `String.prototype.trim` on character lists (the whitespace of `Char.isWhitespace`). -/
def trimChars (cs : List Char) : List Char :=
  ((cs.dropWhile Char.isWhitespace).reverse.dropWhile Char.isWhitespace).reverse

/-- `s.trim()`. -/
def jsTrim (s : String) : String := ⟨trimChars s.data⟩

/-- `String.prototype.includes` on character lists. -/
def includesChars (pat : List Char) : List Char → Bool
  | [] => pat.isEmpty
  | c :: cs => pat.isPrefixOf (c :: cs) || includesChars pat cs

/-- `s.includes(pat)`. -/
def jsIncludes (s pat : String) : Bool := includesChars pat.data s.data

/-! ## Records -/

/-- A satellite document (`models/Satellite.js`, with the mongoose timestamps). -/
structure Satellite where
  _id : String
  name : String
  norad_id : ℤ
  mission : Option String
  purpose : Option String
  launch_year : Option ℤ
  image_url : Option String
  tle_line1 : Option String
  tle_line2 : Option String
  tle_updated_at : Option ℤ
  createdAt : Option ℤ
  deriving DecidableEq, Repr

/-- The object returned by `tle.getLatLngObj`. -/
structure Coords where
  lat : JSVal
  lng : JSVal
  deriving DecidableEq, Repr

/-- The fields of the object returned by `tle.getSatelliteInfo` that the engine reads. -/
structure SatInfo where
  elevation : JSVal
  range : JSVal
  height : JSVal
  deriving DecidableEq, Repr

/-- The external collaborators: the ephemeris library `tle.js`, the almanac `suncalc`
(its altitude already converted to degrees) and, from the runtime, the number-to-string
conversion and `parseInt(s, 10)` (`none` is `NaN`). -/
structure Externals where
  getLatLngObj : String → ℤ → Except String (Option Coords)
  getSatelliteInfo : String → ℤ → ℚ → ℚ → ℚ → Except String (Option SatInfo)
  solarAltitudeDeg : ℤ → ℚ → ℚ → JSNum
  numToString : ℚ → String
  parseInt10 : String → Option ℤ

/-- A string is falsy exactly when it is absent or empty. -/
def falsyStr : Option String → Bool
  | none => true
  | some s => s.data.isEmpty

/-- `buildTleString` (both helpers define it identically). -/
def buildTleString (satellite : Satellite) : Except String String :=
  match satellite.tle_line1, satellite.tle_line2 with
  | some l1, some l2 =>
    if l1.data.isEmpty || l2.data.isEmpty then
      .error ("Satellite " ++ satellite.name ++ " is missing TLE data")
    else
      .ok (jsTrim l1 ++ "\n" ++ jsTrim l2)
  | _, _ => .error ("Satellite " ++ satellite.name ++ " is missing TLE data")

/-! ## Position resolver (`tleHelper.js`) -/

/-- The object returned by `getCurrentPosition`. -/
structure PositionSample where
  latitude : ℚ
  longitude : ℚ
  altitudeKm : ℚ
  timestamp : ℤ
  deriving DecidableEq, Repr

/-- The inner `try` of `getCurrentPosition`: the altitude in km resolved from the
Earth-centre query, `0` when the query throws or yields nothing usable. -/
def resolveAltitude (ext : Externals) (tleString : String) (now : ℤ) : ℚ :=
  match ext.getSatelliteInfo tleString now 0 0 0 with
  | .error _ => 0
  | .ok none => 0
  | .ok (some centerInfo) =>
    match centerInfo.height with
    | some (.fin h) =>
      if 0 < h then h
      else
        match centerInfo.range with
        | some (.fin r) => max 0 (r - 6371)
        | _ => 0
    | _ =>
      match centerInfo.range with
      | some (.fin r) => max 0 (r - 6371)
      | _ => 0

/-- The body of the outer `try` of `getCurrentPosition`. -/
def getCurrentPositionBody (ext : Externals) (satellite : Satellite) (now : ℤ) :
    Except String PositionSample :=
  match buildTleString satellite with
  | .error e => .error e
  | .ok tleString =>
    match ext.getLatLngObj tleString now with
    | .error e => .error e
    | .ok none => .error "Invalid TLE data: unable to compute position"
    | .ok (some coords) =>
      match coords.lat, coords.lng with
      | some (.fin lat), some (.fin lng) =>
        let altitudeKm := resolveAltitude ext tleString now
        -- `isNaN(altitudeKm)` is false: the resolved altitude is always finite
        if altitudeKm < 100 || altitudeKm > 2000 then
          .error ("Invalid altitude from TLE — TLE likely stale or corrupt. Altitude: "
            ++ ext.numToString altitudeKm ++ " km")
        else
          .ok { latitude := lat, longitude := lng,
                altitudeKm := round2 altitudeKm, timestamp := now }
      | some _, some _ => .error "TLE produced invalid coordinates (NaN or Infinity)"
      | _, _ => .error "Invalid TLE data: unable to compute position"

/-- `getCurrentPosition`: every error is rethrown with a prefix. -/
def getCurrentPosition (ext : Externals) (satellite : Satellite) (now : ℤ) :
    Except String PositionSample :=
  match getCurrentPositionBody ext satellite now with
  | .ok p => .ok p
  | .error e => .error ("Failed to get position for " ++ satellite.name ++ ": " ++ e)

/-- The test `v > 0` on a JavaScript value (`undefined > 0` is false). -/
def JSVal.gtZero : JSVal → Bool
  | some x => x.gt (.fin 0)
  | none => false

/-! ## Pass scanner (`tleHelper.js`) -/

/-- `STEP_SECONDS`. -/
def STEP_SECONDS : ℕ := 30

/-- `LOOKAHEAD_HOURS`. -/
def LOOKAHEAD_HOURS : ℕ := 6

/-- `getSolarPhase`. -/
def getSolarPhase (ext : Externals) (lat lon : ℚ) (timestamp : ℤ) : String :=
  if (ext.solarAltitudeDeg timestamp lat lon).gt (.fin (-6)) then "Daylight" else "Night"

/-- The object returned by `computeNextPass`. -/
structure PassWindow where
  startTime : ℤ
  endTime : ℤ
  durationSeconds : ℚ
  maxElevation : JSNum
  dayNight : String
  deriving DecidableEq, Repr

/-- The mutable locals of the scan loop of `computeNextPass`. -/
structure ScanState where
  passStart : Option ℤ
  passEnd : Option ℤ
  maxElevation : JSNum
  deriving DecidableEq, Repr

/-- The time of scan step `i`: `now.getTime() + i * STEP_SECONDS * 1000`. -/
def stepTime (now : ℤ) (i : ℕ) : ℤ := now + (i : ℤ) * STEP_SECONDS * 1000

/-- The `for` loop of `computeNextPass` from index `i` with `n` iterations left
(`n = totalSteps + 1 - i`); returning early is the `break`. A query that throws, or yields
no object to read `elevation` from, aborts the function. -/
def scanLoop (ext : Externals) (tleString : String) (lat lon : ℚ) (now : ℤ) :
    ℕ → ℕ → ScanState → Except String ScanState
  | 0, _, st => .ok st
  | n + 1, i, st =>
    let ts := stepTime now i
    match ext.getSatelliteInfo tleString ts lat lon 0 with
    | .error e => .error e
    | .ok none => .error "TypeError: Cannot read properties of undefined (reading 'elevation')"
    | .ok (some info) =>
      match info.elevation with
      | some el =>
        if el.gt (.fin 0) then
          scanLoop ext tleString lat lon now n (i + 1)
            { passStart := if st.passStart.isNone then some ts else st.passStart
              passEnd := some ts
              maxElevation := if el.gt st.maxElevation then el else st.maxElevation }
        else if st.passStart.isSome then .ok st
        else scanLoop ext tleString lat lon now n (i + 1) st
      | none =>
        if st.passStart.isSome then .ok st
        else scanLoop ext tleString lat lon now n (i + 1) st

/-- `computeNextPass`: `.ok none` is the `null` result. -/
def computeNextPass (ext : Externals) (satellite : Satellite) (lat lon : ℚ) (now : ℤ) :
    Except String (Option PassWindow) :=
  match buildTleString satellite with
  | .error e => .error e
  | .ok tleString =>
    let totalSteps := (LOOKAHEAD_HOURS * 3600) / STEP_SECONDS
    match scanLoop ext tleString lat lon now (totalSteps + 1) 0
        { passStart := none, passEnd := none, maxElevation := .fin (-90) } with
    | .error e => .error e
    | .ok st =>
      match st.passStart, st.passEnd with
      | some passStart, some passEnd =>
        .ok (some { startTime := passStart
                    endTime := passEnd
                    durationSeconds := ((passEnd - passStart : ℤ) : ℚ) / 1000
                    maxElevation := st.maxElevation
                    dayNight := getSolarPhase ext lat lon passStart })
      | _, _ => .ok none

/-- Whether the ephemeris answers the query of scan step `i` with an object. -/
def stepAnswers (ext : Externals) (tleString : String) (lat lon : ℚ) (now : ℤ) (i : ℕ) : Bool :=
  match ext.getSatelliteInfo tleString (stepTime now i) lat lon 0 with
  | .ok (some _) => true
  | _ => false

/-- Whether scan step `i` has elevation `> 0` at the observer. -/
def stepAbove (ext : Externals) (tleString : String) (lat lon : ℚ) (now : ℤ) (i : ℕ) : Bool :=
  match ext.getSatelliteInfo tleString (stepTime now i) lat lon 0 with
  | .ok (some info) => info.elevation.gtZero
  | _ => false

/-! ## Ground track (`tleHelper.js`) -/

/-- A point of the ground track. -/
structure TrackPoint where
  latitude : ℚ
  longitude : ℚ
  deriving DecidableEq, Repr

/-- The anti-meridian adjustment applied to a raw longitude given the previously emitted one. -/
def normalizeLon (prevLon : Option ℚ) (lng : ℚ) : ℚ :=
  match prevLon with
  | none => lng
  | some prev =>
    let lonDiff := lng - prev
    if |lonDiff| > 180 then
      if lonDiff > 180 then lng - 360
      else if lonDiff < -180 then lng + 360
      else lng
    else lng

/-- The sampling loop of `getOrbitTrack` from index `i` with `n` iterations left; the result
lists the points pushed from index `i` on. A sample whose query throws or whose coordinates
are not finite numbers pushes nothing and leaves `prevLon` as it is. -/
def trackLoop (ext : Externals) (tleString : String) (now : ℤ) (stepSeconds : ℕ) :
    ℕ → ℕ → Option ℚ → List TrackPoint
  | 0, _, _ => []
  | n + 1, i, prevLon =>
    let timestamp := now + (i : ℤ) * stepSeconds * 1000
    match ext.getLatLngObj tleString timestamp with
    | .ok (some coords) =>
      match coords.lat, coords.lng with
      | some (.fin lat), some (.fin lng) =>
        let longitude := normalizeLon prevLon lng
        { latitude := lat, longitude := longitude }
          :: trackLoop ext tleString now stepSeconds n (i + 1) (some longitude)
      | _, _ => trackLoop ext tleString now stepSeconds n (i + 1) prevLon
    | _ => trackLoop ext tleString now stepSeconds n (i + 1) prevLon

/-- `getOrbitTrack`: errors of the outer `try` yield the empty track. -/
def getOrbitTrack (ext : Externals) (satellite : Satellite) (now : ℤ) : List TrackPoint :=
  if jsIncludes satellite.name "Aditya" || jsIncludes satellite.name "L1" then []
  else
    match buildTleString satellite with
    | .error _ => []
    | .ok tleString =>
      let stepSeconds := 60
      let orbitPeriodMinutes := 100
      let maxPoints := (orbitPeriodMinutes * 60) / stepSeconds
      trackLoop ext tleString now stepSeconds maxPoints 0 none

/-- Whether some two consecutive points of a track differ in longitude by more than 180. -/
def hasLongitudeJump : List TrackPoint → Bool
  | p :: q :: rest => decide (|q.longitude - p.longitude| > 180) || hasLongitudeJump (q :: rest)
  | _ => false

/-! ## Visibility (`visibilityHelper.js`) -/

/-- An entry of the observer registry `./observers`, as far as the engine reads it. -/
structure Observer where
  name : String
  lat : ℚ
  lon : ℚ
  deriving DecidableEq, Repr

/-- A vertex `[longitude, latitude]` of a GeoJSON ring. -/
abbrev Vertex := ℚ × ℚ

/-- A GeoJSON polygon object: `coordinates` is the list of rings, when present. -/
structure Polygon where
  coordinates : Option (List (List Vertex))
  deriving DecidableEq, Repr

/-- The static data `require`d by `visibilityHelper.js`: the observer registry and
`../data/indiaPolygon.json`. -/
structure StaticData where
  observers : List Observer
  indiaPolygon : Option Polygon

/-- The position object handed to the visibility functions: its two fields as JavaScript
values. -/
structure PositionArg where
  latitude : JSVal
  longitude : JSVal
  deriving DecidableEq, Repr

/-- A position sample as an argument of the visibility functions. -/
def PositionSample.toArg (p : PositionSample) : PositionArg :=
  { latitude := some (.fin p.latitude), longitude := some (.fin p.longitude) }

/-- `getElevationForObserver`; `now` is its own reading of the clock. -/
def getElevationForObserver (ext : Externals) (satellite : Satellite)
    (_satellitePosition : PositionArg) (observerLat observerLon observerAltitudeMeters : ℚ)
    (now : ℤ) : ℚ :=
  match buildTleString satellite with
  | .error _ => -90
  | .ok tleString =>
    match ext.getSatelliteInfo tleString now observerLat observerLon observerAltitudeMeters with
    | .ok (some info) =>
      match info.elevation with
      | some (.fin el) => el
      | _ => -90
    | _ => -90

/-- The object returned by `isVisibleFromAnyCity`; absent properties are `none`. -/
structure CityVisibility where
  visible : Bool
  observer : Option Observer
  elevation : Option ℚ
  deriving DecidableEq, Repr

/-- `isVisibleFromAnyCity` over the rest of the registry; `clock k` is the time read by the
`k`-th elevation query. -/
def isVisibleFromAnyCityLoop (ext : Externals) (satellite : Satellite)
    (satellitePosition : PositionArg) (clock : ℕ → ℤ) : List Observer → ℕ → CityVisibility
  | [], _ => { visible := false, observer := none, elevation := none }
  | observer :: rest, k =>
    let elevation := getElevationForObserver ext satellite satellitePosition
      observer.lat observer.lon 0 (clock k)
    if elevation > 0 then
      { visible := true
        observer := some { name := observer.name, lat := observer.lat, lon := observer.lon }
        elevation := some elevation }
    else isVisibleFromAnyCityLoop ext satellite satellitePosition clock rest (k + 1)

/-- `isVisibleFromAnyCity`. -/
def isVisibleFromAnyCity (data : StaticData) (ext : Externals) (satellite : Satellite)
    (satellitePosition : PositionArg) (clock : ℕ → ℤ) : CityVisibility :=
  isVisibleFromAnyCityLoop ext satellite satellitePosition clock data.observers 0

/-- The crossing test of one edge of the ring, from vertex `(xj, yj)` to vertex `(xi, yi)`. -/
def edgeIntersects (lon lat : ℚ) (vi vj : Vertex) : Bool :=
  (decide (vi.2 > lat) != decide (vj.2 > lat))
    && decide (lon < ((vj.1 - vi.1) * (lat - vi.2)) / (vj.2 - vi.2) + vi.1)

/-- The `for (i = 0, j = ring.length - 1; i < ring.length; j = i++)` loop of
`pointInPolygon`: `vj` is `ring[j]`, the list holds `ring[i], ring[i+1], ...`. -/
def rayCast (lon lat : ℚ) : Vertex → List Vertex → Bool → Bool
  | _, [], inside => inside
  | vj, vi :: rest, inside =>
    rayCast lon lat vi rest (if edgeIntersects lon lat vi vj then !inside else inside)

/-- `pointInPolygon`, the point being `[lon, lat]`. -/
def pointInPolygon (point : Vertex) (polygon : Option Polygon) : Bool :=
  match polygon with
  | none => false
  | some poly =>
    match poly.coordinates with
    | none => false
    | some [] => false
    | some (ring :: _) =>
      if ring.length < 3 then false
      else
        match ring.getLast? with
        | none => false
        | some last => rayCast point.1 point.2 last ring false

/-- `isPointInIndia`. -/
def isPointInIndia (data : StaticData) (lat lon : JSVal) : Bool :=
  match lat, lon with
  | some (.fin la), some (.fin lo) => pointInPolygon (lo, la) data.indiaPolygon
  | _, _ => false

/-- The `details` object of `isVisibleFromIndia`. -/
structure VisibilityDetails where
  elevationVisible : Bool
  centerElevation : ℚ
  cityVisible : Bool
  city : Option Observer
  inIndiaPolygon : Bool
  deriving DecidableEq, Repr

/-- The object returned by `isVisibleFromIndia`. -/
structure VisibilityResult where
  visible : Bool
  details : VisibilityDetails
  deriving DecidableEq, Repr

/-- `isVisibleFromIndia`; `clock 0` is the time read by the centre query and `clock (k + 1)`
the time read by the `k`-th city query. -/
def isVisibleFromIndia (data : StaticData) (ext : Externals) (satellite : Satellite)
    (satellitePosition : PositionArg) (clock : ℕ → ℤ) : VisibilityResult :=
  let INDIA_CENTER_LAT : ℚ := 22
  let INDIA_CENTER_LON : ℚ := 78
  let INDIA_CENTER_ALT : ℚ := 0
  let centerElevation := getElevationForObserver ext satellite satellitePosition
    INDIA_CENTER_LAT INDIA_CENTER_LON INDIA_CENTER_ALT (clock 0)
  let elevationVisible := decide (centerElevation > 0)
  let anyCity := isVisibleFromAnyCity data ext satellite satellitePosition (fun k => clock (k + 1))
  let cityVisible := anyCity.visible
  let inIndiaPolygon := isPointInIndia data satellitePosition.latitude satellitePosition.longitude
  let visible := elevationVisible || cityVisible || inIndiaPolygon
  { visible := visible
    details :=
      { elevationVisible := elevationVisible
        centerElevation := centerElevation
        cityVisible := cityVisible
        city := anyCity.observer
        inIndiaPolygon := inIndiaPolygon } }

/-! ## Best-observer pass selector (`visibilityHelper.js`) -/

/-- The object returned by `getNextPass`. -/
structure NextPass where
  startTime : ℤ
  endTime : ℤ
  maxElevationDeg : ℚ
  durationSeconds : ℤ
  bestObserver : Option Observer
  deriving DecidableEq, Repr

/-- The synthetic observer of the India-centre check. -/
def indiaCenter : Observer := { name := "India Center", lat := 22, lon := 78 }

/-- One guarded elevation query of `getNextPass` (the body of the loop over the registry, and
the same block for the India centre): a finite numeric elevation above the running per-step
maximum replaces it and its observer; a query that throws or yields anything else changes
nothing. -/
def probeObserver (ext : Externals) (tleString : String) (timestamp : ℤ) (observer : Observer)
    (acc : ℚ × Option Observer) : ℚ × Option Observer :=
  match ext.getSatelliteInfo tleString timestamp observer.lat observer.lon 0 with
  | .ok (some info) =>
    match info.elevation with
    | some (.fin el) =>
      if el > acc.1 then
        (el, some { name := observer.name, lat := observer.lat, lon := observer.lon })
      else acc
    | _ => acc
  | _ => acc

/-- The loop `for (const observer of observers)` of one step. -/
def probeAll (ext : Externals) (tleString : String) (timestamp : ℤ) :
    List Observer → ℚ × Option Observer → ℚ × Option Observer
  | [], acc => acc
  | observer :: rest, acc =>
    probeAll ext tleString timestamp rest (probeObserver ext tleString timestamp observer acc)

/-- The pair `(stepMaxElevation, stepBestObserver)` of one step: the registry first, then the
India centre. -/
def stepBest (data : StaticData) (ext : Externals) (tleString : String) (timestamp : ℤ) :
    ℚ × Option Observer :=
  probeObserver ext tleString timestamp indiaCenter
    (probeAll ext tleString timestamp data.observers (-90, none))

/-- The mutable locals of the scan loop of `getNextPass`. -/
structure PassState where
  passStart : Option ℤ
  passEnd : Option ℤ
  maxElevation : ℚ
  bestObserver : Option Observer
  deriving DecidableEq, Repr

/-- The outer loop of `getNextPass` from index `step` with `n` iterations left
(`n = maxSteps + 1 - step`); returning early is the `break`. -/
def passLoop (data : StaticData) (ext : Externals) (tleString : String) (now : ℤ) (stepMs : ℕ) :
    ℕ → ℕ → PassState → PassState
  | 0, _, st => st
  | n + 1, step, st =>
    let timestamp := now + (step : ℤ) * stepMs
    let best := stepBest data ext tleString timestamp
    if best.1 > 0 then
      passLoop data ext tleString now stepMs n (step + 1)
        { passStart := if st.passStart.isNone then some timestamp else st.passStart
          passEnd := some timestamp
          maxElevation := if best.1 > st.maxElevation then best.1 else st.maxElevation
          bestObserver := if best.1 > st.maxElevation then best.2 else st.bestObserver }
    else if st.passStart.isSome then st
    else passLoop data ext tleString now stepMs n (step + 1) st

/-- `getNextPass` for a whole number of lookahead minutes and a positive whole number of step
seconds; `none` is the `null` result (also returned when the TLE is missing). -/
def getNextPass (data : StaticData) (ext : Externals) (satellite : Satellite)
    (lookaheadMinutes stepSeconds : ℕ) (now : ℤ) : Option NextPass :=
  match buildTleString satellite with
  | .error _ => none
  | .ok tleString =>
    let lookaheadMs := lookaheadMinutes * 60 * 1000
    let stepMs := stepSeconds * 1000
    let maxSteps := lookaheadMs / stepMs
    let st := passLoop data ext tleString now stepMs (maxSteps + 1) 0
      { passStart := none, passEnd := none, maxElevation := -90, bestObserver := none }
    match st.passStart, st.passEnd with
    | some passStart, some passEnd =>
      if st.maxElevation ≤ 0 then none
      else
        some { startTime := passStart
               endTime := passEnd
               maxElevationDeg := round2 st.maxElevation
               durationSeconds := mathRound (((passEnd - passStart : ℤ) : ℚ) / 1000)
               bestObserver := st.bestObserver }
    | _, _ => none

/-! ## Position cache and realtime endpoint (`predictionController.js`) -/

/-- `CACHE_TTL_MS`. -/
def CACHE_TTL_MS : ℤ := 5000

/-- The object returned by `buildSatelliteResponse`. -/
structure SatelliteResponse where
  id : String
  name : String
  norad_id : ℤ
  mission : Option String
  purpose : Option String
  launch_year : Option ℤ
  image_url : Option String
  tle_age_hours : ℚ
  tle_status : String
  deriving DecidableEq, Repr

/-- `buildSatelliteResponse`; `now` is its own reading of the clock. -/
def buildSatelliteResponse (satellite : Satellite) (now : ℤ) : SatelliteResponse :=
  let tleUpdatedAt := (satellite.tle_updated_at.orElse fun _ => satellite.createdAt).getD now
  let tleAgeMs := now - tleUpdatedAt
  let tleAgeHours := (tleAgeMs : ℚ) / (1000 * 60 * 60)
  let isStale := decide (tleAgeHours > 168)
  { id := satellite._id
    name := satellite.name
    norad_id := satellite.norad_id
    mission := satellite.mission
    purpose := satellite.purpose
    launch_year := satellite.launch_year
    image_url := satellite.image_url
    tle_age_hours := round2 tleAgeHours
    tle_status := if isStale then "stale" else "fresh" }

/-- `mapSatellite` (`satelliteController.js`); `now` is its own reading of the clock. -/
def mapSatellite (sat : Satellite) (now : ℤ) : SatelliteResponse :=
  let tleUpdatedAt := (sat.tle_updated_at.orElse fun _ => sat.createdAt).getD now
  let tleAgeMs := now - tleUpdatedAt
  let tleAgeHours := (tleAgeMs : ℚ) / (1000 * 60 * 60)
  let isStale := decide (tleAgeHours > 168)
  { id := sat._id
    name := sat.name
    norad_id := sat.norad_id
    mission := sat.mission
    purpose := sat.purpose
    launch_year := sat.launch_year
    image_url := sat.image_url
    tle_age_hours := round2 tleAgeHours
    tle_status := if isStale then "stale" else "fresh" }

/-- The JSON body of a successful `getRealtimePosition` response; `next_pass` is `none` when
the property is absent. -/
structure RealtimeResponse where
  satellite : SatelliteResponse
  currentPosition : PositionSample
  orbitPath : List TrackPoint
  is_visible_from_india : Bool
  visibility_details : VisibilityDetails
  timestamp : ℤ
  cached : Bool
  next_pass : Option NextPass
  deriving DecidableEq, Repr

/-- A value of the `positionCache` map. -/
structure CacheEntry where
  timestamp : ℤ
  response : RealtimeResponse
  deriving DecidableEq, Repr

/-- The `positionCache` map, by key. -/
abbrev PositionCache := String → Option CacheEntry

/-- `positionCache.set(key, entry)`. -/
def PositionCache.set (cache : PositionCache) (key : String) (entry : CacheEntry) :
    PositionCache :=
  fun k => if k = key then some entry else cache k

/-- What the handler sends: a JSON body with status 200, or an error status with its
`message` and optional `error` properties. -/
inductive Reply where
  | json (body : RealtimeResponse)
  | failure (status : ℕ) (message : String) (error : Option String)
  deriving DecidableEq, Repr

/-- The clock readings of one request: the handler's `now` and the `new Date()` of each
function it calls. -/
structure Clock where
  handler : ℤ
  position : ℤ
  track : ℤ
  visibility : ℕ → ℤ
  nextPass : ℤ
  response : ℤ

/-- The `nextPass` local of `getRealtimePosition`: computed only for a `lookaheadMinutes`
query parameter that parses to a positive integer. -/
def requestedNextPass (data : StaticData) (ext : Externals) (clock : Clock)
    (satellite : Satellite) (lookaheadQuery : Option String) : Option NextPass :=
  let lookaheadMinutes : Option (Option ℤ) :=
    match lookaheadQuery with
    | none => none
    | some q => if q.data.isEmpty then none else some (ext.parseInt10 q)
  match lookaheadMinutes with
  | some (some m) =>
    if m > 0 then getNextPass data ext satellite m.toNat 30 clock.nextPass else none
  | _ => none

/-- The `response` object assembled by `getRealtimePosition` once the position is known. -/
def freshResponse (data : StaticData) (ext : Externals) (clock : Clock)
    (satellite : Satellite) (lookaheadQuery : Option String) (position : PositionSample) :
    RealtimeResponse :=
  let orbitPath := getOrbitTrack ext satellite clock.track
  let visResult := isVisibleFromIndia data ext satellite position.toArg clock.visibility
  let isVisible := visResult.visible
  let nextPass := requestedNextPass data ext clock satellite lookaheadQuery
  { satellite := buildSatelliteResponse satellite clock.response
    currentPosition := position
    orbitPath := orbitPath
    is_visible_from_india := isVisible
    visibility_details := visResult.details
    timestamp := clock.handler
    cached := false
    next_pass := nextPass }

/-- The part of `getRealtimePosition` after a cache miss: compute, store, send; an error
thrown by `getCurrentPosition` goes to the `catch` block. -/
def recompute (data : StaticData) (ext : Externals) (clock : Clock) (cache : PositionCache)
    (satellite : Satellite) (lookaheadQuery : Option String) : PositionCache × Reply :=
  match getCurrentPosition ext satellite clock.position with
  | .error message =>
    if jsIncludes message "Invalid altitude from TLE" then
      (cache, .failure 400 message none)
    else
      (cache, .failure 500 "Failed to fetch satellite position" (some message))
  | .ok position =>
    let response := freshResponse data ext clock satellite lookaheadQuery position
    (cache.set satellite._id { timestamp := clock.handler, response := response },
      .json response)

/-- `getRealtimePosition` after `findSatellite` has resolved to `found`; `lookaheadQuery` is
`req.query.lookaheadMinutes`. Returns the cache after the request and the reply. -/
def getRealtimePosition (data : StaticData) (ext : Externals) (clock : Clock)
    (cache : PositionCache) (found : Option Satellite) (lookaheadQuery : Option String) :
    PositionCache × Reply :=
  match found with
  | none => (cache, .failure 404 "Satellite not found" none)
  | some satellite =>
    if falsyStr satellite.tle_line1 || falsyStr satellite.tle_line2 then
      (cache, .failure 400 ("Satellite " ++ satellite.name
        ++ " is missing TLE data. Please wait for TLE refresh or check database.") none)
    else
      let cacheKey := satellite._id
      let now := clock.handler
      match cache cacheKey with
      | some cached =>
        if now - cached.timestamp < CACHE_TTL_MS then
          (cache, .json { cached.response with timestamp := now, cached := true })
        else recompute data ext clock cache satellite lookaheadQuery
      | none => recompute data ext clock cache satellite lookaheadQuery

/-- Whether the cache holds a live entry for the key at time `now`. -/
def cacheHit (cache : PositionCache) (key : String) (now : ℤ) : Prop :=
  ∃ entry, cache key = some entry ∧ now - entry.timestamp < CACHE_TTL_MS

/-- The cache left by a sequence of requests, each with its clock, its resolved satellite and
its `lookaheadMinutes` query parameter. -/
def afterRequests (data : StaticData) (ext : Externals) (cache : PositionCache) :
    List (Clock × Option Satellite × Option String) → PositionCache
  | [] => cache
  | (clock, found, lookaheadQuery) :: rest =>
    afterRequests data ext (getRealtimePosition data ext clock cache found lookaheadQuery).1 rest

/-- Whether both TLE lines of the record are present and non-empty. -/
def hasTle (satellite : Satellite) : Bool :=
  !(falsyStr satellite.tle_line1 || falsyStr satellite.tle_line2)

/-! ## TLE refresh (`tleRefresh.js`) -/

/-- A value of the map built by `parseTleData`. -/
structure TleEntry where
  tle_line1 : String
  tle_line2 : String
  deriving DecidableEq, Repr

/-- A JavaScript `Map` from NORAD ids to entries: its pairs in insertion order. -/
abbrev TleMap := List (ℤ × TleEntry)

/-- `Map.prototype.get`. -/
def tleMapGet : TleMap → ℤ → Option TleEntry
  | [], _ => none
  | (k, v) :: rest, key => if k = key then some v else tleMapGet rest key

/-- `Map.prototype.set`: the value of a key already present is replaced in place, a new key
is appended. -/
def tleMapSet : TleMap → ℤ → TleEntry → TleMap
  | [], key, value => [(key, value)]
  | (k, v) :: rest, key, value =>
    if k = key then (k, value) :: rest else (k, v) :: tleMapSet rest key value

/-- `s.split('\n')` on character lists. -/
def splitNewline : List Char → List (List Char)
  | [] => [[]]
  | c :: cs =>
    if c = '\n' then [] :: splitNewline cs
    else
      match splitNewline cs with
      | [] => [[c]]
      | l :: ls => (c :: l) :: ls

/-- The array `text.trim().split('\n').filter(Boolean)`. -/
def tleLines (text : String) : List String :=
  ((splitNewline (jsTrim text).data).filter (fun l => !l.isEmpty)).map String.mk

/-- `s.substring(2, 7)`. -/
def substring27 (s : String) : String := ⟨(s.data.drop 2).take 5⟩

/-- The body of the loop of `parseTleData` for the group starting at index `i`. -/
def parseTleStep (ext : Externals) (lines : List String) (i : ℕ) (tleMap : TleMap) : TleMap :=
  let line1 := jsTrim (lines.getD (i + 1) "")
  let line2 := jsTrim (lines.getD (i + 2) "")
  if line1.data.length ≥ 7 then
    match ext.parseInt10 (jsTrim (substring27 line1)) with
    | some noradId => tleMapSet tleMap noradId { tle_line1 := line1, tle_line2 := line2 }
    | none => tleMap
  else tleMap

/-- The loop `for (let i = 0; i < lines.length; i += 3)` of `parseTleData` from index `i`,
with `n` iterations left. -/
def parseTleLoop (ext : Externals) (lines : List String) : ℕ → ℕ → TleMap → TleMap
  | 0, _, tleMap => tleMap
  | n + 1, i, tleMap =>
    if ¬ i < lines.length then tleMap
    else if i + 2 ≥ lines.length then tleMap
    else parseTleLoop ext lines n (i + 3) (parseTleStep ext lines i tleMap)

/-- `parseTleData`; the loop runs at most once per line. -/
def parseTleData (ext : Externals) (text : String) : TleMap :=
  parseTleLoop ext (tleLines text) (tleLines text).length 0 []

/-! ## Notions used in the statements -/

/-- Loop invariant of the scan: once a pass start is recorded, an end is recorded too, not
before the start and not after the time of the step about to be examined. -/
def ScanInv (now : ℤ) (i : ℕ) (st : ScanState) : Prop :=
  ∀ s, st.passStart = some s → ∃ e, st.passEnd = some e ∧ s ≤ e ∧ e ≤ stepTime now i

/-- Whether a vertex lies strictly above the latitude of the point. -/
def aboveLat (lat : ℚ) (v : Vertex) : Bool := decide (v.2 > lat)

/-- Twice the signed area of the triangle `u`, `w`, `v`: positive exactly when `v` lies
strictly to the left of the directed line from `u` to `w`. -/
def cross (u w v : Vertex) : ℚ :=
  (w.1 - u.1) * (v.2 - u.2) - (w.2 - u.2) * (v.1 - u.1)

/-- The directed edges `(ring[j], ring[i])` in the order the loop of `pointInPolygon` visits
them, `prev` being the vertex before the first of the list. -/
def ringEdges (prev : Vertex) : List Vertex → List (Vertex × Vertex)
  | [] => []
  | v :: rest => (prev, v) :: ringEdges v rest

/-- The edges of a ring, the first one leading from its last vertex to its first. -/
def edgesOf (vs : List Vertex) : List (Vertex × Vertex) :=
  ringEdges (vs.getLastD (0, 0)) vs

/-- The number of edges of a list that the ray from the point crosses. -/
def crossings (lon lat : ℚ) (es : List (Vertex × Vertex)) : ℕ :=
  es.countP (fun e => edgeIntersects lon lat e.2 e.1)

/-- The mean of the vertices. -/
def centroid (vs : List Vertex) : Vertex :=
  ((vs.map Prod.fst).sum / vs.length, (vs.map Prod.snd).sum / vs.length)

/-- A convex polygon given by its distinct vertices in boundary order, counter-clockwise for
`σ = 1` and clockwise for `σ = -1`: every vertex lies on the inner side of, or on, the line of
every edge; no vertex lies on an edge other than as its endpoint; and the vertices are not
all on one line. -/
structure IsConvexRing (σ : ℚ) (vs : List Vertex) : Prop where
  orientation : σ = 1 ∨ σ = -1
  nodup : vs.Nodup
  side : ∀ e ∈ edgesOf vs, ∀ v ∈ vs, 0 ≤ σ * cross e.1 e.2 v
  simple : ∀ e ∈ edgesOf vs, ∀ v ∈ vs, ∀ t : ℚ, 0 ≤ t → t ≤ 1 →
    v.1 = e.1.1 + t * (e.2.1 - e.1.1) → v.2 = e.1.2 + t * (e.2.2 - e.1.2) → v = e.1 ∨ v = e.2
  proper : ∃ u ∈ vs, ∃ w ∈ vs, ∃ v ∈ vs, cross u w v ≠ 0

/-- An edge leading upwards across the latitude: it starts at or below it and ends above. -/
def isUp (lat : ℚ) (e : Vertex × Vertex) : Bool := !aboveLat lat e.1 && aboveLat lat e.2

/-- An edge leading downwards across the latitude: it starts above and ends at or below. -/
def isDown (lat : ℚ) (e : Vertex × Vertex) : Bool := aboveLat lat e.1 && !aboveLat lat e.2

/-- The elevation a city observer gets when it is the `k`-th one queried by
`isVisibleFromAnyCity`. -/
def cityElevation (ext : Externals) (satellite : Satellite) (satellitePosition : PositionArg)
    (clock : ℕ → ℤ) (k : ℕ) (o : Observer) : ℚ :=
  getElevationForObserver ext satellite satellitePosition o.lat o.lon 0 (clock k)

/-- The elevation value reported at scan step `i` of `computeNextPass`, when the query is
answered with an object whose `elevation` is a number. -/
def stepElevation (ext : Externals) (tleString : String) (lat lon : ℚ) (now : ℤ) (i : ℕ) :
    Option JSNum :=
  match ext.getSatelliteInfo tleString (stepTime now i) lat lon 0 with
  | .ok (some info) => info.elevation
  | _ => none

/-- The initial state of the scan of `computeNextPass`. -/
def scanInit : ScanState :=
  { passStart := none, passEnd := none, maxElevation := .fin (-90) }

/-- The state of the scan of `computeNextPass` describes the window of steps `a..b`, entered
at the first step above the horizon, with the largest elevation of the window attained at
step `k`. -/
def ScanWindow (ext : Externals) (tleString : String) (lat lon : ℚ) (now : ℤ) (a b k : ℕ)
    (st : ScanState) : Prop :=
  st.passStart = some (stepTime now a)
    ∧ st.passEnd = some (stepTime now b)
    ∧ (∀ j, j < a → stepAnswers ext tleString lat lon now j = true
        ∧ stepAbove ext tleString lat lon now j = false)
    ∧ (∀ j, a ≤ j → j ≤ b → stepAbove ext tleString lat lon now j = true)
    ∧ stepElevation ext tleString lat lon now k = some st.maxElevation
    ∧ (∀ j, a ≤ j → j ≤ b → ∀ el, stepElevation ext tleString lat lon now j = some el →
        el.gt st.maxElevation = false)

/-- Loop invariant of the scan of `computeNextPass` before step `i`, by step index. -/
def ScanIdxInv (ext : Externals) (tleString : String) (lat lon : ℚ) (now : ℤ) (i : ℕ)
    (st : ScanState) : Prop :=
  (st = scanInit ∧ ∀ j, j < i → stepAnswers ext tleString lat lon now j = true
      ∧ stepAbove ext tleString lat lon now j = false)
    ∨ ∃ a b k, a ≤ k ∧ k ≤ b ∧ b + 1 = i ∧ ScanWindow ext tleString lat lon now a b k st

/-- What a scan of `computeNextPass` over steps `0..N` that does not throw ends with: nothing,
when every step is answered and none is above the horizon, or the first window. -/
def ScanFinal (ext : Externals) (tleString : String) (lat lon : ℚ) (now : ℤ) (N : ℕ)
    (st : ScanState) : Prop :=
  (st = scanInit ∧ ∀ j, j ≤ N → stepAnswers ext tleString lat lon now j = true
      ∧ stepAbove ext tleString lat lon now j = false)
    ∨ ∃ a b k, a ≤ k ∧ k ≤ b ∧ b ≤ N ∧ ScanWindow ext tleString lat lon now a b k st
        ∧ (b < N → stepAnswers ext tleString lat lon now (b + 1) = true
            ∧ stepAbove ext tleString lat lon now (b + 1) = false)

/-- The points `getOrbitTrack` pushes for a sequence of valid raw coordinates `(lat, lng)`,
`prevLon` being the longitude pushed last. -/
def emitPoints : Option ℚ → List (ℚ × ℚ) → List TrackPoint
  | _, [] => []
  | prevLon, (lat, lng) :: rest =>
    { latitude := lat, longitude := normalizeLon prevLon lng }
      :: emitPoints (some (normalizeLon prevLon lng)) rest

/-- The value of `tle_updated_at || createdAt || now` for a record. -/
def effectiveUpdatedAt (sat : Satellite) (now : ℤ) : ℤ :=
  match sat.tle_updated_at, sat.createdAt with
  | some t, _ => t
  | none, some c => c
  | none, none => now

/-- The longitude of the edge between `vi` and `vj` at a latitude. -/
def edgeLongitudeAt (lat : ℚ) (vi vj : Vertex) : ℚ :=
  ((vj.1 - vi.1) * (lat - vi.2)) / (vj.2 - vi.2) + vi.1

/-- Whether a latitude lies strictly between the latitudes of the two endpoints of an edge. -/
def strictlyBetween (lat : ℚ) (vi vj : Vertex) : Bool :=
  decide (min vi.2 vj.2 < lat ∧ lat < max vi.2 vj.2)

/-- Whether a latitude lies at or above the lower endpoint latitude of an edge and strictly
below the higher one. -/
def halfOpenBetween (lat : ℚ) (vi vj : Vertex) : Bool :=
  decide (min vi.2 vj.2 ≤ lat ∧ lat < max vi.2 vj.2)

/-- The number of edges of a list for which the latitude of the point is strictly between
the endpoint latitudes and its longitude is less than the longitude of the edge at that
latitude. -/
def strictCrossings (lon lat : ℚ) (es : List (Vertex × Vertex)) : ℕ :=
  es.countP (fun e => strictlyBetween lat e.2 e.1 && decide (lon < edgeLongitudeAt lat e.2 e.1))

/-- The lines of a list in consecutive groups of three (name, line 1, line 2); a trailing
group of fewer than three lines is left out. -/
def groupsOfThree : List String → List (String × String × String)
  | name :: line1 :: line2 :: rest => (name, line1, line2) :: groupsOfThree rest
  | _ => []

/-- The id and entry a group yields: its trimmed line 1 has at least 7 characters and the
characters 3 to 7 of it parse as an integer. -/
def groupEntry (ext : Externals) (g : String × String × String) : Option (ℤ × TleEntry) :=
  if (jsTrim g.2.1).data.length ≥ 7 then
    (ext.parseInt10 (jsTrim (substring27 (jsTrim g.2.1)))).map
      (fun n => (n, { tle_line1 := jsTrim g.2.1, tle_line2 := jsTrim g.2.2 }))
  else none

/-- What the loop body does to the map, in terms of the group it reads. -/
def applyGroup (ext : Externals) (m : TleMap) (g : String × String × String) : TleMap :=
  match groupEntry ext g with
  | some (n, e) => tleMapSet m n e
  | none => m

/-- The value of the last pair of a list with a given key. -/
def lastEntry (key : ℤ) : List (ℤ × TleEntry) → Option TleEntry
  | [] => none
  | (k, v) :: rest =>
    match lastEntry key rest with
    | some w => some w
    | none => if k = key then some v else none

/-- Whether a JavaScript value is a finite number: `typeof v === 'number' && isFinite(v)`. -/
def isFiniteNumber : JSVal → Bool
  | some x => x.isFinite
  | none => false

/-- The error a computation throws, if it throws. -/
def errorOf {α : Type} : Except String α → Option String
  | .error e => some e
  | .ok _ => none

/-- The finite numeric coordinates `(lat, lng)` the ephemeris reports for sample `i` of the
ground track (`now + i * 60 s`); `none` when the query throws or reports anything else. -/
def sampleCoords (ext : Externals) (tleString : String) (now : ℤ) (i : ℕ) : Option (ℚ × ℚ) :=
  match ext.getLatLngObj tleString (now + (i : ℤ) * 60 * 1000) with
  | .ok (some coords) =>
    match coords.lat, coords.lng with
    | some (.fin lat), some (.fin lng) => some (lat, lng)
    | _, _ => none
  | _ => none

/-- The finite numeric elevation the ephemeris reports for an observer at a time; `none` when
the query throws or reports anything else. -/
def observedElevation (ext : Externals) (tleString : String) (timestamp : ℤ) (o : Observer) :
    Option ℚ :=
  match ext.getSatelliteInfo tleString timestamp o.lat o.lon 0 with
  | .ok (some info) =>
    match info.elevation with
    | some (.fin el) => some el
    | _ => none
  | _ => none

/-- The time of step `k` of the scan of `getNextPass`. -/
def passTime (now : ℤ) (stepMs : ℕ) (k : ℕ) : ℤ := now + (k : ℤ) * stepMs

/-- The per-step maximum elevation at step `k` of the scan of `getNextPass`. -/
def stepMax (data : StaticData) (ext : Externals) (tleString : String) (now : ℤ) (stepMs : ℕ)
    (k : ℕ) : ℚ :=
  (stepBest data ext tleString (passTime now stepMs k)).1

/-- The observer holding the per-step maximum at step `k` of the scan of `getNextPass`. -/
def stepObserver (data : StaticData) (ext : Externals) (tleString : String) (now : ℤ)
    (stepMs : ℕ) (k : ℕ) : Option Observer :=
  (stepBest data ext tleString (passTime now stepMs k)).2

/-- The state of the scan of `getNextPass` describes the window of steps `a..b` with its peak
first attained at step `k`. -/
def IsWindow (data : StaticData) (ext : Externals) (tleString : String) (now : ℤ) (stepMs : ℕ)
    (a b k : ℕ) (st : PassState) : Prop :=
  st.passStart = some (passTime now stepMs a)
    ∧ st.passEnd = some (passTime now stepMs b)
    ∧ (∀ j, j < a → ¬ stepMax data ext tleString now stepMs j > 0)
    ∧ (∀ j, a ≤ j → j ≤ b → stepMax data ext tleString now stepMs j > 0)
    ∧ st.maxElevation = stepMax data ext tleString now stepMs k
    ∧ st.bestObserver = stepObserver data ext tleString now stepMs k
    ∧ (∀ j, a ≤ j → j ≤ b →
        stepMax data ext tleString now stepMs j ≤ stepMax data ext tleString now stepMs k)
    ∧ (∀ j, a ≤ j → j < k →
        stepMax data ext tleString now stepMs j < stepMax data ext tleString now stepMs k)

/-- The initial state of the scan of `getNextPass`. -/
def passInit : PassState :=
  { passStart := none, passEnd := none, maxElevation := -90, bestObserver := none }

/-- Loop invariant of the scan of `getNextPass` before step `i`. -/
def PassInv (data : StaticData) (ext : Externals) (tleString : String) (now : ℤ) (stepMs : ℕ)
    (i : ℕ) (st : PassState) : Prop :=
  (st = passInit ∧ ∀ j, j < i → ¬ stepMax data ext tleString now stepMs j > 0)
    ∨ ∃ a b k, a ≤ k ∧ k ≤ b ∧ b + 1 = i ∧ IsWindow data ext tleString now stepMs a b k st

/-- What the scan of `getNextPass` over steps `0..N` ends with: nothing, when no step has a
positive per-step maximum, or the first window. -/
def PassFinal (data : StaticData) (ext : Externals) (tleString : String) (now : ℤ) (stepMs : ℕ)
    (N : ℕ) (st : PassState) : Prop :=
  (st = passInit ∧ ∀ j, j ≤ N → ¬ stepMax data ext tleString now stepMs j > 0)
    ∨ ∃ a b k, a ≤ k ∧ k ≤ b ∧ b ≤ N ∧ IsWindow data ext tleString now stepMs a b k st
        ∧ (b < N → ¬ stepMax data ext tleString now stepMs (b + 1) > 0)

/-! ## Sample data -/

/-- A satellite record with both TLE lines present. -/
def sampleSat : Satellite :=
  { _id := "65f0c0ffee0000000000abcd", name := "CARTOSAT-3", norad_id := 44804,
    mission := some "Earth observation", purpose := none, launch_year := some 2019,
    image_url := none,
    tle_line1 := some "1 44804U 19081A   24001.50000000  .00000500  00000-0  30000-4 0  9990",
    tle_line2 := some "2 44804  97.5000 100.0000 0001000  90.0000 270.0000 15.19000000 10000",
    tle_updated_at := some 0, createdAt := some 0 }

/-- The two-line element string of the sample record. -/
def sampleTle : String :=
  "1 44804U 19081A   24001.50000000  .00000500  00000-0  30000-4 0  9990"
    ++ "\n" ++ "2 44804  97.5000 100.0000 0001000  90.0000 270.0000 15.19000000 10000"

/-- An ephemeris placing the object at 509.237 km over (12.5, 77.25). -/
def sampleExt : Externals :=
  { getLatLngObj := fun _ _ => .ok (some { lat := some (.fin (25 / 2)), lng := some (.fin (309 / 4)) })
    getSatelliteInfo := fun _ _ _ _ _ =>
      .ok (some { elevation := some (.fin (-40)), range := some (.fin 6880),
                  height := some (.fin (509237 / 1000)) })
    solarAltitudeDeg := fun _ _ _ => .fin 10
    numToString := fun _ => "?"
    parseInt10 := fun _ => none }

/-- An ephemeris for an equatorial eastbound ground track: the sample taken `i` minutes after
the epoch is at longitude `178 + 4 * i` degrees, reported in the range [-180, 180). -/
def eastboundExt : Externals :=
  { sampleExt with
    getLatLngObj := fun _ ts =>
      .ok (some { lat := some (.fin 0)
                  lng := some (.fin (((178 + 4 * (ts / 60000) + 180) % 360 - 180 : ℤ) : ℚ)) }) }

/-- An ephemeris with one pass over the observer: elevation 10, 35 and 20 degrees at
60 s, 90 s and 120 s after the epoch, and -5 degrees at every other time. -/
def passExt : Externals :=
  { sampleExt with
    getSatelliteInfo := fun _ ts _ _ _ =>
      .ok (some { elevation :=
                    some (.fin (if ts = 60000 then 10 else if ts = 90000 then 35
                      else if ts = 120000 then 20 else -5))
                  range := some (.fin 7000), height := some (.fin 500) }) }

/-- The window of the pass of `passExt` as seen from (22, 78) from the epoch on. -/
def samplePass : PassWindow :=
  { startTime := 60000, endTime := 120000, durationSeconds := 60,
    maxElevation := .fin 35, dayNight := "Daylight" }

/-- The distinct vertices of a triangle, in counter-clockwise order. -/
def triangleVertices : List Vertex := [(0, 0), (4, 0), (0, 4)]

/-- A triangle as a closed GeoJSON ring. -/
def sampleTriangle : List Vertex := [(0, 0), (4, 0), (0, 4), (0, 0)]

/-- Static data with three cities and no polygon. -/
def sampleData : StaticData :=
  { observers := [{ name := "Delhi", lat := 57 / 2, lon := 77 },
                  { name := "Bengaluru", lat := 13, lon := 155 / 2 },
                  { name := "Kolkata", lat := 45 / 2, lon := 177 / 2 }]
    indiaPolygon := none }

/-- A clock whose readings all show the same instant. -/
def clockAt (t : ℤ) : Clock :=
  { handler := t, position := t, track := t, visibility := fun _ => t, nextPass := t,
    response := t }

/-- The empty position cache. -/
def emptyCache : PositionCache := fun _ => none

/-- An ephemeris seen only from latitude 13 (Bengaluru in `sampleData`): elevation 12
degrees there at 60 s and 90 s after the epoch, and -5 degrees for every other observer point
and time. -/
def cityExt : Externals :=
  { sampleExt with
    getSatelliteInfo := fun _ ts lat _ _ =>
      .ok (some { elevation :=
                    some (.fin (if lat = 13 ∧ (ts = 60000 ∨ ts = 90000) then 12 else -5))
                  range := some (.fin 7000), height := some (.fin 500) }) }

/-- The sample record without its second TLE line. -/
def noTleSat : Satellite := { sampleSat with tle_line2 := none }

/-- The sample record under the name of a libration-point mission. -/
def adityaSat : Satellite := { sampleSat with name := "Aditya-L1" }

/-- An ephemeris whose query throws at 90 s after the epoch and reports -5 degrees of
elevation at every other time. -/
def throwingExt : Externals :=
  { sampleExt with
    getSatelliteInfo := fun _ ts _ _ _ =>
      if ts = 90000 then .error "Error: propagation failed"
      else .ok (some { elevation := some (.fin (-5)), range := some (.fin 7000),
                       height := some (.fin 500) }) }

/-- An ephemeris whose ground-track query throws at 60 s, reports a `NaN` longitude at 120 s
and the point (1, 2) at every other time. -/
def patchyExt : Externals :=
  { sampleExt with
    getLatLngObj := fun _ ts =>
      if ts = 60000 then .error "Error: propagation failed"
      else if ts = 120000 then .ok (some { lat := some (.fin 1), lng := some .nan })
      else .ok (some { lat := some (.fin 1), lng := some (.fin 2) }) }

/-- A diamond around the origin, with vertices on the axes. -/
def diamond : List Vertex := [(0, -2), (2, 0), (0, 2), (-2, 0)]

/-- A square as outer ring. -/
def outerSquare : List Vertex := [(0, 0), (10, 0), (10, 10), (0, 10)]

/-- A square hole inside `outerSquare`. -/
def holeSquare : List Vertex := [(4, 4), (6, 4), (6, 6), (4, 6)]

/-- An ephemeris with a grazing pass: elevation 0.001 degrees at 60 s after the epoch for
every observer, and -5 degrees at every other time. -/
def grazingExt : Externals :=
  { sampleExt with
    getSatelliteInfo := fun _ ts _ _ _ =>
      .ok (some { elevation := some (.fin (if ts = 60000 then 1 / 1000 else -5))
                  range := some (.fin 7000), height := some (.fin 500) }) }

/-- The decimal numeral spelled by a non-empty list of digits. -/
def parseDigits (cs : List Char) : Option ℤ :=
  if cs.isEmpty || !cs.all Char.isDigit then none
  else some (cs.foldl (fun n c => n * 10 + ((c.toNat : ℤ) - 48)) 0)

/-- A runtime whose `parseInt` reads plain decimal numerals. -/
def digitsExt : Externals := { sampleExt with parseInt10 := fun s => parseDigits s.data }

/-- A TLE text: two groups for the id 25544, a group whose id does not parse, a group for
the id 44804, and a trailing name line. -/
def sampleTleText : String :=
  "ISS (ZARYA)\n1 25544U first\n2 25544 first\n"
    ++ "ISS (ZARYA)\n1 25544U second\n2 25544 second\n"
    ++ "BROKEN\n1 ABCDEU broken\n2 ABCDE broken\n"
    ++ "CARTOSAT-3\n1 44804U third\n2 44804 third\n"
    ++ "TRAILING\n"

/-- An ephemeris that reports a `NaN` sub-satellite longitude. -/
def nanCoordsExt : Externals :=
  { sampleExt with
    getLatLngObj := fun _ _ => .ok (some { lat := some (.fin (25 / 2)), lng := some .nan }) }

/-- An ephemeris that reports no height, only the range 6880 km from the Earth's centre. -/
def rangeOnlyExt : Externals :=
  { sampleExt with
    getSatelliteInfo := fun _ _ _ _ _ =>
      .ok (some { elevation := some (.fin (-40)), range := some (.fin 6880), height := none }) }

/-- A first request for the sample satellite at time 1000 ms against the empty cache. -/
def firstRequest : PositionCache × Reply :=
  getRealtimePosition sampleData sampleExt (clockAt 1000) emptyCache (some sampleSat) none

/-- A second request for the same satellite 2 s later, against the cache left by the first. -/
def secondRequest : PositionCache × Reply :=
  getRealtimePosition sampleData sampleExt (clockAt 3000) firstRequest.1 (some sampleSat) none

/-- The `cached` property of a reply with a JSON body. -/
def Reply.cachedFlag : Reply → Option Bool
  | .json body => some body.cached
  | .failure _ _ _ => none

/-! ## Theorems -/

theorem round2_bounds {a : ℚ} (h1 : 100 ≤ a) (h2 : a ≤ 2000) :
    100 ≤ round2 a ∧ round2 a ≤ 2000 := by
  unfold round2 mathRound
  have hlo : (10000 : ℤ) ≤ ⌊a * 100 + 1 / 2⌋ := by
    apply Int.le_floor.mpr
    push_cast
    linarith
  have hhi : ⌊a * 100 + 1 / 2⌋ ≤ (200000 : ℤ) := by
    have : ⌊a * 100 + 1 / 2⌋ < (200000 : ℤ) + 1 := by
      apply Int.floor_lt.mpr
      push_cast
      linarith
    omega
  have hlo' : (10000 : ℚ) ≤ ((⌊a * 100 + 1 / 2⌋ : ℤ) : ℚ) := by exact_mod_cast hlo
  have hhi' : ((⌊a * 100 + 1 / 2⌋ : ℤ) : ℚ) ≤ (200000 : ℚ) := by exact_mod_cast hhi
  constructor
  · rw [le_div_iff₀ (by norm_num)]; linarith
  · rw [div_le_iff₀ (by norm_num)]; linarith

theorem mathRound_eq {x : ℚ} {n : ℤ} (h1 : (n : ℚ) ≤ x + 1 / 2) (h2 : x + 1 / 2 < n + 1) :
    mathRound x = n := by
  unfold mathRound
  exact Int.floor_eq_iff.mpr ⟨h1, h2⟩

theorem sample_tle :
    buildTleString sampleSat
      = .ok ("1 44804U 19081A   24001.50000000  .00000500  00000-0  30000-4 0  9990"
          ++ "\n" ++ "2 44804  97.5000 100.0000 0001000  90.0000 270.0000 15.19000000 10000") := by
  rfl

theorem sample_round : round2 (509237 / 1000) = 50924 / 100 := by
  unfold round2
  rw [mathRound_eq (n := 50924) (by norm_num) (by norm_num)]
  norm_num

theorem sample_altitude (t : ℤ) (tle : String) :
    resolveAltitude sampleExt tle t = 509237 / 1000 := by
  simp only [resolveAltitude, sampleExt]
  norm_num

theorem sample_position_body (t : ℤ) (tle : String) (htle : buildTleString sampleSat = .ok tle) :
    getCurrentPositionBody sampleExt sampleSat t
      = .ok { latitude := 25 / 2, longitude := 309 / 4, altitudeKm := 50924 / 100,
              timestamp := t } := by
  unfold getCurrentPositionBody
  rw [htle]
  have hget : sampleExt.getLatLngObj
      = fun _ _ => .ok (some { lat := some (.fin (25 / 2)), lng := some (.fin (309 / 4)) }) := rfl
  simp only [hget, sample_altitude, sample_round]
  rw [if_neg (by norm_num)]

theorem getCurrentPosition_of_body (ext : Externals) (satellite : Satellite) (now : ℤ)
    (p : PositionSample) (h : getCurrentPositionBody ext satellite now = .ok p) :
    getCurrentPosition ext satellite now = .ok p := by
  unfold getCurrentPosition
  rw [h]

theorem sample_position (t : ℤ) :
    getCurrentPosition sampleExt sampleSat t
      = .ok { latitude := 25 / 2, longitude := 309 / 4, altitudeKm := 50924 / 100,
              timestamp := t } :=
  getCurrentPosition_of_body _ _ _ _ (sample_position_body t _ sample_tle)

/-- C1: whenever `getCurrentPosition` returns a position sample (it otherwise fails with an
error), the returned, rounded altitude lies in the band [100, 2000] km. -/
theorem getCurrentPosition_altitude_band (ext : Externals) (satellite : Satellite) (now : ℤ)
    (p : PositionSample) (h : getCurrentPosition ext satellite now = .ok p) :
    100 ≤ p.altitudeKm ∧ p.altitudeKm ≤ 2000 := by
  unfold getCurrentPosition at h
  split at h
  · rename_i q hq
    cases h
    unfold getCurrentPositionBody at hq
    split at hq
    · cases hq
    · split at hq
      · cases hq
      · cases hq
      · split at hq
        · simp only [Bool.or_eq_true, decide_eq_true_eq] at hq
          split at hq
          · cases hq
          · rename_i hband
            cases hq
            push_neg at hband
            exact round2_bounds hband.1 hband.2
        · cases hq
        · cases hq
  · cases h

theorem getCurrentPosition_altitude_band_witness :
    getCurrentPosition sampleExt sampleSat 1700000000000
        = .ok { latitude := 25 / 2, longitude := 309 / 4, altitudeKm := 50924 / 100,
                timestamp := 1700000000000 }
      ∧ (100 : ℚ) ≤ 50924 / 100 ∧ (50924 / 100 : ℚ) ≤ 2000 :=
  ⟨sample_position _, getCurrentPosition_altitude_band sampleExt sampleSat 1700000000000 _
    (sample_position _)⟩

/-! ### Ground track -/

/-- C2, evaluation at the failing input: for an eastbound equatorial track that crosses the
anti-meridian twice within the 100 samples, the points emitted for samples 90 and 91 are at
longitudes 538 and 182, so the returned track has two consecutive points 356 degrees apart. -/
theorem getOrbitTrack_second_crossing_jump :
    (getOrbitTrack eastboundExt sampleSat 0).length = 100
      ∧ (getOrbitTrack eastboundExt sampleSat 0)[90]? = some { latitude := 0, longitude := 538 }
      ∧ (getOrbitTrack eastboundExt sampleSat 0)[91]? = some { latitude := 0, longitude := 182 }
      ∧ hasLongitudeJump (getOrbitTrack eastboundExt sampleSat 0) = true := by
  decide!

/-! ### Pass scanner -/

theorem stepTime_le_succ (now : ℤ) (i : ℕ) : stepTime now i ≤ stepTime now (i + 1) := by
  unfold stepTime STEP_SECONDS
  push_cast
  omega

theorem scanInv_update (now : ℤ) (i : ℕ) (st : ScanState) (m : JSNum)
    (h : ScanInv now i st) :
    ScanInv now (i + 1)
      { passStart := if st.passStart.isNone then some (stepTime now i) else st.passStart
        passEnd := some (stepTime now i)
        maxElevation := m } := by
  intro s hs
  refine ⟨stepTime now i, rfl, ?_, stepTime_le_succ now i⟩
  cases hps : st.passStart with
  | none =>
    simp [hps] at hs
    omega
  | some s0 =>
    simp [hps] at hs
    obtain ⟨e, -, hse, hei⟩ := h s0 hps
    omega

theorem scanInv_succ (now : ℤ) (i : ℕ) (st : ScanState) (h : ScanInv now i st) :
    ScanInv now (i + 1) st := by
  intro s hs
  obtain ⟨e, he, hse, hei⟩ := h s hs
  exact ⟨e, he, hse, le_trans hei (stepTime_le_succ now i)⟩

theorem scanLoop_inv (ext : Externals) (tle : String) (lat lon : ℚ) (now : ℤ) :
    ∀ (n i : ℕ) (st st' : ScanState), scanLoop ext tle lat lon now n i st = .ok st' →
      ScanInv now i st → ∀ s, st'.passStart = some s → ∃ e, st'.passEnd = some e ∧ s ≤ e := by
  intro n
  induction n with
  | zero =>
    intro i st st' h hinv s hs
    simp only [scanLoop, Except.ok.injEq] at h
    subst h
    obtain ⟨e, he, hse, -⟩ := hinv s hs
    exact ⟨e, he, hse⟩
  | succ n ih =>
    intro i st st' h hinv s hs
    have hstop : st = st' → ∃ e, st'.passEnd = some e ∧ s ≤ e := by
      intro heq
      subst heq
      obtain ⟨e, he, hse, -⟩ := hinv s hs
      exact ⟨e, he, hse⟩
    simp only [scanLoop] at h
    split at h
    · cases h
    · cases h
    · split at h
      · split at h
        · exact ih _ _ _ h (scanInv_update now i st _ hinv) s hs
        · split at h
          · exact hstop (by simpa using h)
          · exact ih _ _ _ h (scanInv_succ now i st hinv) s hs
      · split at h
        · exact hstop (by simpa using h)
        · exact ih _ _ _ h (scanInv_succ now i st hinv) s hs

/-- C3: a window returned by `computeNextPass` never ends before it starts, and its
`durationSeconds` is exactly the difference of end and start time (milliseconds) over 1000. -/
theorem computeNextPass_window_duration (ext : Externals) (satellite : Satellite)
    (lat lon : ℚ) (now : ℤ) (w : PassWindow)
    (h : computeNextPass ext satellite lat lon now = .ok (some w)) :
    w.startTime ≤ w.endTime ∧ w.durationSeconds = ((w.endTime - w.startTime : ℤ) : ℚ) / 1000 := by
  unfold computeNextPass at h
  split at h
  · cases h
  · rename_i tle htle
    simp only at h
    split at h
    · cases h
    · rename_i st hst
      have hinv := scanLoop_inv ext tle lat lon now _ _ _ _ hst
        (by intro s hs; simp at hs)
      split at h
      · rename_i ps pe hps hpe
        simp only [Except.ok.injEq, Option.some.injEq] at h
        subst h
        obtain ⟨e, he, hse⟩ := hinv ps hps
        rw [hpe] at he
        cases he
        exact ⟨hse, rfl⟩
      · cases h

theorem sample_pass :
    (computeNextPass passExt sampleSat 22 78 0).toOption
      = some (some { startTime := 60000, endTime := 120000, durationSeconds := 60,
                     maxElevation := .fin 35, dayNight := "Daylight" }) := by
  decide!

theorem toOption_eq_some {ε α : Type} {x : Except ε α} {a : α}
    (h : x.toOption = some a) : x = .ok a := by
  cases x with
  | error e => simp [Except.toOption] at h
  | ok b =>
    simp [Except.toOption] at h
    rw [h]

theorem computeNextPass_window_duration_witness :
    (60000 : ℤ) ≤ 120000 ∧ (60 : ℚ) = (((120000 : ℤ) - 60000 : ℤ) : ℚ) / 1000 :=
  computeNextPass_window_duration passExt sampleSat 22 78 0
    { startTime := 60000, endTime := 120000, durationSeconds := 60,
      maxElevation := .fin 35, dayNight := "Daylight" }
    (toOption_eq_some sample_pass)

theorem scanLoop_null_only (ext : Externals) (tle : String) (lat lon : ℚ) (now : ℤ) :
    ∀ (n i : ℕ) (st st' : ScanState), scanLoop ext tle lat lon now n i st = .ok st' →
      st'.passStart = none →
      st' = st ∧ ∀ j, i ≤ j → j < i + n →
        stepAnswers ext tle lat lon now j = true ∧ stepAbove ext tle lat lon now j = false := by
  intro n
  induction n with
  | zero =>
    intro i st st' h _
    simp only [scanLoop, Except.ok.injEq] at h
    exact ⟨h.symm, fun j h1 h2 => by omega⟩
  | succ n ih =>
    intro i st st' h hnone
    simp only [scanLoop] at h
    split at h
    · cases h
    · cases h
    · rename_i info hq
      have hhere : info.elevation.gtZero = false →
          stepAnswers ext tle lat lon now i = true ∧ stepAbove ext tle lat lon now i = false := by
        intro hz
        simp [stepAnswers, stepAbove, hq, hz]
      have hrest : ∀ st1, scanLoop ext tle lat lon now n (i + 1) st1 = .ok st' →
          info.elevation.gtZero = false → st1 = st →
          st' = st ∧ ∀ j, i ≤ j → j < i + (n + 1) →
            stepAnswers ext tle lat lon now j = true ∧ stepAbove ext tle lat lon now j = false := by
        intro st1 h1 hz heq
        obtain ⟨h2, h3⟩ := ih _ _ _ h1 hnone
        refine ⟨by rw [h2, heq], fun j hj1 hj2 => ?_⟩
        rcases Nat.eq_or_lt_of_le hj1 with hji | hji
        · subst hji
          exact hhere hz
        · exact h3 j hji (by omega)
      split at h
      · rename_i el hel
        split at h
        · obtain ⟨h2, -⟩ := ih _ _ _ h hnone
          rw [h2] at hnone
          cases hps : st.passStart <;> simp [hps] at hnone
        · rename_i hgt
          have hz : info.elevation.gtZero = false := by
            simp [JSVal.gtZero, hel, hgt]
          split at h
          · rename_i hsome
            simp only [Except.ok.injEq] at h
            subst h
            simp [hnone] at hsome
          · exact hrest st h hz rfl
      · rename_i hel
        have hz : info.elevation.gtZero = false := by
          simp [JSVal.gtZero, hel]
        split at h
        · rename_i hsome
          simp only [Except.ok.injEq] at h
          subst h
          simp [hnone] at hsome
        · exact hrest st h hz rfl

theorem scanLoop_all_below (ext : Externals) (tle : String) (lat lon : ℚ) (now : ℤ) :
    ∀ (n i : ℕ) (st : ScanState), st.passStart = none →
      (∀ j, i ≤ j → j < i + n →
        stepAnswers ext tle lat lon now j = true ∧ stepAbove ext tle lat lon now j = false) →
      scanLoop ext tle lat lon now n i st = .ok st := by
  intro n
  induction n with
  | zero =>
    intro i st _ _
    rfl
  | succ n ih =>
    intro i st hnone hall
    obtain ⟨ha, hb⟩ := hall i (le_refl i) (by omega)
    have hnext := ih (i + 1) st hnone (fun j h1 h2 => hall j (by omega) (by omega))
    simp only [stepAnswers, stepAbove] at ha hb
    simp only [scanLoop]
    split
    · rename_i e hq
      simp [hq] at ha
    · rename_i hq
      simp [hq] at ha
    · rename_i info hq
      simp only [hq] at hb
      split
      · rename_i el hel
        simp only [JSVal.gtZero, hel] at hb
        simp [hb, hnone, hnext]
      · simp [hnone, hnext]

/-- C9: for a satellite with both TLE lines present, a `null` result of `computeNextPass`
means that no scanned step (`now + i * 30 s`, `i = 0..720`) has elevation `> 0`; when the
ephemeris answers the query of every scanned step, the result is `null` if and only if no
scanned step has elevation `> 0`; in particular an object whose elevation is `≤ 0` at every
scanned step yields `null`. -/
theorem computeNextPass_null_iff (ext : Externals) (satellite : Satellite) (lat lon : ℚ)
    (now : ℤ) (tle : String) (htle : buildTleString satellite = .ok tle) :
    (computeNextPass ext satellite lat lon now = .ok none →
        ∀ i, i ≤ 720 → stepAbove ext tle lat lon now i = false)
      ∧ ((∀ i, i ≤ 720 → stepAnswers ext tle lat lon now i = true) →
          (computeNextPass ext satellite lat lon now = .ok none ↔
            ∀ i, i ≤ 720 → stepAbove ext tle lat lon now i = false))
      ∧ ((∀ i, i ≤ 720 → ∃ info el,
            ext.getSatelliteInfo tle (stepTime now i) lat lon 0 = .ok (some info)
              ∧ info.elevation = some (.fin el) ∧ el ≤ 0) →
          computeNextPass ext satellite lat lon now = .ok none) := by
  have hfwd : computeNextPass ext satellite lat lon now = .ok none →
      ∀ i, i ≤ 720 → stepAbove ext tle lat lon now i = false := by
    intro h i hi
    unfold computeNextPass at h
    rw [htle] at h
    simp only at h
    split at h
    · cases h
    · rename_i st hst
      have hinv := scanLoop_inv ext tle lat lon now _ _ _ _ hst
        (by intro s hs; simp at hs)
      have hnone : st.passStart = none := by
        cases hps : st.passStart with
        | none => rfl
        | some ps =>
          obtain ⟨e, he, -⟩ := hinv ps hps
          rw [hps, he] at h
          simp at h
      obtain ⟨-, hall⟩ := scanLoop_null_only ext tle lat lon now _ _ _ _ hst hnone
      exact (hall i (Nat.zero_le i) (by
        simp only [LOOKAHEAD_HOURS, STEP_SECONDS]
        omega)).2
  have hbwd : (∀ i, i ≤ 720 → stepAnswers ext tle lat lon now i = true) →
      (∀ i, i ≤ 720 → stepAbove ext tle lat lon now i = false) →
      computeNextPass ext satellite lat lon now = .ok none := by
    intro hans hall
    unfold computeNextPass
    rw [htle]
    simp only
    rw [scanLoop_all_below ext tle lat lon now _ 0 _ rfl (fun j _ hj => ⟨hans j (by
      simp only [LOOKAHEAD_HOURS, STEP_SECONDS] at hj
      omega), hall j (by
      simp only [LOOKAHEAD_HOURS, STEP_SECONDS] at hj
      omega)⟩)]
  refine ⟨hfwd, fun hans => ⟨hfwd, hbwd hans⟩, fun hbelow => hbwd ?_ ?_⟩
  · intro i hi
    obtain ⟨info, el, hq, -, -⟩ := hbelow i hi
    simp [stepAnswers, hq]
  · intro i hi
    obtain ⟨info, el, hq, hel, hle⟩ := hbelow i hi
    simp [stepAbove, hq, hel, JSVal.gtZero, JSNum.gt, hle]

theorem computeNextPass_null_iff_witness :
    computeNextPass sampleExt sampleSat 22 78 0 = .ok none :=
  ((computeNextPass_null_iff sampleExt sampleSat 22 78 0 _ sample_tle).2.1
    (fun _ _ => rfl)).mpr (fun _ _ => rfl)

/-! ### Hybrid visibility -/

/-- C4: `isVisibleFromIndia` returns `visible` as the disjunction of the three signals it
reports in `details`; those are the elevation from the India centre (with `elevationVisible`
true exactly when `centerElevation > 0`), the result of the city check and the polygon test
of the position; so `visible` is true whenever `centerElevation > 0`. -/
theorem isVisibleFromIndia_or (data : StaticData) (ext : Externals) (satellite : Satellite)
    (satellitePosition : PositionArg) (clock : ℕ → ℤ) :
    let r := isVisibleFromIndia data ext satellite satellitePosition clock
    r.visible = (r.details.elevationVisible || r.details.cityVisible || r.details.inIndiaPolygon)
      ∧ (r.details.elevationVisible = true ↔ r.details.centerElevation > 0)
      ∧ r.details.centerElevation
          = getElevationForObserver ext satellite satellitePosition 22 78 0 (clock 0)
      ∧ r.details.cityVisible
          = (isVisibleFromAnyCity data ext satellite satellitePosition
              (fun k => clock (k + 1))).visible
      ∧ r.details.inIndiaPolygon
          = isPointInIndia data satellitePosition.latitude satellitePosition.longitude
      ∧ (r.details.centerElevation > 0 → r.visible = true) := by
  intro r
  refine ⟨rfl, ?_, rfl, rfl, rfl, ?_⟩
  · simp [r, isVisibleFromIndia]
  · intro h
    have h' : getElevationForObserver ext satellite satellitePosition 22 78 0 (clock 0) > 0 := h
    simp [r, isVisibleFromIndia, h']

/-! ### Point in polygon -/

/-- For an edge whose endpoints lie on different sides of the latitude `lat`, the longitude of
the edge at that latitude is a convex combination of the endpoint longitudes. -/
theorem edge_longitude_at (lat : ℚ) (vi vj : Vertex) (h : aboveLat lat vi ≠ aboveLat lat vj) :
    ∃ t : ℚ, 0 ≤ t ∧ t ≤ 1 ∧ t * (vj.2 - vi.2) = lat - vi.2
      ∧ ((vj.1 - vi.1) * (lat - vi.2)) / (vj.2 - vi.2) + vi.1 = vi.1 + t * (vj.1 - vi.1) := by
  simp only [aboveLat, ne_eq, decide_eq_decide] at h
  have hne : vj.2 - vi.2 ≠ 0 := by
    intro h0
    have : vj.2 = vi.2 := by linarith
    rw [this] at h
    exact h Iff.rfl
  refine ⟨(lat - vi.2) / (vj.2 - vi.2), ?_, ?_, ?_, ?_⟩
  · by_cases hi : vi.2 > lat
    · have hj : ¬ vj.2 > lat := fun hj => h ⟨fun _ => hj, fun _ => hi⟩
      exact div_nonneg_of_nonpos (by linarith) (by linarith)
    · have hj : vj.2 > lat := by
        by_contra hj
        exact h ⟨fun a => absurd a hi, fun a => absurd a hj⟩
      exact div_nonneg (by linarith) (by linarith)
  · by_cases hi : vi.2 > lat
    · have hj : ¬ vj.2 > lat := fun hj => h ⟨fun _ => hj, fun _ => hi⟩
      have hneg : vj.2 - vi.2 < 0 := by linarith
      rw [div_le_one_of_neg hneg]
      linarith
    · have hj : vj.2 > lat := by
        by_contra hj
        exact h ⟨fun a => absurd a hi, fun a => absurd a hj⟩
      have hpos : 0 < vj.2 - vi.2 := by linarith
      rw [div_le_one hpos]
      linarith
  · field_simp
  · field_simp
    ring

theorem edgeIntersects_eq (lon lat : ℚ) (vi vj : Vertex) :
    edgeIntersects lon lat vi vj
      = ((aboveLat lat vi != aboveLat lat vj)
          && decide (lon < ((vj.1 - vi.1) * (lat - vi.2)) / (vj.2 - vi.2) + vi.1)) := rfl

/-- An edge both of whose endpoints lie east of the point is crossed exactly when its
endpoints lie on different sides of the latitude. -/
theorem edgeIntersects_of_west (lon lat : ℚ) (vi vj : Vertex) (hi : lon < vi.1)
    (hj : lon < vj.1) :
    edgeIntersects lon lat vi vj = (aboveLat lat vi != aboveLat lat vj) := by
  rw [edgeIntersects_eq]
  by_cases h : aboveLat lat vi = aboveLat lat vj
  · simp [h]
  · obtain ⟨t, ht0, ht1, -, hx⟩ := edge_longitude_at lat vi vj h
    have hlt : lon < ((vj.1 - vi.1) * (lat - vi.2)) / (vj.2 - vi.2) + vi.1 := by
      rw [hx]
      nlinarith [mul_nonneg ht0 (le_of_lt (sub_pos.mpr hj)),
        mul_nonneg (sub_nonneg.mpr ht1) (le_of_lt (sub_pos.mpr hi))]
    simp [hlt]

/-- An edge both of whose endpoints lie west of the point is never crossed. -/
theorem edgeIntersects_of_east (lon lat : ℚ) (vi vj : Vertex) (hi : vi.1 < lon)
    (hj : vj.1 < lon) :
    edgeIntersects lon lat vi vj = false := by
  rw [edgeIntersects_eq]
  by_cases h : aboveLat lat vi = aboveLat lat vj
  · simp [h]
  · obtain ⟨t, ht0, ht1, -, hx⟩ := edge_longitude_at lat vi vj h
    have hlt : ¬ lon < ((vj.1 - vi.1) * (lat - vi.2)) / (vj.2 - vi.2) + vi.1 := by
      rw [hx]
      nlinarith [mul_nonneg ht0 (le_of_lt (sub_pos.mpr hj)),
        mul_nonneg (sub_nonneg.mpr ht1) (le_of_lt (sub_pos.mpr hi))]
    simp [hlt]

/-- An edge whose endpoints lie on the same side of the latitude is never crossed. -/
theorem edgeIntersects_of_same_side (lon lat : ℚ) (vi vj : Vertex)
    (h : aboveLat lat vi = aboveLat lat vj) : edgeIntersects lon lat vi vj = false := by
  rw [edgeIntersects_eq]
  simp [h]

/-- When no edge of the chain is crossed the flag is returned as it was. -/
theorem rayCast_of_no_crossing (lon lat : ℚ) (P : Vertex → Prop)
    (hP : ∀ u w, P u → P w → edgeIntersects lon lat u w = false) :
    ∀ (l : List Vertex) (vj : Vertex) (inside : Bool), P vj → (∀ v ∈ l, P v) →
      rayCast lon lat vj l inside = inside := by
  intro l
  induction l with
  | nil => intro vj inside _ _; rfl
  | cons vi rest ih =>
    intro vj inside hj hall
    have hi : P vi := hall vi (List.mem_cons_self _ _)
    simp only [rayCast, hP vi vj hi hj]
    exact ih vi inside hi (fun v hv => hall v (List.mem_cons_of_mem _ hv))

/-- When every edge of the chain is crossed exactly if its endpoints lie on different sides
of the latitude, the flag flips exactly if the two ends of the chain lie on different sides. -/
theorem rayCast_telescope (lon lat : ℚ) (P : Vertex → Prop)
    (hP : ∀ u w, P u → P w → edgeIntersects lon lat u w = (aboveLat lat u != aboveLat lat w)) :
    ∀ (l : List Vertex) (vj : Vertex) (inside : Bool), P vj → (∀ v ∈ l, P v) →
      rayCast lon lat vj l inside
        = (inside != (aboveLat lat vj != aboveLat lat (l.getLastD vj))) := by
  intro l
  induction l with
  | nil => intro vj inside _ _; simp [rayCast]
  | cons vi rest ih =>
    intro vj inside hj hall
    have hi : P vi := hall vi (List.mem_cons_self _ _)
    simp only [rayCast, hP vi vj hi hj]
    rw [ih vi _ hi (fun v hv => hall v (List.mem_cons_of_mem _ hv))]
    rw [List.getLastD_cons]
    cases inside <;> cases aboveLat lat vi <;> cases aboveLat lat vj <;>
      cases aboveLat lat (rest.getLastD vi) <;> rfl

theorem getLastD_getLast {α : Type} (l : List α) (hne : l ≠ []) (a : α) :
    l.getLastD a = l.getLast hne := by
  cases l with
  | nil => exact absurd rfl hne
  | cons b t =>
    rw [List.getLastD_cons, List.getLast_eq_getLastD]

theorem pointInPolygon_ring (lon lat : ℚ) (ring : List Vertex) (rest : List (List Vertex))
    (h3 : 3 ≤ ring.length) (hne : ring ≠ []) :
    pointInPolygon (lon, lat) (some { coordinates := some (ring :: rest) })
      = rayCast lon lat (ring.getLast hne) ring false := by
  unfold pointInPolygon
  simp only
  rw [if_neg (by omega), List.getLast?_eq_getLast _ hne]

/-- C5: for a polygon whose first ring has at least 3 vertices, `pointInPolygon` returns
false at every point lying strictly outside the bounding box of the ring's vertices (west of
all, east of all, south of all or north of all of them). -/
theorem pointInPolygon_outside_bbox (lon lat : ℚ) (ring : List Vertex)
    (rest : List (List Vertex)) (h3 : 3 ≤ ring.length)
    (hout : (∀ v ∈ ring, lon < v.1) ∨ (∀ v ∈ ring, v.1 < lon)
      ∨ (∀ v ∈ ring, lat < v.2) ∨ (∀ v ∈ ring, v.2 < lat)) :
    pointInPolygon (lon, lat) (some { coordinates := some (ring :: rest) }) = false := by
  have hne : ring ≠ [] := by
    intro h
    rw [h] at h3
    simp at h3
  rw [pointInPolygon_ring lon lat ring rest h3 hne]
  have hlast : ring.getLast hne ∈ ring := List.getLast_mem hne
  rcases hout with h | h | h | h
  · rw [rayCast_telescope lon lat (fun v => lon < v.1)
      (fun u w hu hw => edgeIntersects_of_west lon lat u w hu hw) ring _ false (h _ hlast) h]
    rw [getLastD_getLast ring hne]
    simp
  · exact rayCast_of_no_crossing lon lat (fun v => v.1 < lon)
      (fun u w hu hw => edgeIntersects_of_east lon lat u w hu hw) ring _ false (h _ hlast) h
  · exact rayCast_of_no_crossing lon lat (fun v => lat < v.2)
      (fun u w hu hw => edgeIntersects_of_same_side lon lat u w (by
        simp only [aboveLat]
        rw [decide_eq_true hu, decide_eq_true hw])) ring _ false (h _ hlast) h
  · exact rayCast_of_no_crossing lon lat (fun v => v.2 < lat)
      (fun u w hu hw => edgeIntersects_of_same_side lon lat u w (by
        simp only [aboveLat]
        rw [decide_eq_false (not_lt.mpr (le_of_lt hu)),
          decide_eq_false (not_lt.mpr (le_of_lt hw))])) ring _ false (h _ hlast) h

theorem pointInPolygon_outside_bbox_witness :
    pointInPolygon (200, 1) (some { coordinates := some [sampleTriangle] }) = false :=
  pointInPolygon_outside_bbox 200 1 sampleTriangle [] (by decide)
    (Or.inr (Or.inl (by decide!)))

/-! ### Position cache -/

theorem getRealtimePosition_hit (data : StaticData) (ext : Externals) (clock : Clock)
    (cache : PositionCache) (satellite : Satellite) (q : Option String) (entry : CacheEntry)
    (htle : hasTle satellite = true) (hentry : cache satellite._id = some entry)
    (hage : clock.handler - entry.timestamp < CACHE_TTL_MS) :
    getRealtimePosition data ext clock cache (some satellite) q
      = (cache, .json { entry.response with timestamp := clock.handler, cached := true }) := by
  simp only [hasTle, Bool.not_eq_true'] at htle
  simp only [getRealtimePosition, htle, hentry, hage, if_true]
  simp

theorem getRealtimePosition_miss (data : StaticData) (ext : Externals) (clock : Clock)
    (cache : PositionCache) (satellite : Satellite) (q : Option String)
    (htle : hasTle satellite = true) (hmiss : ¬ cacheHit cache satellite._id clock.handler) :
    getRealtimePosition data ext clock cache (some satellite) q
      = recompute data ext clock cache satellite q := by
  simp only [hasTle, Bool.not_eq_true'] at htle
  simp only [getRealtimePosition, htle]
  cases hc : cache satellite._id with
  | none => simp
  | some entry =>
    have hage : ¬ clock.handler - entry.timestamp < CACHE_TTL_MS :=
      fun h => hmiss ⟨entry, hc, h⟩
    simp [hage]

theorem recompute_json_not_cached (data : StaticData) (ext : Externals) (clock : Clock)
    (cache : PositionCache) (satellite : Satellite) (q : Option String)
    (cache' : PositionCache) (body : RealtimeResponse)
    (h : recompute data ext clock cache satellite q = (cache', .json body)) :
    body.cached = false
      ∧ cache' satellite._id = some { timestamp := clock.handler, response := body } := by
  unfold recompute at h
  split at h
  · split at h <;> simp at h
  · simp only [Prod.mk.injEq, Reply.json.injEq] at h
    obtain ⟨h1, h2⟩ := h
    subst h1 h2
    exact ⟨rfl, by simp [PositionCache.set]⟩

theorem getRealtimePosition_json_tle (data : StaticData) (ext : Externals) (clock : Clock)
    (cache cache' : PositionCache) (satellite : Satellite) (q : Option String)
    (body : RealtimeResponse)
    (h : getRealtimePosition data ext clock cache (some satellite) q = (cache', .json body)) :
    hasTle satellite = true := by
  cases ht : hasTle satellite with
  | true => rfl
  | false =>
    simp only [hasTle, Bool.not_eq_false'] at ht
    simp [getRealtimePosition, ht] at h

theorem firstRequest_eq :
    firstRequest
      = (emptyCache.set sampleSat._id
          { timestamp := 1000
            response := freshResponse sampleData sampleExt (clockAt 1000) sampleSat none
              { latitude := 25 / 2, longitude := 309 / 4, altitudeKm := 50924 / 100,
                timestamp := 1000 } },
         .json (freshResponse sampleData sampleExt (clockAt 1000) sampleSat none
              { latitude := 25 / 2, longitude := 309 / 4, altitudeKm := 50924 / 100,
                timestamp := 1000 })) := by
  unfold firstRequest
  rw [getRealtimePosition_miss _ _ _ _ _ _ (by decide)
    (by rintro ⟨e, he, -⟩; simp [emptyCache] at he)]
  unfold recompute
  have hp : getCurrentPosition sampleExt sampleSat (clockAt 1000).position
      = .ok { latitude := 25 / 2, longitude := 309 / 4, altitudeKm := 50924 / 100,
              timestamp := 1000 } := sample_position 1000
  rw [hp]
  rfl

theorem secondRequest_eq :
    secondRequest
      = (firstRequest.1,
         .json { freshResponse sampleData sampleExt (clockAt 1000) sampleSat none
                   { latitude := 25 / 2, longitude := 309 / 4, altitudeKm := 50924 / 100,
                     timestamp := 1000 } with timestamp := 3000, cached := true }) := by
  unfold secondRequest
  rw [getRealtimePosition_hit sampleData sampleExt (clockAt 3000) firstRequest.1 sampleSat none
    { timestamp := 1000
      response := freshResponse sampleData sampleExt (clockAt 1000) sampleSat none
        { latitude := 25 / 2, longitude := 309 / 4, altitudeKm := 50924 / 100,
          timestamp := 1000 } }
    (by decide) (by rw [firstRequest_eq]; simp [PositionCache.set]) (by decide)]
  rfl

/-- C7, counterexample: a first request computes and stores its response at 1000 ms with
`cached = false`; the second request for the same satellite, 2 s later, is answered with
`cached = true`, so its payload is not the first payload with only the outer timestamp
replaced. -/
theorem cached_reply_differs_in_cached_flag :
    ((3000 : ℤ) - 1000 < CACHE_TTL_MS)
      ∧ firstRequest.2.cachedFlag = some false ∧ secondRequest.2.cachedFlag = some true
      ∧ ∃ r1 r2, firstRequest.2 = .json r1 ∧ secondRequest.2 = .json r2
          ∧ r2 ≠ { r1 with timestamp := r2.timestamp } := by
  rw [firstRequest_eq, secondRequest_eq]
  refine ⟨by decide, rfl, rfl, _, _, rfl, rfl, ?_⟩
  intro h
  have hc := congrArg RealtimeResponse.cached h
  simp [freshResponse] at hc

/-- C7, amended: if a request computes and stores its response `r1` at time `t0` (its reply
has `cached = false`) and a second request for the same satellite key, the satellite again
found with both TLE lines, arrives at `t1` with `t1 - t0 < 5000` ms against the cache left by
the first, then the second reply is `r1` with `timestamp` set to `t1` and `cached` set to
true: the two payloads agree in every field except `timestamp` and `cached`, and the cache is
left as it was. -/
theorem second_request_within_ttl (data data2 : StaticData) (ext ext2 : Externals)
    (clock1 clock2 : Clock) (cache0 cache1 : PositionCache) (sat sat2 : Satellite)
    (q1 q2 : Option String) (r1 : RealtimeResponse)
    (h1 : getRealtimePosition data ext clock1 cache0 (some sat) q1 = (cache1, .json r1))
    (hfresh : r1.cached = false) (hkey : sat2._id = sat._id) (htle2 : hasTle sat2 = true)
    (hage : clock2.handler - clock1.handler < 5000) :
    getRealtimePosition data2 ext2 clock2 cache1 (some sat2) q2
      = (cache1, .json { r1 with timestamp := clock2.handler, cached := true }) := by
  have htle := getRealtimePosition_json_tle _ _ _ _ _ _ _ _ h1
  have hstored : cache1 sat._id = some { timestamp := clock1.handler, response := r1 } := by
    by_cases hhit : cacheHit cache0 sat._id clock1.handler
    · obtain ⟨entry, he, ha⟩ := hhit
      rw [getRealtimePosition_hit data ext clock1 cache0 sat q1 entry htle he ha] at h1
      simp only [Prod.mk.injEq, Reply.json.injEq] at h1
      rw [← h1.2] at hfresh
      simp at hfresh
    · rw [getRealtimePosition_miss data ext clock1 cache0 sat q1 htle hhit] at h1
      exact (recompute_json_not_cached _ _ _ _ _ _ _ _ h1).2
  rw [← hkey] at hstored
  exact getRealtimePosition_hit data2 ext2 clock2 cache1 sat2 q2 _ htle2 hstored hage

theorem second_request_within_ttl_witness :
    secondRequest
      = (firstRequest.1,
         .json { freshResponse sampleData sampleExt (clockAt 1000) sampleSat none
                   { latitude := 25 / 2, longitude := 309 / 4, altitudeKm := 50924 / 100,
                     timestamp := 1000 } with timestamp := 3000, cached := true }) :=
  second_request_within_ttl sampleData sampleData sampleExt sampleExt (clockAt 1000)
    (clockAt 3000) emptyCache firstRequest.1 sampleSat sampleSat none none _
    (by show firstRequest = _; rw [firstRequest_eq]) rfl rfl (by decide) (by decide)

/-- C8: for a satellite found with both TLE lines, `getRealtimePosition` answers from the
cache exactly when an entry exists for the satellite key with `now - entry.timestamp < 5000`
ms (the reply is then the stored response with `timestamp = now` and `cached = true`, the
cache unchanged); otherwise it recomputes and, when the position is obtained, overwrites the
entry of that key with `timestamp = now` and the newly assembled response, which it sends. -/
theorem getRealtimePosition_cache_policy (data : StaticData) (ext : Externals) (clock : Clock)
    (cache : PositionCache) (satellite : Satellite) (q : Option String)
    (htle : hasTle satellite = true) :
    CACHE_TTL_MS = 5000
      ∧ (∀ entry, cache satellite._id = some entry →
          clock.handler - entry.timestamp < 5000 →
          getRealtimePosition data ext clock cache (some satellite) q
            = (cache, .json { entry.response with timestamp := clock.handler, cached := true }))
      ∧ (¬ cacheHit cache satellite._id clock.handler →
          ∀ position, getCurrentPosition ext satellite clock.position = .ok position →
          getRealtimePosition data ext clock cache (some satellite) q
            = (cache.set satellite._id
                { timestamp := clock.handler
                  response := freshResponse data ext clock satellite q position },
               .json (freshResponse data ext clock satellite q position)))
      ∧ (∀ body, (getRealtimePosition data ext clock cache (some satellite) q).2 = .json body →
          (body.cached = true ↔ cacheHit cache satellite._id clock.handler)) := by
  refine ⟨rfl, fun entry he ha => getRealtimePosition_hit _ _ _ _ _ _ entry htle he ha, ?_, ?_⟩
  · intro hmiss position hpos
    rw [getRealtimePosition_miss _ _ _ _ _ _ htle hmiss]
    unfold recompute
    rw [hpos]
  · intro body hbody
    by_cases hhit : cacheHit cache satellite._id clock.handler
    · obtain ⟨entry, he, ha⟩ := hhit
      rw [getRealtimePosition_hit _ _ _ _ _ _ entry htle he ha] at hbody
      simp only [Reply.json.injEq] at hbody
      rw [← hbody]
      exact ⟨fun _ => ⟨entry, he, ha⟩, fun _ => rfl⟩
    · rw [getRealtimePosition_miss _ _ _ _ _ _ htle hhit] at hbody
      have hc := (recompute_json_not_cached data ext clock cache satellite q
        (recompute data ext clock cache satellite q).1 body (by rw [← hbody])).1
      rw [hc]
      exact ⟨fun h => absurd h (by simp), fun h => absurd h hhit⟩

theorem getRealtimePosition_cache_policy_witness :
    getRealtimePosition sampleData sampleExt (clockAt 7000) emptyCache (some sampleSat) none
      = (emptyCache.set sampleSat._id
          { timestamp := 7000
            response := freshResponse sampleData sampleExt (clockAt 7000) sampleSat none
              { latitude := 25 / 2, longitude := 309 / 4, altitudeKm := 50924 / 100,
                timestamp := 7000 } },
         .json (freshResponse sampleData sampleExt (clockAt 7000) sampleSat none
              { latitude := 25 / 2, longitude := 309 / 4, altitudeKm := 50924 / 100,
                timestamp := 7000 })) :=
  (getRealtimePosition_cache_policy sampleData sampleExt (clockAt 7000) emptyCache sampleSat
    none (by decide)).2.2.1 (by rintro ⟨e, he, -⟩; simp [emptyCache] at he) _
    (sample_position 7000)

/-! ### Best-observer pass selector -/

theorem probeObserver_eq (ext : Externals) (tle : String) (ts : ℤ) (o : Observer)
    (acc : ℚ × Option Observer) :
    probeObserver ext tle ts o acc
      = match observedElevation ext tle ts o with
        | some el => if el > acc.1 then (el, some o) else acc
        | none => acc := by
  unfold probeObserver observedElevation
  split
  · split <;> rfl
  · rfl

theorem probeObserver_spec (ext : Externals) (tle : String) (ts : ℤ) (o : Observer)
    (acc : ℚ × Option Observer) :
    acc.1 ≤ (probeObserver ext tle ts o acc).1
      ∧ (∀ e, observedElevation ext tle ts o = some e → e ≤ (probeObserver ext tle ts o acc).1)
      ∧ (probeObserver ext tle ts o acc = acc
          ∨ ((probeObserver ext tle ts o acc).2 = some o
              ∧ observedElevation ext tle ts o = some (probeObserver ext tle ts o acc).1
              ∧ acc.1 < (probeObserver ext tle ts o acc).1)) := by
  cases hobs : observedElevation ext tle ts o with
  | none =>
    have hval : probeObserver ext tle ts o acc = acc := by rw [probeObserver_eq, hobs]
    rw [hval]
    simp
  | some el =>
    have hval : probeObserver ext tle ts o acc
        = if el > acc.1 then (el, some o) else acc := by rw [probeObserver_eq, hobs]
    by_cases hgt : el > acc.1
    · rw [if_pos hgt] at hval
      rw [hval]
      exact ⟨le_of_lt hgt, fun e he => by cases he; exact le_refl _, Or.inr ⟨rfl, rfl, hgt⟩⟩
    · rw [if_neg hgt] at hval
      rw [hval]
      exact ⟨le_refl _, fun e he => by cases he; exact not_lt.mp hgt, Or.inl rfl⟩

theorem probeAll_spec (ext : Externals) (tle : String) (ts : ℤ) :
    ∀ (l : List Observer) (acc : ℚ × Option Observer),
      acc.1 ≤ (probeAll ext tle ts l acc).1
        ∧ (∀ o ∈ l, ∀ e, observedElevation ext tle ts o = some e →
            e ≤ (probeAll ext tle ts l acc).1)
        ∧ (probeAll ext tle ts l acc = acc
            ∨ ∃ o ∈ l, (probeAll ext tle ts l acc).2 = some o
                ∧ observedElevation ext tle ts o = some (probeAll ext tle ts l acc).1
                ∧ acc.1 < (probeAll ext tle ts l acc).1) := by
  intro l
  induction l with
  | nil =>
    intro acc
    simp [probeAll]
  | cons o rest ih =>
    intro acc
    obtain ⟨h1, h2, h3⟩ := probeObserver_spec ext tle ts o acc
    obtain ⟨i1, i2, i3⟩ := ih (probeObserver ext tle ts o acc)
    simp only [probeAll]
    refine ⟨le_trans h1 i1, ?_, ?_⟩
    · intro o' ho' e he
      rcases List.mem_cons.mp ho' with heq | hmem
      · subst heq
        exact le_trans (h2 e he) i1
      · exact i2 o' hmem e he
    · rcases i3 with i3 | ⟨o', ho', hb, hob, hlt⟩
      · rcases h3 with h3 | ⟨hb, hob, hlt⟩
        · left
          rw [i3, h3]
        · right
          refine ⟨o, List.mem_cons_self _ _, ?_, ?_, ?_⟩
          · rw [i3]; exact hb
          · rw [i3]; exact hob
          · rw [i3]; exact hlt
      · right
        exact ⟨o', List.mem_cons_of_mem _ ho', hb, hob, lt_of_le_of_lt h1 hlt⟩

theorem probeAll_append (ext : Externals) (tle : String) (ts : ℤ) :
    ∀ (l l' : List Observer) (acc : ℚ × Option Observer),
      probeAll ext tle ts (l ++ l') acc = probeAll ext tle ts l' (probeAll ext tle ts l acc) := by
  intro l
  induction l with
  | nil => intro l' acc; rfl
  | cons o rest ih =>
    intro l' acc
    simp only [List.cons_append, probeAll]
    exact ih l' _

theorem stepBest_eq (data : StaticData) (ext : Externals) (tle : String) (ts : ℤ) :
    stepBest data ext tle ts
      = probeAll ext tle ts (data.observers ++ [indiaCenter]) (-90, none) := by
  rw [probeAll_append]
  rfl

/-- The per-step maximum bounds every finite elevation reported at the step, and when it
is above its initial value -90 it is the elevation reported for the step's best observer,
which is a registry entry or the India centre. -/
theorem stepBest_spec (data : StaticData) (ext : Externals) (tle : String) (ts : ℤ) :
    (∀ o ∈ data.observers ++ [indiaCenter], ∀ e, observedElevation ext tle ts o = some e →
        e ≤ (stepBest data ext tle ts).1)
      ∧ (stepBest data ext tle ts = (-90, none)
          ∨ ∃ o ∈ data.observers ++ [indiaCenter], (stepBest data ext tle ts).2 = some o
              ∧ observedElevation ext tle ts o = some (stepBest data ext tle ts).1
              ∧ -90 < (stepBest data ext tle ts).1) := by
  rw [stepBest_eq]
  obtain ⟨-, h2, h3⟩ := probeAll_spec ext tle ts (data.observers ++ [indiaCenter]) (-90, none)
  exact ⟨h2, h3⟩

/-- The scan of `getNextPass` ends with nothing or with the first window and its peak. -/
theorem passLoop_spec (data : StaticData) (ext : Externals) (tle : String) (now : ℤ)
    (stepMs N : ℕ) :
    ∀ (n i : ℕ) (st : PassState), i + n = N + 1 → PassInv data ext tle now stepMs i st →
      PassFinal data ext tle now stepMs N (passLoop data ext tle now stepMs n i st) := by
  intro n
  induction n with
  | zero =>
    intro i st hin hinv
    simp only [passLoop]
    rcases hinv with ⟨hinit, hbelow⟩ | ⟨a, b, k, hak, hkb, hbi, hw⟩
    · exact Or.inl ⟨hinit, fun j hj => hbelow j (by omega)⟩
    · exact Or.inr ⟨a, b, k, hak, hkb, by omega, hw, fun h => by omega⟩
  | succ n ih =>
    intro i st hin hinv
    simp only [passLoop]
    have hM : (stepBest data ext tle (now + (i : ℤ) * stepMs)).1
        = stepMax data ext tle now stepMs i := rfl
    have hB : (stepBest data ext tle (now + (i : ℤ) * stepMs)).2
        = stepObserver data ext tle now stepMs i := rfl
    have hT : now + (i : ℤ) * stepMs = passTime now stepMs i := rfl
    rw [hM, hB, hT]
    by_cases hpos : stepMax data ext tle now stepMs i > 0
    · rw [if_pos hpos]
      apply ih (i + 1) _ (by omega)
      rcases hinv with ⟨hinit, hbelow⟩ | ⟨a, b, k, hak, hkb, hbi, hw⟩
      · subst hinit
        have hgt : stepMax data ext tle now stepMs i > passInit.maxElevation := by
          show stepMax data ext tle now stepMs i > -90
          linarith
        refine Or.inr ⟨i, i, i, le_refl _, le_refl _, rfl, ?_⟩
        refine ⟨by simp [passInit], rfl, hbelow, ?_, by simp only [if_pos hgt],
          by simp only [if_pos hgt], ?_, ?_⟩
        · intro j h1 h2
          have : j = i := by omega
          subst this
          exact hpos
        · intro j h1 h2
          have : j = i := by omega
          subst this
          exact le_refl _
        · intro j h1 h2
          omega
      · obtain ⟨hs, he, hbefore, hin', hmax, hbest, hle, hlt⟩ := hw
        by_cases hgt : stepMax data ext tle now stepMs i > st.maxElevation
        · refine Or.inr ⟨a, i, i, by omega, le_refl _, rfl, ?_⟩
          refine ⟨by simp [hs], rfl, hbefore, ?_, by simp only [if_pos hgt],
            by simp only [if_pos hgt], ?_, ?_⟩
          · intro j h1 h2
            rcases Nat.lt_or_ge j i with hji | hji
            · exact hin' j h1 (by omega)
            · have : j = i := by omega
              subst this
              exact hpos
          · intro j h1 h2
            rcases Nat.lt_or_ge j i with hji | hji
            · have := hle j h1 (by omega)
              rw [hmax] at hgt
              exact le_of_lt (lt_of_le_of_lt this hgt)
            · have : j = i := by omega
              subst this
              exact le_refl _
          · intro j h1 h2
            have := hle j h1 (by omega)
            rw [hmax] at hgt
            exact lt_of_le_of_lt this hgt
        · refine Or.inr ⟨a, i, k, hak, by omega, rfl, ?_⟩
          refine ⟨by simp [hs], rfl, hbefore, ?_, by simp only [if_neg hgt]; exact hmax,
            by simp only [if_neg hgt]; exact hbest, ?_, hlt⟩
          · intro j h1 h2
            rcases Nat.lt_or_ge j i with hji | hji
            · exact hin' j h1 (by omega)
            · have : j = i := by omega
              subst this
              exact hpos
          · intro j h1 h2
            rcases Nat.lt_or_ge j i with hji | hji
            · exact hle j h1 (by omega)
            · have : j = i := by omega
              subst this
              rw [hmax] at hgt
              exact not_lt.mp hgt
    · rw [if_neg hpos]
      rcases hinv with ⟨hinit, hbelow⟩ | ⟨a, b, k, hak, hkb, hbi, hw⟩
      · subst hinit
        simp only [passInit, Option.isSome_none, Bool.false_eq_true, if_false]
        apply ih (i + 1) _ (by omega)
        refine Or.inl ⟨rfl, fun j hj => ?_⟩
        rcases Nat.lt_or_ge j i with hji | hji
        · exact hbelow j hji
        · have : j = i := by omega
          subst this
          exact hpos
      · have hsome : st.passStart.isSome = true := by rw [hw.1]; rfl
        rw [if_pos hsome]
        refine Or.inr ⟨a, b, k, hak, hkb, by omega, hw, fun _ => ?_⟩
        rw [hbi]
        exact hpos

/-- `getNextPass` on a record with TLE lines returns `null` when no scanned step has a
positive per-step maximum, and otherwise the pass built from the first window. -/
theorem getNextPass_cases (data : StaticData) (ext : Externals) (satellite : Satellite)
    (L S : ℕ) (now : ℤ) (tle : String) (htle : buildTleString satellite = .ok tle) :
    (getNextPass data ext satellite L S now = none
        ∧ ∀ j, j ≤ (L * 60 * 1000) / (S * 1000) →
            ¬ stepMax data ext tle now (S * 1000) j > 0)
      ∨ ∃ a b k st, a ≤ k ∧ k ≤ b ∧ b ≤ (L * 60 * 1000) / (S * 1000)
          ∧ IsWindow data ext tle now (S * 1000) a b k st
          ∧ (b < (L * 60 * 1000) / (S * 1000) →
              ¬ stepMax data ext tle now (S * 1000) (b + 1) > 0)
          ∧ getNextPass data ext satellite L S now
              = some { startTime := passTime now (S * 1000) a
                       endTime := passTime now (S * 1000) b
                       maxElevationDeg := round2 (stepMax data ext tle now (S * 1000) k)
                       durationSeconds := mathRound
                         (((passTime now (S * 1000) b - passTime now (S * 1000) a : ℤ) : ℚ)
                           / 1000)
                       bestObserver := stepObserver data ext tle now (S * 1000) k } := by
  have hfinal := passLoop_spec data ext tle now (S * 1000) ((L * 60 * 1000) / (S * 1000))
    ((L * 60 * 1000) / (S * 1000) + 1) 0 passInit (by omega)
    (Or.inl ⟨rfl, fun j hj => absurd hj (Nat.not_lt_zero j)⟩)
  unfold getNextPass
  rw [htle]
  simp only
  rcases hfinal with ⟨hinit, hbelow⟩ | ⟨a, b, k, hak, hkb, hbN, hw, hnext⟩
  · left
    refine ⟨?_, hbelow⟩
    have h0 : passLoop data ext tle now (S * 1000) ((L * 60 * 1000) / (S * 1000) + 1) 0
        { passStart := none, passEnd := none, maxElevation := -90, bestObserver := none }
        = passInit := hinit
    rw [h0]
    rfl
  · right
    refine ⟨a, b, k, _, hak, hkb, hbN, hw, hnext, ?_⟩
    obtain ⟨hs, he, -, hin', hmax, hbest, -, -⟩ := hw
    have hpos : ¬ stepMax data ext tle now (S * 1000) k ≤ 0 := not_le.mpr (hin' k hak hkb)
    have hs' : (passLoop data ext tle now (S * 1000) ((L * 60 * 1000) / (S * 1000) + 1) 0
        { passStart := none, passEnd := none, maxElevation := -90,
          bestObserver := none }).passStart = some (passTime now (S * 1000) a) := hs
    have he' : (passLoop data ext tle now (S * 1000) ((L * 60 * 1000) / (S * 1000) + 1) 0
        { passStart := none, passEnd := none, maxElevation := -90,
          bestObserver := none }).passEnd = some (passTime now (S * 1000) b) := he
    have hmax' : (passLoop data ext tle now (S * 1000) ((L * 60 * 1000) / (S * 1000) + 1) 0
        { passStart := none, passEnd := none, maxElevation := -90,
          bestObserver := none }).maxElevation = stepMax data ext tle now (S * 1000) k := hmax
    have hbest' : (passLoop data ext tle now (S * 1000) ((L * 60 * 1000) / (S * 1000) + 1) 0
        { passStart := none, passEnd := none, maxElevation := -90,
          bestObserver := none }).bestObserver
          = stepObserver data ext tle now (S * 1000) k := hbest
    rw [hs', he']
    simp only [hmax', hbest']
    rw [if_neg hpos]

theorem passTime_le_iff (now : ℤ) (stepMs : ℕ) (h : 0 < stepMs) (i j : ℕ) :
    passTime now stepMs i ≤ passTime now stepMs j ↔ i ≤ j := by
  unfold passTime
  have hpos : (0 : ℤ) < (stepMs : ℤ) := by exact_mod_cast h
  constructor
  · intro hle
    have h1 : (i : ℤ) * stepMs ≤ (j : ℤ) * stepMs := by linarith
    have h2 : (i : ℤ) ≤ (j : ℤ) := le_of_mul_le_mul_right h1 hpos
    exact_mod_cast h2
  · intro hle
    have h2 : (i : ℤ) ≤ (j : ℤ) := by exact_mod_cast hle
    have h1 : (i : ℤ) * stepMs ≤ (j : ℤ) * stepMs := mul_le_mul_of_nonneg_right h2 (le_of_lt hpos)
    linarith

theorem round2_twelve : round2 12 = 12 := by
  unfold round2
  rw [mathRound_eq (n := 1200) (by norm_num) (by norm_num)]
  norm_num

/-- C10: for a positive step, a pass returned by `getNextPass` starts and ends at scanned
steps, its `maxElevationDeg` is the largest per-step maximum over the steps from `startTime`
to `endTime`, rounded to two decimals, and its `bestObserver` is the observer (a registry entry or the India centre) that
held the per-step maximum at the step `k` where that peak was attained: its own elevation
there equals the per-step maximum and no observer reports more. In particular, with a
registry of three cities of which only the second ever exceeds 0 degrees, at 12 degrees,
while the centre stays at -5 degrees, the result has the second city as `bestObserver` and
`maxElevationDeg = 12`. -/
theorem getNextPass_best_observer (data : StaticData) (ext : Externals) (satellite : Satellite)
    (L S : ℕ) (now : ℤ) (tle : String) (htle : buildTleString satellite = .ok tle)
    (hS : 0 < S) :
    (∀ p, getNextPass data ext satellite L S now = some p →
      ∃ a b k o, a ≤ k ∧ k ≤ b ∧ b ≤ (L * 60 * 1000) / (S * 1000)
        ∧ p.startTime = passTime now (S * 1000) a
        ∧ p.endTime = passTime now (S * 1000) b
        ∧ (∀ j, p.startTime ≤ passTime now (S * 1000) j →
            passTime now (S * 1000) j ≤ p.endTime →
            stepMax data ext tle now (S * 1000) j ≤ stepMax data ext tle now (S * 1000) k)
        ∧ p.maxElevationDeg = round2 (stepMax data ext tle now (S * 1000) k)
        ∧ p.bestObserver = some o
        ∧ stepObserver data ext tle now (S * 1000) k = some o
        ∧ o ∈ data.observers ++ [indiaCenter]
        ∧ observedElevation ext tle (passTime now (S * 1000) k) o
            = some (stepMax data ext tle now (S * 1000) k)
        ∧ (∀ o' ∈ data.observers ++ [indiaCenter], ∀ e,
            observedElevation ext tle (passTime now (S * 1000) k) o' = some e →
            e ≤ stepMax data ext tle now (S * 1000) k))
      ∧ (∀ c1 c2 c3 : Observer, data.observers = [c1, c2, c3] →
          (∀ j, j ≤ (L * 60 * 1000) / (S * 1000) → ∀ e,
            observedElevation ext tle (passTime now (S * 1000) j) c1 = some e → e ≤ 0) →
          (∀ j, j ≤ (L * 60 * 1000) / (S * 1000) → ∀ e,
            observedElevation ext tle (passTime now (S * 1000) j) c3 = some e → e ≤ 0) →
          (∀ j, j ≤ (L * 60 * 1000) / (S * 1000) →
            observedElevation ext tle (passTime now (S * 1000) j) indiaCenter = some (-5)) →
          (∀ j, j ≤ (L * 60 * 1000) / (S * 1000) → ∀ e,
            observedElevation ext tle (passTime now (S * 1000) j) c2 = some e →
            e ≤ 0 ∨ e = 12) →
          (∃ j, j ≤ (L * 60 * 1000) / (S * 1000)
            ∧ observedElevation ext tle (passTime now (S * 1000) j) c2 = some 12) →
          ∃ p, getNextPass data ext satellite L S now = some p
            ∧ p.bestObserver = some c2 ∧ p.maxElevationDeg = 12) := by
  have hcases := getNextPass_cases data ext satellite L S now tle htle
  -- the observer attached to a step with a positive per-step maximum
  have hobs : ∀ k, stepMax data ext tle now (S * 1000) k > 0 →
      ∃ o, stepObserver data ext tle now (S * 1000) k = some o
        ∧ o ∈ data.observers ++ [indiaCenter]
        ∧ observedElevation ext tle (passTime now (S * 1000) k) o
            = some (stepMax data ext tle now (S * 1000) k) := by
    intro k hk
    obtain ⟨-, h2⟩ := stepBest_spec data ext tle (passTime now (S * 1000) k)
    rcases h2 with h2 | ⟨o, ho, hb, hel, -⟩
    · have : stepMax data ext tle now (S * 1000) k = -90 := by
        unfold stepMax
        rw [h2]
      rw [this] at hk
      norm_num at hk
    · exact ⟨o, hb, ho, hel⟩
  constructor
  · intro p hp
    rcases hcases with ⟨hnone, -⟩ | ⟨a, b, k, st, hak, hkb, hbN, hw, -, hsome⟩
    · rw [hnone] at hp
      cases hp
    · rw [hsome] at hp
      cases hp
      obtain ⟨-, -, -, hin', -, -, hle, -⟩ := hw
      obtain ⟨o, hb, ho, hel⟩ := hobs k (hin' k hak hkb)
      have hS' : 0 < S * 1000 := by omega
      exact ⟨a, b, k, o, hak, hkb, hbN, rfl, rfl,
        fun j h1 h2 => hle j ((passTime_le_iff now _ hS' a j).mp h1)
          ((passTime_le_iff now _ hS' j b).mp h2),
        rfl, hb, hb, ho, hel,
        (stepBest_spec data ext tle (passTime now (S * 1000) k)).1⟩
  · intro c1 c2 c3 hreg h1 h3 hc h2 ⟨j0, hj0, hj0e⟩
    rcases hcases with ⟨-, hbelow⟩ | ⟨a, b, k, st, hak, hkb, hbN, hw, -, hsome⟩
    · exfalso
      apply hbelow j0 hj0
      have hmem : c2 ∈ data.observers ++ [indiaCenter] := by
        rw [hreg]
        simp
      have := (stepBest_spec data ext tle (passTime now (S * 1000) j0)).1 c2 hmem 12 hj0e
      have h12 : (12 : ℚ) ≤ stepMax data ext tle now (S * 1000) j0 := this
      linarith
    · obtain ⟨-, -, -, hin', -, -, -, -⟩ := hw
      have hkpos := hin' k hak hkb
      have hkN : k ≤ (L * 60 * 1000) / (S * 1000) := le_trans hkb hbN
      obtain ⟨o, hb, ho, hel⟩ := hobs k hkpos
      rw [hreg] at ho
      simp only [List.cons_append, List.nil_append, List.mem_cons, List.mem_singleton,
        List.not_mem_nil, or_false] at ho
      have hmain : o = c2 ∧ stepMax data ext tle now (S * 1000) k = 12 := by
        rcases ho with rfl | rfl | rfl | rfl
        · have := h1 k hkN _ hel
          linarith
        · rcases h2 k hkN _ hel with h | h
          · linarith
          · exact ⟨rfl, h⟩
        · have := h3 k hkN _ hel
          linarith
        · have := hc k hkN
          rw [hel] at this
          simp only [Option.some.injEq] at this
          linarith
      refine ⟨_, hsome, ?_, ?_⟩
      · show stepObserver data ext tle now (S * 1000) k = some c2
        rw [hb, hmain.1]
      · show round2 (stepMax data ext tle now (S * 1000) k) = 12
        rw [hmain.2, round2_twelve]

theorem getNextPass_best_observer_witness :
    ∃ p, getNextPass sampleData cityExt sampleSat 60 30 0 = some p
      ∧ p.bestObserver = some { name := "Bengaluru", lat := 13, lon := 155 / 2 }
      ∧ p.maxElevationDeg = 12 :=
  (getNextPass_best_observer sampleData cityExt sampleSat 60 30 0 _ sample_tle
    (by decide)).2 _ _ _ rfl
    (fun j _ e he => by
      simp only [observedElevation, cityExt] at he
      norm_num at he
      rw [← he]
      norm_num)
    (fun j _ e he => by
      simp only [observedElevation, cityExt] at he
      norm_num at he
      rw [← he]
      norm_num)
    (fun j _ => by
      simp only [observedElevation, cityExt, indiaCenter]
      norm_num)
    (fun j _ e he => by
      simp only [observedElevation, cityExt] at he
      split_ifs at he with h
      · right
        simpa using he.symm
      · left
        have : e = -5 := by simpa using he.symm
        rw [this]
        norm_num)
    ⟨2, by decide, by
      simp only [observedElevation, cityExt, passTime]
      norm_num⟩

/-! ### Centroid of a convex polygon -/

/-- The flag returned by the loop of `pointInPolygon` flips once per crossed edge. -/
theorem rayCast_eq_crossings (lon lat : ℚ) :
    ∀ (l : List Vertex) (vj : Vertex) (inside : Bool),
      rayCast lon lat vj l inside
        = (inside != decide (crossings lon lat (ringEdges vj l) % 2 = 1)) := by
  intro l
  induction l with
  | nil => intro vj inside; simp [rayCast, ringEdges, crossings]
  | cons vi rest ih =>
    intro vj inside
    have hflip : ∀ c : ℕ, decide ((c + 1) % 2 = 1) = !decide (c % 2 = 1) := by
      intro c
      by_cases hc : c % 2 = 1
      · have : ¬ (c + 1) % 2 = 1 := by omega
        simp [hc, this]
      · have : (c + 1) % 2 = 1 := by omega
        simp [hc, this]
    simp only [rayCast, ringEdges, crossings, List.countP_cons]
    rw [ih]
    simp only [crossings]
    cases h : edgeIntersects lon lat vi vj
    · simp
    · simp only [if_true]
      rw [hflip]
      cases inside <;>
        cases decide (List.countP (fun e => edgeIntersects lon lat e.2 e.1)
          (ringEdges vi rest) % 2 = 1) <;> rfl

theorem ringEdges_append (x : Vertex) :
    ∀ (l : List Vertex) (p : Vertex),
      ringEdges p (l ++ [x]) = ringEdges p l ++ [(l.getLastD p, x)] := by
  intro l
  induction l with
  | nil => intro p; rfl
  | cons v rest ih =>
    intro p
    show (p, v) :: ringEdges v (rest ++ [x]) = (p, v) :: (ringEdges v rest ++ _)
    rw [ih, List.getLastD_cons]

theorem ringEdges_map_snd : ∀ (l : List Vertex) (p : Vertex),
    (ringEdges p l).map Prod.snd = l := by
  intro l
  induction l with
  | nil => intro p; rfl
  | cons v rest ih =>
    intro p
    simp only [ringEdges, List.map_cons]
    rw [ih]

theorem ringEdges_map_fst : ∀ (l : List Vertex) (p : Vertex),
    (ringEdges p l).map Prod.fst = (p :: l).dropLast := by
  intro l
  induction l with
  | nil => intro p; rfl
  | cons v rest ih =>
    intro p
    simp only [ringEdges, List.map_cons]
    rw [ih]
    rfl

theorem mem_ringEdges : ∀ (l : List Vertex) (p : Vertex) (e : Vertex × Vertex),
    e ∈ ringEdges p l → (e.1 = p ∨ e.1 ∈ l) ∧ e.2 ∈ l := by
  intro l
  induction l with
  | nil => intro p e he; simp [ringEdges] at he
  | cons v rest ih =>
    intro p e he
    simp only [ringEdges, List.mem_cons] at he
    rcases he with rfl | he
    · exact ⟨Or.inl rfl, List.mem_cons_self _ _⟩
    · obtain ⟨h1, h2⟩ := ih v e he
      refine ⟨Or.inr ?_, List.mem_cons_of_mem _ h2⟩
      rcases h1 with h1 | h1
      · rw [h1]; exact List.mem_cons_self _ _
      · exact List.mem_cons_of_mem _ h1

theorem mem_edgesOf (vs : List Vertex) (hne : vs ≠ []) (e : Vertex × Vertex)
    (he : e ∈ edgesOf vs) : e.1 ∈ vs ∧ e.2 ∈ vs := by
  obtain ⟨h1, h2⟩ := mem_ringEdges vs _ e he
  refine ⟨?_, h2⟩
  rcases h1 with h1 | h1
  · rw [h1, getLastD_getLast vs hne]
    exact List.getLast_mem hne
  · exact h1

/-- Along a chain of edges the upward and the downward crossings of a latitude balance, up to
the sides on which the chain starts and ends. -/
theorem up_down_balance (lat : ℚ) :
    ∀ (l : List Vertex) (vj : Vertex),
      (ringEdges vj l).countP (isUp lat) + (aboveLat lat vj).toNat
        = (ringEdges vj l).countP (isDown lat) + (aboveLat lat (l.getLastD vj)).toNat := by
  intro l
  induction l with
  | nil => intro vj; simp [ringEdges]
  | cons v rest ih =>
    intro vj
    have h := ih v
    rw [List.getLastD_cons]
    show ((vj, v) :: ringEdges v rest).countP (isUp lat) + _
      = ((vj, v) :: ringEdges v rest).countP (isDown lat) + _
    rw [List.countP_cons, List.countP_cons]
    have hu : isUp lat (vj, v) = (!aboveLat lat vj && aboveLat lat v) := rfl
    have hd : isDown lat (vj, v) = (aboveLat lat vj && !aboveLat lat v) := rfl
    rw [hu, hd]
    generalize aboveLat lat vj = x
    generalize aboveLat lat v = y at h ⊢
    generalize (aboveLat lat (rest.getLastD v)).toNat = z at h ⊢
    cases x <;> cases y <;> simp at h ⊢ <;> omega

theorem same_side_of_no_crossing (lat : ℚ) :
    ∀ (l : List Vertex) (vj : Vertex),
      (ringEdges vj l).countP (isUp lat) = 0 → (ringEdges vj l).countP (isDown lat) = 0 →
      ∀ v ∈ l, aboveLat lat v = aboveLat lat vj := by
  intro l
  induction l with
  | nil => intro vj _ _ v hv; simp at hv
  | cons w rest ih =>
    intro vj hu hd v hv
    have hu0 : ((vj, w) :: ringEdges w rest).countP (isUp lat) = 0 := hu
    have hd0 : ((vj, w) :: ringEdges w rest).countP (isDown lat) = 0 := hd
    rw [List.countP_cons] at hu0 hd0
    have hu' : (ringEdges w rest).countP (isUp lat) = 0 := (Nat.add_eq_zero_iff.mp hu0).1
    have hd' : (ringEdges w rest).countP (isDown lat) = 0 := (Nat.add_eq_zero_iff.mp hd0).1
    have hu1 := (Nat.add_eq_zero_iff.mp hu0).2
    have hd1 := (Nat.add_eq_zero_iff.mp hd0).2
    have hw : aboveLat lat w = aboveLat lat vj := by
      have hu2 : isUp lat (vj, w) = (!aboveLat lat vj && aboveLat lat w) := rfl
      have hd2 : isDown lat (vj, w) = (aboveLat lat vj && !aboveLat lat w) := rfl
      rw [hu2] at hu1
      rw [hd2] at hd1
      generalize aboveLat lat vj = x at hu1 hd1 ⊢
      generalize aboveLat lat w = y at hu1 hd1 ⊢
      cases x <;> cases y <;> simp at hu1 hd1 ⊢
    rcases List.mem_cons.mp hv with rfl | hv
    · exact hw
    · rw [ih w hu' hd' v hv, hw]

theorem countP_le_one_of_unique {α : Type} (p : α → Bool) :
    ∀ (l : List α), l.Nodup → (∀ x ∈ l, ∀ y ∈ l, p x = true → p y = true → x = y) →
      l.countP p ≤ 1 := by
  intro l
  induction l with
  | nil => intro _ _; simp
  | cons a rest ih =>
    intro hnd huniq
    have hnd' := List.nodup_cons.mp hnd
    have hrest := ih hnd'.2 (fun x hx y hy => huniq x (List.mem_cons_of_mem _ hx) y
      (List.mem_cons_of_mem _ hy))
    rw [List.countP_cons]
    by_cases hpa : p a = true
    · have hzero : rest.countP p = 0 := by
        rw [List.countP_eq_zero]
        intro x hx hpx
        have := huniq a (List.mem_cons_self _ _) x (List.mem_cons_of_mem _ hx) hpa hpx
        rw [← this] at hx
        exact hnd'.1 hx
      simp [hpa, hzero]
    · simp [hpa]
      exact hrest

theorem edgesOf_map_fst_nodup (vs : List Vertex) (hne : vs ≠ []) (hnd : vs.Nodup) :
    ((edgesOf vs).map Prod.fst).Nodup := by
  unfold edgesOf
  rw [ringEdges_map_fst, getLastD_getLast vs hne]
  have hsplit : vs = vs.dropLast ++ [vs.getLast hne] :=
    (List.dropLast_append_getLast hne).symm
  have hdl : (vs.getLast hne :: vs).dropLast = vs.getLast hne :: vs.dropLast := by
    cases vs with
    | nil => exact absurd rfl hne
    | cons a t => rfl
  rw [hdl]
  rw [hsplit] at hnd
  have := List.nodup_append_comm.mp hnd
  simpa using this

theorem edgesOf_nodup (vs : List Vertex) (hne : vs ≠ []) (hnd : vs.Nodup) :
    (edgesOf vs).Nodup :=
  List.Nodup.of_map _ (edgesOf_map_fst_nodup vs hne hnd)

theorem edge_eq_of_start_eq (vs : List Vertex) (hne : vs ≠ []) (hnd : vs.Nodup)
    (e1 e2 : Vertex × Vertex) (h1 : e1 ∈ edgesOf vs) (h2 : e2 ∈ edgesOf vs)
    (h : e1.1 = e2.1) : e1 = e2 :=
  List.inj_on_of_nodup_map (edgesOf_map_fst_nodup vs hne hnd) h1 h2 h

theorem sum_cross (u w : Vertex) : ∀ vs : List Vertex,
    (vs.map (cross u w)).sum
      = (w.1 - u.1) * ((vs.map Prod.snd).sum - vs.length * u.2)
        - (w.2 - u.2) * ((vs.map Prod.fst).sum - vs.length * u.1) := by
  intro vs
  induction vs with
  | nil => simp
  | cons v rest ih =>
    simp only [List.map_cons, List.sum_cons, List.length_cons, Nat.cast_add, Nat.cast_one]
    rw [ih]
    unfold cross
    ring

/-- The signed area against the centroid is the mean of the signed areas against the
vertices. -/
theorem cross_centroid (u w : Vertex) (vs : List Vertex) (hne : vs ≠ []) :
    cross u w (centroid vs) * vs.length = (vs.map (cross u w)).sum := by
  have hn : (vs.length : ℚ) ≠ 0 := by
    have : vs.length ≠ 0 := fun h => hne (List.length_eq_zero.mp h)
    exact_mod_cast this
  rw [sum_cross]
  unfold centroid cross
  simp only
  field_simp

theorem sum_nonneg_of_mem : ∀ l : List ℚ, (∀ x ∈ l, 0 ≤ x) → 0 ≤ l.sum := by
  intro l
  induction l with
  | nil => intro _; simp
  | cons a rest ih =>
    intro h
    rw [List.sum_cons]
    have h1 := h a (List.mem_cons_self _ _)
    have h2 := ih (fun x hx => h x (List.mem_cons_of_mem _ hx))
    linarith

theorem eq_zero_of_sum_eq_zero : ∀ l : List ℚ, (∀ x ∈ l, 0 ≤ x) → l.sum = 0 →
    ∀ x ∈ l, x = 0 := by
  intro l
  induction l with
  | nil => intro _ _ x hx; simp at hx
  | cons a rest ih =>
    intro h hsum x hx
    rw [List.sum_cons] at hsum
    have h1 := h a (List.mem_cons_self _ _)
    have h2 := sum_nonneg_of_mem rest (fun x hx => h x (List.mem_cons_of_mem _ hx))
    have ha : a = 0 := by linarith
    have hr : rest.sum = 0 := by linarith
    rcases List.mem_cons.mp hx with rfl | hx
    · exact ha
    · exact ih (fun x hx => h x (List.mem_cons_of_mem _ hx)) hr x hx

/-- Three points on the line through two distinct points span no area. -/
theorem cross_eq_zero_of_on_line (u w p q r : Vertex) (huw : u ≠ w)
    (hp : cross u w p = 0) (hq : cross u w q = 0) (hr : cross u w r = 0) :
    cross p q r = 0 := by
  have h1 : (w.1 - u.1) * cross p q r
      = (q.1 - p.1) * (cross u w r - cross u w p) - (r.1 - p.1) * (cross u w q - cross u w p) := by
    unfold cross
    ring
  have h2 : (w.2 - u.2) * cross p q r
      = (q.2 - p.2) * (cross u w r - cross u w p) - (r.2 - p.2) * (cross u w q - cross u w p) := by
    unfold cross
    ring
  rw [hp, hq, hr] at h1 h2
  simp only [sub_self, mul_zero] at h1 h2
  by_contra hne
  have hd1 : w.1 - u.1 = 0 := by
    rcases mul_eq_zero.mp h1 with h | h
    · exact h
    · exact absurd h hne
  have hd2 : w.2 - u.2 = 0 := by
    rcases mul_eq_zero.mp h2 with h | h
    · exact h
    · exact absurd h hne
  apply huw
  apply Prod.ext
  · linarith
  · linarith

theorem chain_edge_ne : ∀ (l : List Vertex) (p : Vertex), (p :: l).Nodup →
    ∀ e ∈ ringEdges p l, e.1 ≠ e.2 := by
  intro l
  induction l with
  | nil => intro p _ e he; simp [ringEdges] at he
  | cons v rest ih =>
    intro p hnd e he
    simp only [ringEdges, List.mem_cons] at he
    have hnd' := List.nodup_cons.mp hnd
    rcases he with rfl | he
    · intro h
      apply hnd'.1
      simp only at h
      rw [h]
      exact List.mem_cons_self _ _
    · exact ih v hnd'.2 e he

/-- The two ends of an edge of a ring of at least two distinct vertices differ. -/
theorem edge_ne (vs : List Vertex) (h2 : 2 ≤ vs.length) (hnd : vs.Nodup) :
    ∀ e ∈ edgesOf vs, e.1 ≠ e.2 := by
  intro e he
  cases vs with
  | nil => simp [edgesOf, ringEdges] at he
  | cons v0 rest =>
    have hrest : rest ≠ [] := by
      intro h
      rw [h] at h2
      simp at h2
    unfold edgesOf at he
    simp only [ringEdges, List.mem_cons] at he
    rcases he with rfl | he
    · simp only
      rw [List.getLastD_cons, getLastD_getLast rest hrest]
      intro h
      have hmem : rest.getLast hrest ∈ rest := List.getLast_mem hrest
      rw [h] at hmem
      exact (List.nodup_cons.mp hnd).1 hmem
    · exact chain_edge_ne rest v0 hnd e he

/-- The centroid of a convex ring lies strictly on the inner side of every edge. -/
theorem centroid_strictly_inside (σ : ℚ) (vs : List Vertex) (h3 : 3 ≤ vs.length)
    (hc : IsConvexRing σ vs) :
    ∀ e ∈ edgesOf vs, 0 < σ * cross e.1 e.2 (centroid vs) := by
  intro e he
  have hne : vs ≠ [] := by
    intro h
    rw [h] at h3
    simp at h3
  have hn : (0 : ℚ) < vs.length := by
    have : 0 < vs.length := by omega
    exact_mod_cast this
  have hsum : σ * cross e.1 e.2 (centroid vs) * vs.length
      = (vs.map (fun v => σ * cross e.1 e.2 v)).sum := by
    rw [mul_assoc, cross_centroid e.1 e.2 vs hne]
    rw [← List.sum_map_mul_left]
  have hnonneg : ∀ x ∈ vs.map (fun v => σ * cross e.1 e.2 v), 0 ≤ x := by
    intro x hx
    obtain ⟨v, hv, rfl⟩ := List.mem_map.mp hx
    exact hc.side e he v hv
  have hge := sum_nonneg_of_mem _ hnonneg
  have hσ : σ ≠ 0 := by
    rcases hc.orientation with h | h <;> rw [h] <;> norm_num
  by_contra hnot
  have hle : σ * cross e.1 e.2 (centroid vs) ≤ 0 := not_lt.mp hnot
  have hzero : (vs.map (fun v => σ * cross e.1 e.2 v)).sum = 0 := by
    have : σ * cross e.1 e.2 (centroid vs) * vs.length ≤ 0 :=
      mul_nonpos_of_nonpos_of_nonneg hle (le_of_lt hn)
    rw [hsum] at this
    linarith
  have hall : ∀ v ∈ vs, cross e.1 e.2 v = 0 := by
    intro v hv
    have := eq_zero_of_sum_eq_zero _ hnonneg hzero (σ * cross e.1 e.2 v)
      (List.mem_map.mpr ⟨v, hv, rfl⟩)
    rcases mul_eq_zero.mp this with h | h
    · exact absurd h hσ
    · exact h
  obtain ⟨p, hp, q, hq, r, hr, hpqr⟩ := hc.proper
  exact hpqr (cross_eq_zero_of_on_line e.1 e.2 p q r (edge_ne vs (by omega) hc.nodup e he)
    (hall p hp) (hall q hq) (hall r hr))

/-- For an edge from `u` to `w` whose ends lie on different sides of the latitude, the offset
of the edge's longitude at that latitude from the point, scaled by the rise of the edge, is
the signed area of `u`, `w` and the point. -/
theorem crossing_offset (lon lat : ℚ) (u w : Vertex) (hdy : u.2 - w.2 ≠ 0) :
    (((u.1 - w.1) * (lat - w.2)) / (u.2 - w.2) + w.1 - lon) * (w.2 - u.2)
      = cross u w (lon, lat) := by
  unfold cross
  simp only
  field_simp
  ring

/-- Against a point strictly on the inner side of an edge, the ray crosses the edge exactly
when the edge leads upwards (counter-clockwise ring) or downwards (clockwise ring) across the
latitude of the point. -/
theorem edgeIntersects_of_inside (σ lon lat : ℚ) (u w : Vertex) (hσ : σ = 1 ∨ σ = -1)
    (hin : 0 < σ * cross u w (lon, lat)) :
    edgeIntersects lon lat w u = if σ = 1 then isUp lat (u, w) else isDown lat (u, w) := by
  rw [edgeIntersects_eq]
  simp only [isUp, isDown]
  by_cases hu : u.2 > lat <;> by_cases hw : w.2 > lat
  · simp [aboveLat, hu, hw]
  · have hdy : u.2 - w.2 ≠ 0 := by
      intro h
      apply hw
      linarith
    have hoff := crossing_offset lon lat u w hdy
    have hneg : w.2 - u.2 < 0 := by
      push_neg at hw
      linarith
    rcases hσ with h | h
    · subst h
      have hpos : 0 < cross u w (lon, lat) := by linarith
      have hx : ¬ lon < ((u.1 - w.1) * (lat - w.2)) / (u.2 - w.2) + w.1 := by
        intro hlt
        have : 0 < ((u.1 - w.1) * (lat - w.2)) / (u.2 - w.2) + w.1 - lon := by linarith
        have := mul_neg_of_pos_of_neg this hneg
        linarith
      simp [aboveLat, hu, hw, hx]
    · subst h
      have hpos : cross u w (lon, lat) < 0 := by linarith
      have hx : lon < ((u.1 - w.1) * (lat - w.2)) / (u.2 - w.2) + w.1 := by
        by_contra hlt
        have : ((u.1 - w.1) * (lat - w.2)) / (u.2 - w.2) + w.1 - lon ≤ 0 := by linarith
        have := mul_nonneg_of_nonpos_of_nonpos this (le_of_lt hneg)
        linarith
      simp [aboveLat, hu, hw, hx]
      norm_num
  · have hdy : u.2 - w.2 ≠ 0 := by
      intro h
      apply hu
      linarith
    have hoff := crossing_offset lon lat u w hdy
    have hposdy : 0 < w.2 - u.2 := by
      push_neg at hu
      linarith
    rcases hσ with h | h
    · subst h
      have hpos : 0 < cross u w (lon, lat) := by linarith
      have hx : lon < ((u.1 - w.1) * (lat - w.2)) / (u.2 - w.2) + w.1 := by
        by_contra hlt
        have : ((u.1 - w.1) * (lat - w.2)) / (u.2 - w.2) + w.1 - lon ≤ 0 := by linarith
        have := mul_nonpos_of_nonpos_of_nonneg this (le_of_lt hposdy)
        linarith
      simp [aboveLat, hu, hw, hx]
    · subst h
      have hpos : cross u w (lon, lat) < 0 := by linarith
      have hx : ¬ lon < ((u.1 - w.1) * (lat - w.2)) / (u.2 - w.2) + w.1 := by
        intro hlt
        have : 0 < ((u.1 - w.1) * (lat - w.2)) / (u.2 - w.2) + w.1 - lon := by linarith
        have := mul_pos this hposdy
        linarith
      simp [aboveLat, hu, hw, hx]
      norm_num
  · simp [aboveLat, hu, hw]

/-- Two edges that both lead upwards across a latitude, each with the ends of the other on
its inner side: the start of the second lies on the line of the first. -/
theorem start_on_line_of_up (σ lat : ℚ) (a b a' b' : Vertex) (hσ : σ = 1 ∨ σ = -1)
    (h1 : a.2 ≤ lat) (h2 : lat < b.2) (h1' : a'.2 ≤ lat) (h2' : lat < b'.2)
    (ha' : 0 ≤ σ * cross a b a') (hb' : 0 ≤ σ * cross a b b')
    (ha : 0 ≤ σ * cross a' b' a) (hb : 0 ≤ σ * cross a' b' b) :
    cross a b a' = 0 := by
  have hid : (b'.2 - lat) * cross a b a' + (lat - a'.2) * cross a b b'
      + ((b.2 - lat) * cross a' b' a + (lat - a.2) * cross a' b' b) = 0 := by
    unfold cross
    ring
  have hq' : 0 < b'.2 - lat := by linarith
  have hp' : 0 ≤ lat - a'.2 := by linarith
  have hq : 0 < b.2 - lat := by linarith
  have hp : 0 ≤ lat - a.2 := by linarith
  have t1 := mul_nonneg (le_of_lt hq') ha'
  have t2 := mul_nonneg hp' hb'
  have t3 := mul_nonneg (le_of_lt hq) ha
  have t4 := mul_nonneg hp hb
  have hsum : (b'.2 - lat) * (σ * cross a b a') + (lat - a'.2) * (σ * cross a b b')
      + ((b.2 - lat) * (σ * cross a' b' a) + (lat - a.2) * (σ * cross a' b' b)) = 0 := by
    have : (b'.2 - lat) * (σ * cross a b a') + (lat - a'.2) * (σ * cross a b b')
      + ((b.2 - lat) * (σ * cross a' b' a) + (lat - a.2) * (σ * cross a' b' b))
      = σ * ((b'.2 - lat) * cross a b a' + (lat - a'.2) * cross a b b'
      + ((b.2 - lat) * cross a' b' a + (lat - a.2) * cross a' b' b)) := by ring
    rw [this, hid, mul_zero]
  have hz : (b'.2 - lat) * (σ * cross a b a') = 0 := by linarith
  have hσ0 : σ ≠ 0 := by
    rcases hσ with h | h <;> rw [h] <;> norm_num
  rcases mul_eq_zero.mp hz with h | h
  · linarith
  · rcases mul_eq_zero.mp h with h | h
    · exact absurd h hσ0
    · exact h

/-- A vertex on the line of an upward edge, not above the latitude the edge crosses and not
on the edge except as an endpoint, is the start of the edge or lies below it. -/
theorem start_or_below (lat : ℚ) (a b a' : Vertex)
    (h1 : a.2 ≤ lat) (h2 : lat < b.2) (h1' : a'.2 ≤ lat) (hline : cross a b a' = 0)
    (hsimple : ∀ t : ℚ, 0 ≤ t → t ≤ 1 → a'.1 = a.1 + t * (b.1 - a.1) →
      a'.2 = a.2 + t * (b.2 - a.2) → a' = a ∨ a' = b) :
    a' = a ∨ a'.2 < a.2 := by
  by_cases hlow : a'.2 < a.2
  · exact Or.inr hlow
  · left
    have hdy : 0 < b.2 - a.2 := by linarith
    have hdy0 : b.2 - a.2 ≠ 0 := ne_of_gt hdy
    have ht0 : 0 ≤ (a'.2 - a.2) / (b.2 - a.2) :=
      div_nonneg (by linarith) (le_of_lt hdy)
    have ht1 : (a'.2 - a.2) / (b.2 - a.2) ≤ 1 := by
      rw [div_le_one hdy]
      linarith
    have hx : a'.1 = a.1 + (a'.2 - a.2) / (b.2 - a.2) * (b.1 - a.1) := by
      unfold cross at hline
      field_simp
      linarith
    have hy : a'.2 = a.2 + (a'.2 - a.2) / (b.2 - a.2) * (b.2 - a.2) := by
      field_simp
    rcases hsimple _ ht0 ht1 hx hy with h | h
    · exact h
    · exfalso
      rw [h] at h1'
      linarith

theorem isUp_iff (lat : ℚ) (e : Vertex × Vertex) :
    isUp lat e = true ↔ e.1.2 ≤ lat ∧ lat < e.2.2 := by
  simp [isUp, aboveLat]

/-- In a convex ring two edges leading upwards across the same latitude start at the same
vertex. -/
theorem up_edges_same_start (σ lat : ℚ) (vs : List Vertex) (h3 : 3 ≤ vs.length)
    (hc : IsConvexRing σ vs) (e1 e2 : Vertex × Vertex) (he1 : e1 ∈ edgesOf vs)
    (he2 : e2 ∈ edgesOf vs) (hu1 : isUp lat e1 = true) (hu2 : isUp lat e2 = true) :
    e1.1 = e2.1 := by
  have hne : vs ≠ [] := by
    intro h
    rw [h] at h3
    simp at h3
  obtain ⟨m1a, m1b⟩ := mem_edgesOf vs hne e1 he1
  obtain ⟨m2a, m2b⟩ := mem_edgesOf vs hne e2 he2
  obtain ⟨u1, u2⟩ := (isUp_iff lat e1).mp hu1
  obtain ⟨w1, w2⟩ := (isUp_iff lat e2).mp hu2
  have hl12 := start_on_line_of_up σ lat e1.1 e1.2 e2.1 e2.2 hc.orientation u1 u2 w1 w2
    (hc.side e1 he1 _ m2a) (hc.side e1 he1 _ m2b) (hc.side e2 he2 _ m1a) (hc.side e2 he2 _ m1b)
  have hl21 := start_on_line_of_up σ lat e2.1 e2.2 e1.1 e1.2 hc.orientation w1 w2 u1 u2
    (hc.side e2 he2 _ m1a) (hc.side e2 he2 _ m1b) (hc.side e1 he1 _ m2a) (hc.side e1 he1 _ m2b)
  rcases start_or_below lat e1.1 e1.2 e2.1 u1 u2 w1 hl12
    (fun t ht0 ht1 hx hy => hc.simple e1 he1 e2.1 m2a t ht0 ht1 hx hy) with h | h
  · exact h.symm
  · rcases start_or_below lat e2.1 e2.2 e1.1 w1 w2 u1 hl21
      (fun t ht0 ht1 hx hy => hc.simple e2 he2 e1.1 m1a t ht0 ht1 hx hy) with h' | h'
    · exact h'
    · exfalso
      linarith

theorem sum_offsets (c : ℚ) : ∀ vs : List Vertex,
    (vs.map (fun v => c - v.2)).sum = vs.length * c - (vs.map Prod.snd).sum := by
  intro vs
  induction vs with
  | nil => simp
  | cons v rest ih =>
    simp only [List.map_cons, List.sum_cons, List.length_cons, Nat.cast_add, Nat.cast_one]
    rw [ih]
    ring

theorem sum_offsets_neg (c : ℚ) : ∀ vs : List Vertex,
    (vs.map (fun v => v.2 - c)).sum = (vs.map Prod.snd).sum - vs.length * c := by
  intro vs
  induction vs with
  | nil => simp
  | cons v rest ih =>
    simp only [List.map_cons, List.sum_cons, List.length_cons, Nat.cast_add, Nat.cast_one]
    rw [ih]
    ring

/-- A convex ring has a vertex above the latitude of its centroid and a vertex not above
it. -/
theorem vertices_on_both_sides (σ : ℚ) (vs : List Vertex) (h3 : 3 ≤ vs.length)
    (hc : IsConvexRing σ vs) :
    (∃ v ∈ vs, aboveLat (centroid vs).2 v = true)
      ∧ (∃ v ∈ vs, aboveLat (centroid vs).2 v = false) := by
  have hn : (0 : ℚ) < vs.length := by
    have : 0 < vs.length := by omega
    exact_mod_cast this
  have hzero : (vs.map (fun v => (centroid vs).2 - v.2)).sum = 0 := by
    rw [sum_offsets]
    unfold centroid
    simp only
    field_simp
  constructor
  · by_contra hnone
    push_neg at hnone
    have hle : ∀ v ∈ vs, v.2 ≤ (centroid vs).2 := by
      intro v hv
      have := hnone v hv
      simp only [aboveLat, ne_eq, decide_eq_true_eq, not_lt] at this
      exact this
    have hnonneg : ∀ x ∈ vs.map (fun v => (centroid vs).2 - v.2), 0 ≤ x := by
      intro x hx
      obtain ⟨v, hv, rfl⟩ := List.mem_map.mp hx
      have := hle v hv
      linarith
    have hall : ∀ v ∈ vs, v.2 = (centroid vs).2 := by
      intro v hv
      have := eq_zero_of_sum_eq_zero _ hnonneg hzero ((centroid vs).2 - v.2)
        (List.mem_map.mpr ⟨v, hv, rfl⟩)
      linarith
    obtain ⟨p, hp, q, hq, r, hr, hpqr⟩ := hc.proper
    apply hpqr
    unfold cross
    rw [hall p hp, hall q hq, hall r hr]
    ring
  · by_contra hnone
    push_neg at hnone
    have hgt : ∀ v ∈ vs, (centroid vs).2 < v.2 := by
      intro v hv
      have := hnone v hv
      simp only [aboveLat, ne_eq, decide_eq_false_iff_not, not_not] at this
      exact this
    have hnonneg : ∀ x ∈ vs.map (fun v => v.2 - (centroid vs).2), 0 ≤ x := by
      intro x hx
      obtain ⟨v, hv, rfl⟩ := List.mem_map.mp hx
      have := hgt v hv
      linarith
    have hzero' : (vs.map (fun v => v.2 - (centroid vs).2)).sum = 0 := by
      rw [sum_offsets_neg]
      unfold centroid
      simp only
      field_simp
    cases vs with
    | nil => simp at h3
    | cons v rest =>
      have := eq_zero_of_sum_eq_zero _ hnonneg hzero' (v.2 - (centroid (v :: rest)).2)
        (List.mem_map.mpr ⟨v, List.mem_cons_self _ _, rfl⟩)
      have := hgt v (List.mem_cons_self _ _)
      linarith

/-- The ray from the centroid of a convex ring crosses exactly one edge of the ring. -/
theorem crossings_centroid (σ : ℚ) (vs : List Vertex) (h3 : 3 ≤ vs.length)
    (hc : IsConvexRing σ vs) :
    crossings (centroid vs).1 (centroid vs).2 (edgesOf vs) = 1 := by
  have hne : vs ≠ [] := by
    intro h
    rw [h] at h3
    simp at h3
  have hup_le : (edgesOf vs).countP (isUp (centroid vs).2) ≤ 1 :=
    countP_le_one_of_unique _ _ (edgesOf_nodup vs hne hc.nodup)
      (fun e1 he1 e2 he2 hu1 hu2 => edge_eq_of_start_eq vs hne hc.nodup e1 e2 he1 he2
        (up_edges_same_start σ _ vs h3 hc e1 e2 he1 he2 hu1 hu2))
  have hbal := up_down_balance (centroid vs).2 vs (vs.getLastD (0, 0))
  have hlast : vs.getLastD (vs.getLastD (0, 0)) = vs.getLastD (0, 0) := by
    rw [getLastD_getLast vs hne, getLastD_getLast vs hne]
  rw [hlast] at hbal
  have heq : (edgesOf vs).countP (isUp (centroid vs).2)
      = (edgesOf vs).countP (isDown (centroid vs).2) := by
    unfold edgesOf
    omega
  have hup_ne : (edgesOf vs).countP (isUp (centroid vs).2) ≠ 0 := by
    intro h0
    have hd0 : (edgesOf vs).countP (isDown (centroid vs).2) = 0 := by rw [← heq, h0]
    have hsame := same_side_of_no_crossing (centroid vs).2 vs (vs.getLastD (0, 0)) h0 hd0
    obtain ⟨⟨v, hv, hva⟩, ⟨w, hw, hwa⟩⟩ := vertices_on_both_sides σ vs h3 hc
    have h1 := hsame v hv
    have h2 := hsame w hw
    rw [hva] at h1
    rw [hwa] at h2
    rw [← h1] at h2
    exact absurd h2 (by simp)
  have hup : (edgesOf vs).countP (isUp (centroid vs).2) = 1 := by omega
  have hinside := centroid_strictly_inside σ vs h3 hc
  unfold crossings
  rcases hc.orientation with hσ | hσ
  · rw [← hup]
    apply List.countP_congr
    intro e he
    have := edgeIntersects_of_inside σ (centroid vs).1 (centroid vs).2 e.1 e.2
      hc.orientation (hinside e he)
    rw [if_pos hσ] at this
    rw [this]
  · rw [← hup, heq]
    apply List.countP_congr
    intro e he
    have := edgeIntersects_of_inside σ (centroid vs).1 (centroid vs).2 e.1 e.2
      hc.orientation (hinside e he)
    rw [if_neg (by rw [hσ]; norm_num)] at this
    rw [this]

theorem crossings_append (lon lat : ℚ) (es es' : List (Vertex × Vertex)) :
    crossings lon lat (es ++ es') = crossings lon lat es + crossings lon lat es' := by
  unfold crossings
  rw [List.countP_append]

theorem crossings_cons (lon lat : ℚ) (e : Vertex × Vertex) (es : List (Vertex × Vertex)) :
    crossings lon lat (e :: es)
      = crossings lon lat es + (if edgeIntersects lon lat e.2 e.1 then 1 else 0) := by
  unfold crossings
  rw [List.countP_cons]

/-- C6: for a convex polygon given by its at least 3 distinct vertices in boundary order
(counter-clockwise or clockwise), not all on one line, `pointInPolygon` returns true at the
centroid, the mean of the vertices; this holds both when the ring lists just the vertices and
when it is closed by repeating the first vertex at the end. -/
theorem pointInPolygon_centroid (σ : ℚ) (vs : List Vertex) (rest : List (List Vertex))
    (h3 : 3 ≤ vs.length) (hc : IsConvexRing σ vs) :
    pointInPolygon (centroid vs) (some { coordinates := some (vs :: rest) }) = true
      ∧ pointInPolygon (centroid vs)
          (some { coordinates := some ((vs ++ [vs.headD (0, 0)]) :: rest) }) = true := by
  have hne : vs ≠ [] := by
    intro h
    rw [h] at h3
    simp at h3
  have hone := crossings_centroid σ vs h3 hc
  constructor
  · rw [pointInPolygon_ring _ _ vs rest h3 hne, rayCast_eq_crossings]
    have hedges : ringEdges (vs.getLast hne) vs = edgesOf vs := by
      unfold edgesOf
      rw [getLastD_getLast vs hne]
    rw [hedges, hone]
    rfl
  · cases vs with
    | nil => exact absurd rfl hne
    | cons v0 tl =>
      have hne' : (v0 :: tl) ++ [v0] ≠ [] := by simp
      have h3' : 3 ≤ ((v0 :: tl) ++ [v0]).length := by
        simp only [List.length_append, List.length_cons, List.length_nil] at h3 ⊢
        omega
      have hhead : (v0 :: tl).headD (0, 0) = v0 := rfl
      rw [hhead, pointInPolygon_ring _ _ _ rest h3' hne', rayCast_eq_crossings]
      have hlast : ((v0 :: tl) ++ [v0]).getLast hne' = v0 := by simp
      rw [hlast, ringEdges_append]
      have hopen : edgesOf (v0 :: tl)
          = ((v0 :: tl).getLastD (0, 0), v0) :: ringEdges v0 tl := rfl
      have hld : (v0 :: tl).getLastD v0 = (v0 :: tl).getLastD (0, 0) := by
        rw [getLastD_getLast _ hne, getLastD_getLast _ hne]
      have hself : edgeIntersects (centroid (v0 :: tl)).1 (centroid (v0 :: tl)).2 v0 v0
          = false := edgeIntersects_of_same_side _ _ _ _ rfl
      have hcount : crossings (centroid (v0 :: tl)).1 (centroid (v0 :: tl)).2
          (ringEdges v0 (v0 :: tl) ++ [((v0 :: tl).getLastD v0, v0)]) = 1 := by
        rw [hopen, crossings_cons] at hone
        rw [crossings_append, hld]
        show crossings _ _ ((v0, v0) :: ringEdges v0 tl) + crossings _ _ [_] = 1
        rw [crossings_cons, crossings_cons, hself]
        simp only [crossings, List.countP_nil] at hone ⊢
        simp only [Bool.false_eq_true, if_false]
        omega
      rw [hcount]
      rfl

theorem triangle_convex : IsConvexRing 1 triangleVertices where
  orientation := Or.inl rfl
  nodup := by decide!
  side := by
    intro e he v hv
    simp only [edgesOf, triangleVertices, ringEdges, List.getLastD_cons, List.getLastD_nil,
      List.mem_cons, List.mem_singleton, List.not_mem_nil, or_false] at he hv
    rcases he with rfl | rfl | rfl <;> rcases hv with rfl | rfl | rfl <;>
      simp only [cross] <;> norm_num
  simple := by
    intro e he v hv t ht0 ht1 hx hy
    simp only [edgesOf, triangleVertices, ringEdges, List.getLastD_cons, List.getLastD_nil,
      List.mem_cons, List.mem_singleton, List.not_mem_nil, or_false] at he hv
    rcases he with rfl | rfl | rfl <;> rcases hv with rfl | rfl | rfl <;>
      simp only at hx hy ⊢ <;> norm_num at hx hy ⊢
    all_goals linarith
  proper := ⟨(0, 0), by simp [triangleVertices], (4, 0), by simp [triangleVertices],
    (0, 4), by simp [triangleVertices], by simp only [cross]; norm_num⟩

theorem pointInPolygon_centroid_witness :
    centroid triangleVertices = (4 / 3, 4 / 3)
      ∧ pointInPolygon (centroid triangleVertices)
          (some { coordinates := some [triangleVertices] }) = true
      ∧ pointInPolygon (centroid triangleVertices)
          (some { coordinates := some [sampleTriangle] }) = true :=
  ⟨by decide!, pointInPolygon_centroid 1 triangleVertices [] (by decide) triangle_convex⟩

/-! ### City check and missing elements -/

theorem cityLoop_cons (ext : Externals) (satellite : Satellite) (pos : PositionArg)
    (clock : ℕ → ℤ) (o : Observer) (rest : List Observer) (k0 : ℕ) :
    isVisibleFromAnyCityLoop ext satellite pos clock (o :: rest) k0
      = if cityElevation ext satellite pos clock k0 o > 0 then
          { visible := true, observer := some o,
            elevation := some (cityElevation ext satellite pos clock k0 o) }
        else isVisibleFromAnyCityLoop ext satellite pos clock rest (k0 + 1) := rfl

/-- The city check returns the first observer, in list order, whose elevation is positive,
and `{visible: false}` when there is none. -/
theorem cityLoop_spec (ext : Externals) (satellite : Satellite) (pos : PositionArg)
    (clock : ℕ → ℤ) :
    ∀ (l : List Observer) (k0 : ℕ),
      ((isVisibleFromAnyCityLoop ext satellite pos clock l k0).visible = true ↔
          ∃ k o, l[k]? = some o ∧ cityElevation ext satellite pos clock (k0 + k) o > 0)
        ∧ (∀ k o, l[k]? = some o → cityElevation ext satellite pos clock (k0 + k) o > 0 →
            (∀ j o', j < k → l[j]? = some o' →
              ¬ cityElevation ext satellite pos clock (k0 + j) o' > 0) →
            isVisibleFromAnyCityLoop ext satellite pos clock l k0
              = { visible := true, observer := some o,
                  elevation := some (cityElevation ext satellite pos clock (k0 + k) o) })
        ∧ ((∀ k o, l[k]? = some o →
              ¬ cityElevation ext satellite pos clock (k0 + k) o > 0) →
            isVisibleFromAnyCityLoop ext satellite pos clock l k0
              = { visible := false, observer := none, elevation := none }) := by
  intro l
  induction l with
  | nil =>
    intro k0
    refine ⟨?_, ?_, ?_⟩
    · simp [isVisibleFromAnyCityLoop]
    · intro k o h
      simp at h
    · intro _
      rfl
  | cons o rest ih =>
    intro k0
    obtain ⟨ih1, ih2, ih3⟩ := ih (k0 + 1)
    have hidx : ∀ k, k0 + 1 + k = k0 + (k + 1) := fun k => by omega
    rw [cityLoop_cons]
    by_cases hpos : cityElevation ext satellite pos clock k0 o > 0
    · rw [if_pos hpos]
      refine ⟨?_, ?_, ?_⟩
      · constructor
        · intro _
          exact ⟨0, o, List.getElem?_cons_zero, hpos⟩
        · intro _
          rfl
      · intro k o' hk hk' hfirst
        cases k with
        | zero =>
          simp only [List.getElem?_cons_zero, Option.some.injEq] at hk
          subst hk
          rfl
        | succ k =>
          exact absurd hpos (hfirst 0 o (Nat.succ_pos k) List.getElem?_cons_zero)
      · intro hnone
        exact absurd hpos (hnone 0 o List.getElem?_cons_zero)
    · rw [if_neg hpos]
      refine ⟨?_, ?_, ?_⟩
      · rw [ih1]
        constructor
        · rintro ⟨k, o', hk, hk'⟩
          refine ⟨k + 1, o', by simpa using hk, ?_⟩
          rw [← hidx]
          exact hk'
        · rintro ⟨k, o', hk, hk'⟩
          cases k with
          | zero =>
            simp only [List.getElem?_cons_zero, Option.some.injEq] at hk
            subst hk
            exact absurd hk' hpos
          | succ k =>
            refine ⟨k, o', by simpa using hk, ?_⟩
            rw [hidx]
            exact hk'
      · intro k o' hk hk' hfirst
        cases k with
        | zero =>
          simp only [List.getElem?_cons_zero, Option.some.injEq] at hk
          subst hk
          exact absurd hk' hpos
        | succ k =>
          have := ih2 k o' (by simpa using hk) (by rw [hidx]; exact hk')
            (fun j o'' hj hj' => by
              rw [hidx]
              exact hfirst (j + 1) o'' (by omega) (by simpa using hj'))
          rw [this, hidx]
      · intro hnone
        exact ih3 (fun k o' hk => by
          rw [hidx]
          exact hnone (k + 1) o' (by simpa using hk))

/-- C11: `isVisibleFromAnyCity` returns `visible = true` exactly when some observer of the
registry has elevation `> 0`; it then returns the observer and the elevation of the first such
observer in registry order, whatever the elevations of the later ones; and when no observer
has elevation `> 0` it returns exactly `{visible: false}`. -/
theorem isVisibleFromAnyCity_first_match (data : StaticData) (ext : Externals)
    (satellite : Satellite) (pos : PositionArg) (clock : ℕ → ℤ) :
    ((isVisibleFromAnyCity data ext satellite pos clock).visible = true ↔
        ∃ k o, data.observers[k]? = some o ∧ cityElevation ext satellite pos clock k o > 0)
      ∧ (∀ k o, data.observers[k]? = some o → cityElevation ext satellite pos clock k o > 0 →
          (∀ j o', j < k → data.observers[j]? = some o' →
            ¬ cityElevation ext satellite pos clock j o' > 0) →
          isVisibleFromAnyCity data ext satellite pos clock
            = { visible := true, observer := some o,
                elevation := some (cityElevation ext satellite pos clock k o) })
      ∧ ((∀ k o, data.observers[k]? = some o →
            ¬ cityElevation ext satellite pos clock k o > 0) →
          isVisibleFromAnyCity data ext satellite pos clock
            = { visible := false, observer := none, elevation := none }) := by
  have h := cityLoop_spec ext satellite pos clock data.observers 0
  simp only [Nat.zero_add] at h
  exact h

theorem isVisibleFromAnyCity_first_match_witness :
    cityElevation cityExt sampleSat { latitude := some (.fin 20), longitude := some (.fin 78) }
        (fun _ => 60000) 1 { name := "Bengaluru", lat := 13, lon := 155 / 2 } = 12
      ∧ isVisibleFromAnyCity sampleData cityExt sampleSat
          { latitude := some (.fin 20), longitude := some (.fin 78) } (fun _ => 60000)
        = { visible := true
            observer := some { name := "Bengaluru", lat := 13, lon := 155 / 2 }
            elevation := some (cityElevation cityExt sampleSat
              { latitude := some (.fin 20), longitude := some (.fin 78) } (fun _ => 60000) 1
              { name := "Bengaluru", lat := 13, lon := 155 / 2 }) } :=
  ⟨by decide!,
    (isVisibleFromAnyCity_first_match sampleData cityExt sampleSat
      { latitude := some (.fin 20), longitude := some (.fin 78) } (fun _ => 60000)).2.1 1
      { name := "Bengaluru", lat := 13, lon := 155 / 2 } rfl (by decide!)
      (fun j o' hj ho' => by
        have hj0 : j = 0 := by omega
        subst hj0
        simp only [sampleData, List.getElem?_cons_zero, Option.some.injEq] at ho'
        subst ho'
        decide!)⟩

theorem buildTleString_missing (satellite : Satellite) (h : hasTle satellite = false) :
    buildTleString satellite
      = .error ("Satellite " ++ satellite.name ++ " is missing TLE data") := by
  unfold hasTle falsyStr at h
  unfold buildTleString
  cases h1 : satellite.tle_line1 with
  | none => rfl
  | some l1 =>
    cases h2 : satellite.tle_line2 with
    | none => rfl
    | some l2 =>
      simp only [h1, h2, Bool.not_eq_false'] at h
      simp only
      rw [if_pos h]

/-- C12: for a record whose `tle_line1` or `tle_line2` is absent or empty, `computeNextPass`
and `getCurrentPosition` each fail with the missing-TLE error; the outcome is the same under
every ephemeris, none being queried. -/
theorem missing_tle_fails (ext : Externals) (satellite : Satellite) (lat lon : ℚ) (now : ℤ)
    (h : hasTle satellite = false) :
    computeNextPass ext satellite lat lon now
        = .error ("Satellite " ++ satellite.name ++ " is missing TLE data")
      ∧ getCurrentPosition ext satellite now
        = .error ("Failed to get position for " ++ satellite.name ++ ": "
            ++ ("Satellite " ++ satellite.name ++ " is missing TLE data")) := by
  constructor
  · unfold computeNextPass
    rw [buildTleString_missing satellite h]
  · unfold getCurrentPosition getCurrentPositionBody
    rw [buildTleString_missing satellite h]

theorem missing_tle_fails_witness :
    computeNextPass sampleExt noTleSat 22 78 0
        = .error ("Satellite " ++ noTleSat.name ++ " is missing TLE data")
      ∧ getCurrentPosition sampleExt noTleSat 0
        = .error ("Failed to get position for " ++ noTleSat.name ++ ": "
            ++ ("Satellite " ++ noTleSat.name ++ " is missing TLE data")) :=
  missing_tle_fails sampleExt noTleSat 22 78 0 (by decide)

theorem getElevationForObserver_missing (ext : Externals) (satellite : Satellite)
    (pos : PositionArg) (la lo al : ℚ) (now : ℤ) (h : hasTle satellite = false) :
    getElevationForObserver ext satellite pos la lo al now = -90 := by
  unfold getElevationForObserver
  rw [buildTleString_missing satellite h]

/-- C13, amended: for a record whose `tle_line1` or `tle_line2` is absent or empty,
`getNextPass` catches the failure and returns `null`, and `isVisibleFromIndia` returns a
result in which the centre elevation is -90, the elevation and city signals are false, no city
is reported and `visible` is the polygon signal alone. -/
theorem missing_tle_swallowed (data : StaticData) (ext : Externals) (satellite : Satellite)
    (lookaheadMinutes stepSeconds : ℕ) (now : ℤ) (pos : PositionArg) (clock : ℕ → ℤ)
    (h : hasTle satellite = false) :
    getNextPass data ext satellite lookaheadMinutes stepSeconds now = none
      ∧ isVisibleFromIndia data ext satellite pos clock
        = { visible := isPointInIndia data pos.latitude pos.longitude
            details :=
              { elevationVisible := false
                centerElevation := -90
                cityVisible := false
                city := none
                inIndiaPolygon := isPointInIndia data pos.latitude pos.longitude } } := by
  constructor
  · unfold getNextPass
    rw [buildTleString_missing satellite h]
  · have hcity : isVisibleFromAnyCity data ext satellite pos (fun k => clock (k + 1))
        = { visible := false, observer := none, elevation := none } :=
      (cityLoop_spec ext satellite pos (fun k => clock (k + 1)) data.observers 0).2.2
        (fun k o _ => by
          unfold cityElevation
          rw [getElevationForObserver_missing ext satellite pos _ _ _ _ h]
          norm_num)
    unfold isVisibleFromIndia
    simp only [hcity, getElevationForObserver_missing ext satellite pos _ _ _ _ h]
    norm_num

theorem missing_tle_swallowed_witness :
    getNextPass sampleData cityExt noTleSat 60 30 0 = none
      ∧ isVisibleFromIndia sampleData cityExt noTleSat
          { latitude := some (.fin 13), longitude := some (.fin 77) } (fun _ => 60000)
        = { visible := isPointInIndia sampleData (some (.fin 13)) (some (.fin 77))
            details :=
              { elevationVisible := false
                centerElevation := -90
                cityVisible := false
                city := none
                inIndiaPolygon := isPointInIndia sampleData (some (.fin 13)) (some (.fin 77)) } } :=
  missing_tle_swallowed sampleData cityExt noTleSat 60 30 0
    { latitude := some (.fin 13), longitude := some (.fin 77) } (fun _ => 60000) (by decide)

/-- C13, counterexample: for the sample record without its second TLE line `getNextPass`
returns `null` and `isVisibleFromIndia` returns a visibility result; neither propagates a
failure. -/
theorem missing_tle_no_failure :
    hasTle noTleSat = false
      ∧ getNextPass sampleData sampleExt noTleSat 60 30 0 = none
      ∧ isVisibleFromIndia sampleData sampleExt noTleSat
          { latitude := some (.fin 20), longitude := some (.fin 78) } (fun _ => 0)
        = { visible := false
            details :=
              { elevationVisible := false
                centerElevation := -90
                cityVisible := false
                city := none
                inIndiaPolygon := false } } := by
  decide!

/-! ### Single-observer scanner: the first window -/

theorem stepTime_injective (now : ℤ) (a b : ℕ) (h : stepTime now a = stepTime now b) :
    a = b := by
  unfold stepTime STEP_SECONDS at h
  push_cast at h
  omega

theorem stepAbove_eq (ext : Externals) (tle : String) (lat lon : ℚ) (now : ℤ) (i : ℕ) :
    stepAbove ext tle lat lon now i = JSVal.gtZero (stepElevation ext tle lat lon now i) := by
  unfold stepAbove stepElevation
  split <;> rfl

theorem JSNum.gt_of_gt_zero (el : JSNum) (h : el.gt (.fin 0) = true) :
    el.gt (.fin (-90)) = true := by
  cases el with
  | fin q =>
    simp only [JSNum.gt, decide_eq_true_eq] at h ⊢
    linarith
  | nan => simp [JSNum.gt] at h
  | posInf => rfl
  | negInf => simp [JSNum.gt] at h

theorem JSNum.not_gt_of_not_gt (x m e : JSNum) (h1 : x.gt m = false) (h2 : e.gt m = true) :
    x.gt e = false := by
  cases x <;> cases m <;> cases e <;>
    simp only [JSNum.gt, decide_eq_true_eq, decide_eq_false_iff_not, not_lt,
      Bool.true_eq_false, Bool.false_eq_true] at h1 h2 ⊢
  linarith

theorem JSNum.gt_irrefl (x : JSNum) : x.gt x = false := by
  cases x <;> simp [JSNum.gt]

/-- The facts about a scan step whose query is answered with an object. -/
theorem step_answered (ext : Externals) (tle : String) (lat lon : ℚ) (now : ℤ) (i : ℕ)
    (info : SatInfo)
    (hq : ext.getSatelliteInfo tle (stepTime now i) lat lon 0 = .ok (some info)) :
    stepAnswers ext tle lat lon now i = true
      ∧ stepElevation ext tle lat lon now i = info.elevation := by
  unfold stepAnswers stepElevation
  rw [hq]
  exact ⟨rfl, rfl⟩

theorem scanIdxInv_above (ext : Externals) (tle : String) (lat lon : ℚ) (now : ℤ) (i : ℕ)
    (st : ScanState) (el : JSNum) (hinv : ScanIdxInv ext tle lat lon now i st)
    (hel : stepElevation ext tle lat lon now i = some el) (hgt : el.gt (.fin 0) = true) :
    ScanIdxInv ext tle lat lon now (i + 1)
      { passStart := if st.passStart.isNone then some (stepTime now i) else st.passStart
        passEnd := some (stepTime now i)
        maxElevation := if el.gt st.maxElevation then el else st.maxElevation } := by
  have habove : stepAbove ext tle lat lon now i = true := by
    rw [stepAbove_eq, hel]
    exact hgt
  rcases hinv with ⟨hinit, hbelow⟩ | ⟨a, b, k, hak, hkb, hbi, hw⟩
  · subst hinit
    have hmax : el.gt scanInit.maxElevation = true := JSNum.gt_of_gt_zero el hgt
    refine Or.inr ⟨i, i, i, le_refl _, le_refl _, rfl, ?_⟩
    refine ⟨by simp [scanInit], rfl, hbelow, ?_, by simp only [hmax, if_true]; exact hel, ?_⟩
    · intro j h1 h2
      have : j = i := by omega
      subst this
      exact habove
    · intro j h1 h2 el' hel'
      have : j = i := by omega
      subst this
      rw [hel] at hel'
      cases hel'
      simp only [hmax, if_true]
      exact JSNum.gt_irrefl el
  · obtain ⟨hs, he, hbefore, hin', hmax, hle⟩ := hw
    have hstart : (if st.passStart.isNone then some (stepTime now i) else st.passStart)
        = some (stepTime now a) := by simp [hs]
    cases hgm : el.gt st.maxElevation with
    | true =>
      refine Or.inr ⟨a, i, i, by omega, le_refl _, rfl, ?_⟩
      refine ⟨hstart, rfl, hbefore, ?_, by simp only [if_true]; exact hel, ?_⟩
      · intro j h1 h2
        rcases Nat.lt_or_ge j i with hji | hji
        · exact hin' j h1 (by omega)
        · have : j = i := by omega
          subst this
          exact habove
      · intro j h1 h2 el' hel'
        simp only [if_true]
        rcases Nat.lt_or_ge j i with hji | hji
        · exact JSNum.not_gt_of_not_gt el' st.maxElevation el (hle j h1 (by omega) el' hel') hgm
        · have : j = i := by omega
          subst this
          rw [hel] at hel'
          cases hel'
          exact JSNum.gt_irrefl el
    | false =>
      refine Or.inr ⟨a, i, k, hak, by omega, rfl, ?_⟩
      refine ⟨hstart, rfl, hbefore, ?_, by simp only [Bool.false_eq_true, if_false]; exact hmax,
        ?_⟩
      · intro j h1 h2
        rcases Nat.lt_or_ge j i with hji | hji
        · exact hin' j h1 (by omega)
        · have : j = i := by omega
          subst this
          exact habove
      · intro j h1 h2 el' hel'
        simp only [Bool.false_eq_true, if_false]
        rcases Nat.lt_or_ge j i with hji | hji
        · exact hle j h1 (by omega) el' hel'
        · have : j = i := by omega
          subst this
          rw [hel] at hel'
          cases hel'
          exact hgm

theorem scanIdxInv_below (ext : Externals) (tle : String) (lat lon : ℚ) (now : ℤ) (i : ℕ)
    (st : ScanState) (hinv : ScanIdxInv ext tle lat lon now i st)
    (hans : stepAnswers ext tle lat lon now i = true)
    (hab : stepAbove ext tle lat lon now i = false) (hnone : ¬ st.passStart.isSome = true) :
    ScanIdxInv ext tle lat lon now (i + 1) st := by
  rcases hinv with ⟨hinit, hbelow⟩ | ⟨a, b, k, hak, hkb, hbi, hw⟩
  · refine Or.inl ⟨hinit, fun j hj => ?_⟩
    rcases Nat.lt_or_ge j i with hji | hji
    · exact hbelow j hji
    · have : j = i := by omega
      subst this
      exact ⟨hans, hab⟩
  · exfalso
    apply hnone
    rw [hw.1]
    rfl

theorem scanFinal_break (ext : Externals) (tle : String) (lat lon : ℚ) (now : ℤ) (i N : ℕ)
    (st : ScanState) (hinv : ScanIdxInv ext tle lat lon now i st) (hi : i ≤ N)
    (hans : stepAnswers ext tle lat lon now i = true)
    (hab : stepAbove ext tle lat lon now i = false) (hsome : st.passStart.isSome = true) :
    ScanFinal ext tle lat lon now N st := by
  rcases hinv with ⟨hinit, -⟩ | ⟨a, b, k, hak, hkb, hbi, hw⟩
  · subst hinit
    simp [scanInit] at hsome
  · refine Or.inr ⟨a, b, k, hak, hkb, by omega, hw, fun _ => ?_⟩
    rw [hbi]
    exact ⟨hans, hab⟩

theorem scanFinal_end (ext : Externals) (tle : String) (lat lon : ℚ) (now : ℤ) (N : ℕ)
    (st : ScanState) (hinv : ScanIdxInv ext tle lat lon now (N + 1) st) :
    ScanFinal ext tle lat lon now N st := by
  rcases hinv with ⟨hinit, hbelow⟩ | ⟨a, b, k, hak, hkb, hbi, hw⟩
  · exact Or.inl ⟨hinit, fun j hj => hbelow j (by omega)⟩
  · exact Or.inr ⟨a, b, k, hak, hkb, by omega, hw, fun h => by omega⟩

theorem scanIdxInv_end_index (ext : Externals) (tle : String) (lat lon : ℚ) (now : ℤ) (i : ℕ)
    (st : ScanState) (hinv : ScanIdxInv ext tle lat lon now i st) (b : ℕ)
    (hb : st.passEnd = some (stepTime now b)) : i = b + 1 := by
  rcases hinv with ⟨hinit, -⟩ | ⟨a, b0, k, -, -, hbi, hw⟩
  · subst hinit
    simp [scanInit] at hb
  · rw [hw.2.1] at hb
    have := stepTime_injective now b0 b (Option.some.inj hb)
    omega

/-- A scan of `computeNextPass` that does not throw ends with nothing or with the first
window; the recorded end is not before the step preceding the one the scan resumed at. -/
theorem scanLoop_spec (ext : Externals) (tle : String) (lat lon : ℚ) (now : ℤ) (N : ℕ) :
    ∀ (n i : ℕ) (st st' : ScanState), i + n = N + 1 →
      ScanIdxInv ext tle lat lon now i st → scanLoop ext tle lat lon now n i st = .ok st' →
      ScanFinal ext tle lat lon now N st'
        ∧ ∀ b, st'.passEnd = some (stepTime now b) → i ≤ b + 1 := by
  intro n
  induction n with
  | zero =>
    intro i st st' hin hinv h
    simp only [scanLoop, Except.ok.injEq] at h
    subst h
    have hi : i = N + 1 := by omega
    subst hi
    exact ⟨scanFinal_end ext tle lat lon now N st hinv,
      fun b hb => le_of_eq (scanIdxInv_end_index ext tle lat lon now _ st hinv b hb)⟩
  | succ n ih =>
    intro i st st' hin hinv h
    have hstop : st = st' → st.passStart.isSome = true →
        stepAnswers ext tle lat lon now i = true → stepAbove ext tle lat lon now i = false →
        ScanFinal ext tle lat lon now N st'
          ∧ ∀ b, st'.passEnd = some (stepTime now b) → i ≤ b + 1 := by
      intro heq hsome hans hab
      subst heq
      exact ⟨scanFinal_break ext tle lat lon now i N st hinv (by omega) hans hab hsome,
        fun b hb => le_of_eq (scanIdxInv_end_index ext tle lat lon now _ st hinv b hb)⟩
    have hnext : ∀ st1, ScanIdxInv ext tle lat lon now (i + 1) st1 →
        scanLoop ext tle lat lon now n (i + 1) st1 = .ok st' →
        ScanFinal ext tle lat lon now N st'
          ∧ ∀ b, st'.passEnd = some (stepTime now b) → i ≤ b + 1 := by
      intro st1 hinv1 h1
      obtain ⟨hf, hb⟩ := ih (i + 1) st1 st' (by omega) hinv1 h1
      exact ⟨hf, fun b hb' => by have := hb b hb'; omega⟩
    simp only [scanLoop] at h
    split at h
    · cases h
    · cases h
    · rename_i info hq
      obtain ⟨hans, hel⟩ := step_answered ext tle lat lon now i info hq
      split at h
      · rename_i el hel'
        rw [hel'] at hel
        split at h
        · rename_i hgt
          exact hnext _ (scanIdxInv_above ext tle lat lon now i st el hinv hel hgt) h
        · rename_i hgt
          have hab : stepAbove ext tle lat lon now i = false := by
            rw [stepAbove_eq, hel]
            simpa [JSVal.gtZero] using hgt
          split at h
          · rename_i hsome
            exact hstop (by simpa using h) hsome hans hab
          · rename_i hsome
            exact hnext st (scanIdxInv_below ext tle lat lon now i st hinv hans hab hsome) h
      · rename_i hel'
        rw [hel'] at hel
        have hab : stepAbove ext tle lat lon now i = false := by
          rw [stepAbove_eq, hel]
          rfl
        split at h
        · rename_i hsome
          exact hstop (by simpa using h) hsome hans hab
        · rename_i hsome
          exact hnext st (scanIdxInv_below ext tle lat lon now i st hinv hans hab hsome) h

/-- A scan of `computeNextPass` that does not throw gives the same result under every
ephemeris that answers alike at the steps up to the one after the recorded end. -/
theorem scanLoop_agree (ext ext' : Externals) (tle : String) (lat lon : ℚ) (now : ℤ)
    (N m : ℕ)
    (hagree : ∀ j, j ≤ m → ext'.getSatelliteInfo tle (stepTime now j) lat lon 0
      = ext.getSatelliteInfo tle (stepTime now j) lat lon 0) :
    ∀ (n i : ℕ) (st st' : ScanState), i + n = N + 1 →
      ScanIdxInv ext tle lat lon now i st → scanLoop ext tle lat lon now n i st = .ok st' →
      (∃ b, b + 1 ≤ m ∧ st'.passEnd = some (stepTime now b)) →
      scanLoop ext' tle lat lon now n i st = .ok st' := by
  intro n
  induction n with
  | zero =>
    intro i st st' _ _ h _
    simpa only [scanLoop] using h
  | succ n ih =>
    intro i st st' hin hinv h hend
    obtain ⟨b, hbm, hb⟩ := hend
    have hib : i ≤ b + 1 :=
      (scanLoop_spec ext tle lat lon now N (n + 1) i st st' hin hinv h).2 b hb
    have hq := hagree i (by omega)
    simp only [scanLoop] at h ⊢
    rw [hq]
    cases hq0 : ext.getSatelliteInfo tle (stepTime now i) lat lon 0 with
    | error e =>
      rw [hq0] at h
      cases h
    | ok r =>
      cases r with
      | none =>
        rw [hq0] at h
        cases h
      | some info =>
        obtain ⟨hans, hel⟩ := step_answered ext tle lat lon now i info hq0
        rw [hq0] at h
        simp only at h ⊢
        cases hel' : info.elevation with
        | none =>
          rw [hel'] at hel h
          simp only at h ⊢
          have hab : stepAbove ext tle lat lon now i = false := by
            rw [stepAbove_eq, hel]
            rfl
          by_cases hsome : st.passStart.isSome = true
          · rw [if_pos hsome] at h ⊢
            exact h
          · rw [if_neg hsome] at h ⊢
            exact ih _ _ _ (by omega)
              (scanIdxInv_below ext tle lat lon now i st hinv hans hab hsome) h ⟨b, hbm, hb⟩
        | some el =>
          rw [hel'] at hel h
          simp only at h ⊢
          by_cases hgt : el.gt (.fin 0) = true
          · rw [if_pos hgt] at h ⊢
            exact ih _ _ _ (by omega)
              (scanIdxInv_above ext tle lat lon now i st el hinv hel hgt) h ⟨b, hbm, hb⟩
          · rw [if_neg hgt] at h ⊢
            have hab : stepAbove ext tle lat lon now i = false := by
              rw [stepAbove_eq, hel]
              simpa [JSVal.gtZero] using hgt
            by_cases hsome : st.passStart.isSome = true
            · rw [if_pos hsome] at h ⊢
              exact h
            · rw [if_neg hsome] at h ⊢
              exact ih _ _ _ (by omega)
                (scanIdxInv_below ext tle lat lon now i st hinv hans hab hsome) h ⟨b, hbm, hb⟩

/-- A window returned by `computeNextPass` is read off the final state of a scan that did not
throw and that recorded the first window. -/
theorem computeNextPass_cases (ext : Externals) (satellite : Satellite) (lat lon : ℚ) (now : ℤ)
    (tle : String) (w : PassWindow) (htle : buildTleString satellite = .ok tle)
    (h : computeNextPass ext satellite lat lon now = .ok (some w)) :
    ∃ st a b k, scanLoop ext tle lat lon now 721 0 scanInit = .ok st
      ∧ a ≤ k ∧ k ≤ b ∧ b ≤ 720 ∧ ScanWindow ext tle lat lon now a b k st
      ∧ (b < 720 → stepAnswers ext tle lat lon now (b + 1) = true
          ∧ stepAbove ext tle lat lon now (b + 1) = false)
      ∧ w = { startTime := stepTime now a
              endTime := stepTime now b
              durationSeconds := ((stepTime now b - stepTime now a : ℤ) : ℚ) / 1000
              maxElevation := st.maxElevation
              dayNight := getSolarPhase ext lat lon (stepTime now a) } := by
  unfold computeNextPass at h
  rw [htle] at h
  simp only at h
  have hsteps : LOOKAHEAD_HOURS * 3600 / STEP_SECONDS + 1 = 721 := by decide
  rw [hsteps] at h
  cases hs : scanLoop ext tle lat lon now 721 0 scanInit with
  | error e =>
    rw [show scanLoop ext tle lat lon now 721 0
      { passStart := none, passEnd := none, maxElevation := .fin (-90) } = _ from hs] at h
    cases h
  | ok st =>
    rw [show scanLoop ext tle lat lon now 721 0
      { passStart := none, passEnd := none, maxElevation := .fin (-90) } = _ from hs] at h
    simp only at h
    have hinit : ScanIdxInv ext tle lat lon now 0 scanInit :=
      Or.inl ⟨rfl, fun j hj => absurd hj (Nat.not_lt_zero j)⟩
    obtain ⟨hfinal, -⟩ := scanLoop_spec ext tle lat lon now 720 721 0 scanInit st rfl hinit hs
    rcases hfinal with ⟨hst, -⟩ | ⟨a, b, k, hak, hkb, hbN, hwin, hnext⟩
    · rw [hst] at h
      simp [scanInit] at h
    · obtain ⟨hstart, hend, -⟩ := id hwin
      rw [hstart, hend] at h
      simp only [Except.ok.injEq, Option.some.injEq] at h
      exact ⟨st, a, b, k, rfl, hak, hkb, hbN, hwin, hnext, h.symm⟩

/-- The steps of a recorded window carry an elevation above the horizon. -/
theorem stepAbove_elevation (ext : Externals) (tle : String) (lat lon : ℚ) (now : ℤ) (j : ℕ)
    (h : stepAbove ext tle lat lon now j = true) :
    ∃ el, stepElevation ext tle lat lon now j = some el ∧ el.gt (.fin 0) = true := by
  rw [stepAbove_eq] at h
  cases hel : stepElevation ext tle lat lon now j with
  | none =>
    rw [hel] at h
    cases h
  | some el =>
    rw [hel] at h
    exact ⟨el, rfl, h⟩

theorem stepAbove_false_finite (ext : Externals) (tle : String) (lat lon : ℚ) (now : ℤ) (j : ℕ)
    (h : stepAbove ext tle lat lon now j = false) (q : ℚ)
    (hq : stepElevation ext tle lat lon now j = some (.fin q)) : q ≤ 0 := by
  rw [stepAbove_eq, hq] at h
  simpa [JSVal.gtZero, JSNum.gt] using h

/-- C16: when `computeNextPass` returns a window, `startTime` and `endTime` are the times of
scan steps `a ≤ b` within the 720-step horizon; no step before `a` has elevation `> 0`, every
step from `a` to `b` has elevation `> 0`, and the step after `b`, if it is within the horizon,
is answered with an elevation that is not `> 0` (`≤ 0` when it is a finite number); and the
same window is returned under every ephemeris that answers alike up to step `b + 1`, whatever
it reports at later steps. -/
theorem computeNextPass_first_window (ext : Externals) (satellite : Satellite) (lat lon : ℚ)
    (now : ℤ) (tle : String) (w : PassWindow) (htle : buildTleString satellite = .ok tle)
    (h : computeNextPass ext satellite lat lon now = .ok (some w)) :
    ∃ a b, a ≤ b ∧ b ≤ 720
      ∧ w.startTime = stepTime now a ∧ w.endTime = stepTime now b
      ∧ (∀ j, j < a → stepAbove ext tle lat lon now j = false)
      ∧ (∀ j, a ≤ j → j ≤ b → stepAbove ext tle lat lon now j = true)
      ∧ (b < 720 → stepAnswers ext tle lat lon now (b + 1) = true
          ∧ stepAbove ext tle lat lon now (b + 1) = false
          ∧ ∀ q, stepElevation ext tle lat lon now (b + 1) = some (.fin q) → q ≤ 0)
      ∧ (∀ ext' : Externals,
          (∀ j, j ≤ b + 1 → ext'.getSatelliteInfo tle (stepTime now j) lat lon 0
            = ext.getSatelliteInfo tle (stepTime now j) lat lon 0) →
          ext'.solarAltitudeDeg (stepTime now a) lat lon
            = ext.solarAltitudeDeg (stepTime now a) lat lon →
          computeNextPass ext' satellite lat lon now = .ok (some w)) := by
  obtain ⟨st, a, b, k, hs, hak, hkb, hbN, hwin, hnext, hw⟩ :=
    computeNextPass_cases ext satellite lat lon now tle w htle h
  obtain ⟨hstart, hend, hbefore, hin, -, -⟩ := id hwin
  refine ⟨a, b, le_trans hak hkb, hbN, by rw [hw], by rw [hw],
    fun j hj => (hbefore j hj).2, hin, ?_, ?_⟩
  · intro hb
    obtain ⟨h1, h2⟩ := hnext hb
    exact ⟨h1, h2, stepAbove_false_finite ext tle lat lon now (b + 1) h2⟩
  · intro ext' hagree hsun
    have hinit : ScanIdxInv ext tle lat lon now 0 scanInit :=
      Or.inl ⟨rfl, fun j hj => absurd hj (Nat.not_lt_zero j)⟩
    have hs' : scanLoop ext' tle lat lon now 721 0 scanInit = .ok st :=
      scanLoop_agree ext ext' tle lat lon now 720 (b + 1) hagree 721 0 scanInit st rfl hinit hs
        ⟨b, le_refl _, hend⟩
    unfold computeNextPass
    rw [htle]
    simp only
    have hsteps : LOOKAHEAD_HOURS * 3600 / STEP_SECONDS + 1 = 721 := by decide
    rw [hsteps]
    rw [show scanLoop ext' tle lat lon now 721 0
      { passStart := none, passEnd := none, maxElevation := .fin (-90) } = _ from hs']
    simp only [hstart, hend]
    rw [hw]
    unfold getSolarPhase
    rw [hsun]

/-- C17: when `computeNextPass` returns a window from step `a` to step `b`, `maxElevation` is
the elevation reported at some step of the window, no step of the window reports a larger
one (each of them reporting an elevation `> 0`), and `maxElevation` is `> 0`. -/
theorem computeNextPass_max_elevation (ext : Externals) (satellite : Satellite) (lat lon : ℚ)
    (now : ℤ) (tle : String) (w : PassWindow) (htle : buildTleString satellite = .ok tle)
    (h : computeNextPass ext satellite lat lon now = .ok (some w)) :
    ∃ a b k, a ≤ k ∧ k ≤ b ∧ b ≤ 720
      ∧ w.startTime = stepTime now a ∧ w.endTime = stepTime now b
      ∧ stepElevation ext tle lat lon now k = some w.maxElevation
      ∧ (∀ j, a ≤ j → j ≤ b → ∃ el, stepElevation ext tle lat lon now j = some el
          ∧ el.gt (.fin 0) = true ∧ el.gt w.maxElevation = false)
      ∧ w.maxElevation.gt (.fin 0) = true := by
  obtain ⟨st, a, b, k, hs, hak, hkb, hbN, hwin, hnext, hw⟩ :=
    computeNextPass_cases ext satellite lat lon now tle w htle h
  obtain ⟨hstart, hend, hbefore, hin, hmax, hle⟩ := id hwin
  have hwmax : w.maxElevation = st.maxElevation := by rw [hw]
  refine ⟨a, b, k, hak, hkb, hbN, by rw [hw], by rw [hw], by rw [hwmax]; exact hmax, ?_, ?_⟩
  · intro j haj hjb
    obtain ⟨el, hel, hpos⟩ := stepAbove_elevation ext tle lat lon now j (hin j haj hjb)
    exact ⟨el, hel, hpos, by rw [hwmax]; exact hle j haj hjb el hel⟩
  · obtain ⟨el, hel, hpos⟩ := stepAbove_elevation ext tle lat lon now k (hin k hak hkb)
    rw [hmax] at hel
    rw [hwmax, Option.some.inj hel]
    exact hpos

theorem errorOf_eq_some {α : Type} {x : Except String α} {e : String}
    (h : errorOf x = some e) : x = .error e := by
  cases x with
  | error e' =>
    simp only [errorOf, Option.some.injEq] at h
    rw [h]
  | ok a => simp [errorOf] at h

theorem throwing_scan :
    errorOf (computeNextPass throwingExt sampleSat 22 78 0)
      = some "Error: propagation failed" := by
  decide!

/-- C14: under an ephemeris that answers every step of the scan with -5 degrees except the
step at 90 s, where the query throws, `computeNextPass` throws that error instead of
returning `null`. -/
theorem computeNextPass_step_failure_aborts :
    (∀ i, i ≤ 720 → i ≠ 3 →
        stepElevation throwingExt sampleTle 22 78 0 i = some (.fin (-5)))
      ∧ throwingExt.getSatelliteInfo sampleTle (stepTime 0 3) 22 78 0
          = .error "Error: propagation failed"
      ∧ computeNextPass throwingExt sampleSat 22 78 0 = .error "Error: propagation failed" := by
  refine ⟨?_, rfl, errorOf_eq_some throwing_scan⟩
  intro i _ hi
  have hne : stepTime 0 i ≠ 90000 := by
    unfold stepTime STEP_SECONDS
    push_cast
    omega
  simp only [stepElevation, throwingExt, if_neg hne]

theorem computeNextPass_first_window_witness :
    ∃ a b, a ≤ b ∧ b ≤ 720
      ∧ samplePass.startTime = stepTime 0 a ∧ samplePass.endTime = stepTime 0 b
      ∧ (∀ j, j < a → stepAbove passExt sampleTle 22 78 0 j = false)
      ∧ (∀ j, a ≤ j → j ≤ b → stepAbove passExt sampleTle 22 78 0 j = true)
      ∧ (b < 720 → stepAnswers passExt sampleTle 22 78 0 (b + 1) = true
          ∧ stepAbove passExt sampleTle 22 78 0 (b + 1) = false
          ∧ ∀ q, stepElevation passExt sampleTle 22 78 0 (b + 1) = some (.fin q) → q ≤ 0)
      ∧ (∀ ext' : Externals,
          (∀ j, j ≤ b + 1 → ext'.getSatelliteInfo sampleTle (stepTime 0 j) 22 78 0
            = passExt.getSatelliteInfo sampleTle (stepTime 0 j) 22 78 0) →
          ext'.solarAltitudeDeg (stepTime 0 a) 22 78
            = passExt.solarAltitudeDeg (stepTime 0 a) 22 78 →
          computeNextPass ext' sampleSat 22 78 0 = .ok (some samplePass)) :=
  computeNextPass_first_window passExt sampleSat 22 78 0 sampleTle samplePass sample_tle
    (toOption_eq_some sample_pass)

theorem computeNextPass_max_elevation_witness :
    ∃ a b k, a ≤ k ∧ k ≤ b ∧ b ≤ 720
      ∧ samplePass.startTime = stepTime 0 a ∧ samplePass.endTime = stepTime 0 b
      ∧ stepElevation passExt sampleTle 22 78 0 k = some samplePass.maxElevation
      ∧ (∀ j, a ≤ j → j ≤ b → ∃ el, stepElevation passExt sampleTle 22 78 0 j = some el
          ∧ el.gt (.fin 0) = true ∧ el.gt samplePass.maxElevation = false)
      ∧ samplePass.maxElevation.gt (.fin 0) = true :=
  computeNextPass_max_elevation passExt sampleSat 22 78 0 sampleTle samplePass sample_tle
    (toOption_eq_some sample_pass)

/-! ### Best-observer pass selector: failing queries -/

/-- A query that throws, or yields no object, a non-number or a non-finite elevation, is a
query without a finite elevation. -/
theorem observedElevation_none_iff (ext : Externals) (tle : String) (ts : ℤ) (o : Observer) :
    observedElevation ext tle ts o = none ↔
      ((∃ e, ext.getSatelliteInfo tle ts o.lat o.lon 0 = .error e)
        ∨ ext.getSatelliteInfo tle ts o.lat o.lon 0 = .ok none
        ∨ ∃ info, ext.getSatelliteInfo tle ts o.lat o.lon 0 = .ok (some info)
            ∧ (info.elevation = none
                ∨ ∃ x, info.elevation = some x ∧ x.isFinite = false)) := by
  unfold observedElevation
  cases hq : ext.getSatelliteInfo tle ts o.lat o.lon 0 with
  | error e => simp
  | ok r =>
    cases r with
    | none => simp
    | some info =>
      cases hel : info.elevation with
      | none => simp [hel]
      | some x =>
        cases x <;> simp [hel, JSNum.isFinite]

theorem probeObserver_of_none (ext : Externals) (tle : String) (ts : ℤ) (o : Observer)
    (acc : ℚ × Option Observer) (h : observedElevation ext tle ts o = none) :
    probeObserver ext tle ts o acc = acc := by
  rw [probeObserver_eq, h]

theorem probeAll_of_none (ext : Externals) (tle : String) (ts : ℤ) :
    ∀ (l : List Observer) (acc : ℚ × Option Observer),
      (∀ o ∈ l, observedElevation ext tle ts o = none) → probeAll ext tle ts l acc = acc := by
  intro l
  induction l with
  | nil => intro acc _; rfl
  | cons o rest ih =>
    intro acc h
    simp only [probeAll]
    rw [probeObserver_of_none ext tle ts o acc (h o (List.mem_cons_self o rest))]
    exact ih acc (fun o' ho' => h o' (List.mem_cons_of_mem o ho'))

theorem probeAll_skip (ext : Externals) (tle : String) (ts : ℤ) (l1 l2 : List Observer)
    (o : Observer) (acc : ℚ × Option Observer) (h : observedElevation ext tle ts o = none) :
    probeAll ext tle ts (l1 ++ o :: l2) acc = probeAll ext tle ts (l1 ++ l2) acc := by
  rw [probeAll_append, probeAll_append]
  simp only [probeAll]
  rw [probeObserver_of_none ext tle ts o _ h]

theorem probeObserver_congr (ext ext' : Externals) (tle : String)
    (h : ∀ ts o, observedElevation ext' tle ts o = observedElevation ext tle ts o)
    (ts : ℤ) (o : Observer) (acc : ℚ × Option Observer) :
    probeObserver ext' tle ts o acc = probeObserver ext tle ts o acc := by
  rw [probeObserver_eq, probeObserver_eq, h]

theorem probeAll_congr (ext ext' : Externals) (tle : String)
    (h : ∀ ts o, observedElevation ext' tle ts o = observedElevation ext tle ts o) (ts : ℤ) :
    ∀ (l : List Observer) (acc : ℚ × Option Observer),
      probeAll ext' tle ts l acc = probeAll ext tle ts l acc := by
  intro l
  induction l with
  | nil => intro acc; rfl
  | cons o rest ih =>
    intro acc
    simp only [probeAll]
    rw [probeObserver_congr ext ext' tle h, ih]

theorem stepBest_congr (data : StaticData) (ext ext' : Externals) (tle : String)
    (h : ∀ ts o, observedElevation ext' tle ts o = observedElevation ext tle ts o) (ts : ℤ) :
    stepBest data ext' tle ts = stepBest data ext tle ts := by
  unfold stepBest
  rw [probeObserver_congr ext ext' tle h, probeAll_congr ext ext' tle h]

theorem passLoop_congr (data : StaticData) (ext ext' : Externals) (tle : String)
    (h : ∀ ts o, observedElevation ext' tle ts o = observedElevation ext tle ts o)
    (now : ℤ) (stepMs : ℕ) :
    ∀ (n step : ℕ) (st : PassState),
      passLoop data ext' tle now stepMs n step st = passLoop data ext tle now stepMs n step st := by
  intro n
  induction n with
  | zero => intro step st; rfl
  | succ n ih =>
    intro step st
    simp only [passLoop]
    rw [stepBest_congr data ext ext' tle h]
    simp only [ih]

theorem getNextPass_congr (data : StaticData) (ext ext' : Externals) (satellite : Satellite)
    (lookaheadMinutes stepSeconds : ℕ) (now : ℤ)
    (h : ∀ tle ts o, observedElevation ext' tle ts o = observedElevation ext tle ts o) :
    getNextPass data ext' satellite lookaheadMinutes stepSeconds now
      = getNextPass data ext satellite lookaheadMinutes stepSeconds now := by
  unfold getNextPass
  cases buildTleString satellite with
  | error e => rfl
  | ok tle =>
    simp only
    rw [passLoop_congr data ext ext' tle (h tle)]

theorem stepBest_of_none (data : StaticData) (ext : Externals) (tle : String) (ts : ℤ)
    (h : ∀ o ∈ data.observers ++ [indiaCenter], observedElevation ext tle ts o = none) :
    stepBest data ext tle ts = (-90, none) := by
  rw [stepBest_eq]
  exact probeAll_of_none ext tle ts _ _ h

theorem passLoop_of_none (data : StaticData) (ext : Externals) (tle : String) (now : ℤ)
    (stepMs n step : ℕ) (st : PassState)
    (h : ∀ o ∈ data.observers ++ [indiaCenter],
      observedElevation ext tle (now + (step : ℤ) * stepMs) o = none) :
    passLoop data ext tle now stepMs (n + 1) step st
      = if st.passStart.isSome then st
        else passLoop data ext tle now stepMs n (step + 1) st := by
  simp only [passLoop]
  rw [stepBest_of_none data ext tle _ h]
  norm_num

/-- C15: in `getNextPass`, a query that throws, or yields no object, a non-number or a
non-finite elevation, leaves the running per-step maximum and observer as they were, so the
step is scanned as if that observer were not in the registry, and the result of the whole
function is the same under every ephemeris reporting the same finite elevations; a step at
which the registry observers and the India centre all fail has per-step maximum -90 and no
observer, opens no window, and ends the scan when a window is open. -/
theorem getNextPass_failures_local (data : StaticData) (ext : Externals)
    (satellite : Satellite) (lookaheadMinutes stepSeconds : ℕ) (now : ℤ) (tle : String) :
    (∀ ts o, observedElevation ext tle ts o = none ↔
        ((∃ e, ext.getSatelliteInfo tle ts o.lat o.lon 0 = .error e)
          ∨ ext.getSatelliteInfo tle ts o.lat o.lon 0 = .ok none
          ∨ ∃ info, ext.getSatelliteInfo tle ts o.lat o.lon 0 = .ok (some info)
              ∧ (info.elevation = none
                  ∨ ∃ x, info.elevation = some x ∧ x.isFinite = false)))
      ∧ (∀ ts o acc, observedElevation ext tle ts o = none →
          probeObserver ext tle ts o acc = acc)
      ∧ (∀ ts l1 o l2 acc, observedElevation ext tle ts o = none →
          probeAll ext tle ts (l1 ++ o :: l2) acc = probeAll ext tle ts (l1 ++ l2) acc)
      ∧ (∀ ext' : Externals,
          (∀ tle' ts o, observedElevation ext' tle' ts o = observedElevation ext tle' ts o) →
          getNextPass data ext' satellite lookaheadMinutes stepSeconds now
            = getNextPass data ext satellite lookaheadMinutes stepSeconds now)
      ∧ (∀ (stepMs n step : ℕ) (st : PassState),
          (∀ o ∈ data.observers ++ [indiaCenter],
            observedElevation ext tle (now + (step : ℤ) * stepMs) o = none) →
          stepBest data ext tle (now + (step : ℤ) * stepMs) = (-90, none)
            ∧ passLoop data ext tle now stepMs (n + 1) step st
              = if st.passStart.isSome then st
                else passLoop data ext tle now stepMs n (step + 1) st) :=
  ⟨observedElevation_none_iff ext tle,
    fun ts o acc h => probeObserver_of_none ext tle ts o acc h,
    fun ts l1 o l2 acc h => probeAll_skip ext tle ts l1 l2 o acc h,
    fun ext' h => getNextPass_congr data ext ext' satellite lookaheadMinutes stepSeconds now h,
    fun stepMs n step st h =>
      ⟨stepBest_of_none data ext tle _ h, passLoop_of_none data ext tle now stepMs n step st h⟩⟩

theorem throwing_observed (tle : String) (o : Observer) :
    observedElevation throwingExt tle 90000 o = none := rfl

theorem getNextPass_failures_local_witness :
    stepBest sampleData throwingExt sampleTle (0 + ((3 : ℕ) : ℤ) * (30000 : ℕ)) = (-90, none)
      ∧ passLoop sampleData throwingExt sampleTle 0 30000 (2 + 1) 3
            { passStart := some 60000, passEnd := some 60000, maxElevation := 12,
              bestObserver := none }
          = if (some (60000 : ℤ)).isSome then
              { passStart := some 60000, passEnd := some 60000, maxElevation := 12,
                bestObserver := none }
            else passLoop sampleData throwingExt sampleTle 0 30000 2 (3 + 1)
              { passStart := some 60000, passEnd := some 60000, maxElevation := 12,
                bestObserver := none } :=
  (getNextPass_failures_local sampleData throwingExt sampleSat 60 30 0 sampleTle).2.2.2.2
    30000 2 3
    { passStart := some 60000, passEnd := some 60000, maxElevation := 12, bestObserver := none }
    (fun o _ => throwing_observed sampleTle o)

/-! ### Freshness of the elements -/

theorem tle_age_gt_iff (ms : ℤ) : (ms : ℚ) / (1000 * 60 * 60) > 168 ↔ ms > 604800000 := by
  rw [gt_iff_lt, gt_iff_lt, lt_div_iff₀ (by norm_num)]
  have : (168 : ℚ) * (1000 * 60 * 60) = ((604800000 : ℤ) : ℚ) := by norm_num
  rw [this, Int.cast_lt]

theorem buildSatelliteResponse_status (sat : Satellite) (now : ℤ) :
    (buildSatelliteResponse sat now).tle_status
      = if ((now - effectiveUpdatedAt sat now : ℤ) : ℚ) / (1000 * 60 * 60) > 168 then "stale"
        else "fresh" := by
  unfold buildSatelliteResponse effectiveUpdatedAt
  cases sat.tle_updated_at <;> cases sat.createdAt <;>
    simp [Option.orElse, Option.getD]

/-- C18: `buildSatelliteResponse` and `mapSatellite` return the same object, so the same
`tle_status` and `tle_age_hours`; the status is `'stale'` when the age in hours, counted from
`tle_updated_at || createdAt || now`, exceeds 168 and `'fresh'` otherwise; so for a record with
`tle_updated_at` present the status is
`'stale'` exactly when `(now - tle_updated_at)` in hours exceeds 168, that is when it exceeds
604 800 000 ms, and `'fresh'` exactly otherwise, an age of exactly 168 hours being
`'fresh'`. -/
theorem tle_status_threshold (sat : Satellite) (now : ℤ) :
    mapSatellite sat now = buildSatelliteResponse sat now
      ∧ (buildSatelliteResponse sat now).tle_status
          = (if ((now - effectiveUpdatedAt sat now : ℤ) : ℚ) / (1000 * 60 * 60) > 168
              then "stale" else "fresh")
      ∧ (∀ t, sat.tle_updated_at = some t →
          ((buildSatelliteResponse sat now).tle_status = "stale"
              ↔ ((now - t : ℤ) : ℚ) / (1000 * 60 * 60) > 168)
            ∧ ((buildSatelliteResponse sat now).tle_status = "fresh"
              ↔ ¬ ((now - t : ℤ) : ℚ) / (1000 * 60 * 60) > 168)
            ∧ ((buildSatelliteResponse sat now).tle_status = "stale" ↔ now - t > 604800000)
            ∧ (now - t = 604800000 → (buildSatelliteResponse sat now).tle_status = "fresh")
            ∧ (buildSatelliteResponse sat now).tle_age_hours
                = round2 (((now - t : ℤ) : ℚ) / (1000 * 60 * 60))) := by
  refine ⟨rfl, buildSatelliteResponse_status sat now, ?_⟩
  intro t ht
  have heff : effectiveUpdatedAt sat now = t := by
    unfold effectiveUpdatedAt
    rw [ht]
  have hstatus := buildSatelliteResponse_status sat now
  rw [heff] at hstatus
  have hage : (buildSatelliteResponse sat now).tle_age_hours
      = round2 (((now - t : ℤ) : ℚ) / (1000 * 60 * 60)) := by
    unfold buildSatelliteResponse
    simp [ht, Option.orElse, Option.getD]
  by_cases hgt : ((now - t : ℤ) : ℚ) / (1000 * 60 * 60) > 168
  · rw [if_pos hgt] at hstatus
    have hms := (tle_age_gt_iff (now - t)).mp hgt
    rw [hstatus]
    exact ⟨⟨fun _ => hgt, fun _ => rfl⟩,
      ⟨fun h => absurd h (by decide), fun h => absurd hgt h⟩,
      ⟨fun _ => hms, fun _ => rfl⟩, fun h => absurd hms (by omega), hage⟩
  · rw [if_neg hgt] at hstatus
    have hms : ¬ now - t > 604800000 := fun h => hgt ((tle_age_gt_iff (now - t)).mpr h)
    rw [hstatus]
    exact ⟨⟨fun h => absurd h (by decide), fun h => absurd h hgt⟩,
      ⟨fun _ => hgt, fun _ => rfl⟩,
      ⟨fun h => absurd h (by decide), fun h => absurd h hms⟩, fun _ => rfl, hage⟩

theorem tle_status_threshold_witness :
    ((buildSatelliteResponse sampleSat 604800000).tle_status = "stale"
        ↔ (((604800000 : ℤ) - 0 : ℤ) : ℚ) / (1000 * 60 * 60) > 168)
      ∧ ((buildSatelliteResponse sampleSat 604800000).tle_status = "fresh"
        ↔ ¬ (((604800000 : ℤ) - 0 : ℤ) : ℚ) / (1000 * 60 * 60) > 168)
      ∧ ((buildSatelliteResponse sampleSat 604800000).tle_status = "stale"
        ↔ (604800000 : ℤ) - 0 > 604800000)
      ∧ ((604800000 : ℤ) - 0 = 604800000 →
          (buildSatelliteResponse sampleSat 604800000).tle_status = "fresh")
      ∧ (buildSatelliteResponse sampleSat 604800000).tle_age_hours
          = round2 ((((604800000 : ℤ) - 0 : ℤ) : ℚ) / (1000 * 60 * 60)) :=
  (tle_status_threshold sampleSat 604800000).2.2 0 rfl

/-! ### Ground track: valid samples and skipped records -/

theorem emitPoints_length : ∀ (l : List (ℚ × ℚ)) (prevLon : Option ℚ),
    (emitPoints prevLon l).length = l.length := by
  intro l
  induction l with
  | nil => intro _; rfl
  | cons c rest ih =>
    intro prevLon
    obtain ⟨lat, lng⟩ := c
    simp only [emitPoints, List.length_cons, ih]

theorem emitPoints_latitudes : ∀ (l : List (ℚ × ℚ)) (prevLon : Option ℚ),
    (emitPoints prevLon l).map TrackPoint.latitude = l.map Prod.fst := by
  intro l
  induction l with
  | nil => intro _; rfl
  | cons c rest ih =>
    intro prevLon
    obtain ⟨lat, lng⟩ := c
    simp only [emitPoints, List.map_cons, ih]

/-- The sampling loop pushes the points of the valid samples among the remaining ones. -/
theorem trackLoop_eq (ext : Externals) (tle : String) (now : ℤ) :
    ∀ (n i : ℕ) (prevLon : Option ℚ),
      trackLoop ext tle now 60 n i prevLon
        = emitPoints prevLon ((List.range' i n).filterMap (sampleCoords ext tle now)) := by
  intro n
  induction n with
  | zero => intro i prevLon; rfl
  | succ n ih =>
    intro i prevLon
    have hts : now + (i : ℤ) * ((60 : ℕ) : ℤ) * 1000 = now + (i : ℤ) * 60 * 1000 := by
      push_cast
      ring
    rw [List.range'_succ, List.filterMap_cons]
    simp only [trackLoop, sampleCoords, hts]
    cases hq : ext.getLatLngObj tle (now + (i : ℤ) * 60 * 1000) with
    | error e => exact ih (i + 1) prevLon
    | ok r =>
      cases r with
      | none => exact ih (i + 1) prevLon
      | some coords =>
        obtain ⟨la, lo⟩ := coords
        rcases la with _ | (q | _ | _ | _) <;> rcases lo with _ | (q' | _ | _ | _) <;>
          first
          | exact ih (i + 1) prevLon
          | exact congrArg _ (ih (i + 1) _)

/-- C19, amended: for every satellite whose name contains neither 'Aditya' nor 'L1' and
whose TLE lines are present, `getOrbitTrack` returns the points of exactly the samples
`i` in 0..99 (time `now + i * 60 s`) at which the ephemeris reports finite numeric latitude
and longitude, in sample order: at most 100 points, as many as there are such samples, with
the latitudes of these samples and their longitudes after the anti-meridian adjustment; a
sample whose query throws or reports anything else is left out and the later ones are still
produced. -/
theorem getOrbitTrack_valid_samples (ext : Externals) (satellite : Satellite) (now : ℤ)
    (tle : String)
    (hname : jsIncludes satellite.name "Aditya" = false ∧ jsIncludes satellite.name "L1" = false)
    (htle : buildTleString satellite = .ok tle) :
    getOrbitTrack ext satellite now
        = emitPoints none ((List.range 100).filterMap (sampleCoords ext tle now))
      ∧ (getOrbitTrack ext satellite now).length
          = ((List.range 100).filterMap (sampleCoords ext tle now)).length
      ∧ (getOrbitTrack ext satellite now).length ≤ 100
      ∧ (getOrbitTrack ext satellite now).map TrackPoint.latitude
          = ((List.range 100).filterMap (sampleCoords ext tle now)).map Prod.fst := by
  have hval : getOrbitTrack ext satellite now
      = emitPoints none ((List.range 100).filterMap (sampleCoords ext tle now)) := by
    unfold getOrbitTrack
    rw [hname.1, hname.2, htle]
    simp only [Bool.or_self, Bool.false_eq_true, if_false]
    rw [List.range_eq_range']
    exact trackLoop_eq ext tle now 100 0 none
  rw [hval, emitPoints_length, emitPoints_latitudes]
  refine ⟨rfl, rfl, ?_, rfl⟩
  calc ((List.range 100).filterMap (sampleCoords ext tle now)).length
      ≤ (List.range 100).length := List.length_filterMap_le _ _
    _ = 100 := List.length_range 100

theorem getOrbitTrack_valid_samples_witness :
    getOrbitTrack patchyExt sampleSat 0
        = emitPoints none ((List.range 100).filterMap (sampleCoords patchyExt sampleTle 0))
      ∧ (getOrbitTrack patchyExt sampleSat 0).length
          = ((List.range 100).filterMap (sampleCoords patchyExt sampleTle 0)).length
      ∧ (getOrbitTrack patchyExt sampleSat 0).length ≤ 100
      ∧ (getOrbitTrack patchyExt sampleSat 0).map TrackPoint.latitude
          = ((List.range 100).filterMap (sampleCoords patchyExt sampleTle 0)).map Prod.fst :=
  getOrbitTrack_valid_samples patchyExt sampleSat 0 sampleTle ⟨by decide, by decide⟩ sample_tle

/-- C19, counterexample: the record named 'Aditya-L1' has both TLE lines and the ephemeris
reports finite coordinates at each of the 100 samples, yet the track returned is empty. -/
theorem getOrbitTrack_named_track_empty :
    hasTle adityaSat = true
      ∧ buildTleString adityaSat = .ok sampleTle
      ∧ (∀ i, i < 100 → sampleCoords sampleExt sampleTle 0 i = some (25 / 2, 309 / 4))
      ∧ getOrbitTrack sampleExt adityaSat 0 = [] :=
  ⟨by decide, rfl, fun _ _ => rfl, by decide⟩

theorem isPrefixOf_iff_append (p : List Char) :
    ∀ s : List Char, p.isPrefixOf s = true ↔ ∃ suf, s = p ++ suf := by
  induction p with
  | nil =>
    intro s
    simp
  | cons a p ih =>
    intro s
    cases s with
    | nil => simp [List.isPrefixOf]
    | cons b s =>
      simp only [List.isPrefixOf, Bool.and_eq_true, beq_iff_eq, ih, List.cons_append,
        List.cons.injEq]
      constructor
      · rintro ⟨hab, suf, hs⟩
        exact ⟨suf, hab.symm, hs⟩
      · rintro ⟨suf, hab, hs⟩
        exact ⟨hab.symm, suf, hs⟩

/-- The scan of `includes` finds the pattern exactly when it occurs as a contiguous part. -/
theorem includesChars_iff (pat : List Char) :
    ∀ s : List Char, includesChars pat s = true ↔ ∃ pre suf, s = pre ++ pat ++ suf := by
  intro s
  induction s with
  | nil =>
    simp only [includesChars, List.isEmpty_iff]
    constructor
    · intro h
      exact ⟨[], [], by simp [h]⟩
    · rintro ⟨pre, suf, h⟩
      have h' := congrArg List.length h
      simp only [List.length_nil, List.length_append] at h'
      exact List.length_eq_zero.mp (by omega)
  | cons c cs ih =>
    simp only [includesChars, Bool.or_eq_true, isPrefixOf_iff_append, ih]
    constructor
    · rintro (⟨suf, h⟩ | ⟨pre, suf, h⟩)
      · exact ⟨[], suf, by simpa using h⟩
      · exact ⟨c :: pre, suf, by simp [h]⟩
    · rintro ⟨pre, suf, h⟩
      cases pre with
      | nil => exact Or.inl ⟨suf, by simpa using h⟩
      | cons c' pre' =>
        simp only [List.cons_append, List.cons.injEq] at h
        exact Or.inr ⟨pre', suf, h.2⟩

theorem jsIncludes_iff (s pat : String) :
    jsIncludes s pat = true ↔ ∃ pre suf : String, s = pre ++ pat ++ suf := by
  unfold jsIncludes
  rw [includesChars_iff]
  constructor
  · rintro ⟨pre, suf, h⟩
    exact ⟨⟨pre⟩, ⟨suf⟩, String.ext (by simpa [String.data_append] using h)⟩
  · rintro ⟨pre, suf, h⟩
    exact ⟨pre.data, suf.data, by rw [h]; simp [String.data_append]⟩

/-- C20: for every satellite record whose name contains 'Aditya' or 'L1', whatever its TLE
lines are (present or missing), `getOrbitTrack` returns the empty sequence under every
ephemeris, none being queried. -/
theorem getOrbitTrack_skips_named (ext : Externals) (satellite : Satellite) (now : ℤ)
    (h : (∃ pre suf : String, satellite.name = pre ++ "Aditya" ++ suf)
      ∨ ∃ pre suf : String, satellite.name = pre ++ "L1" ++ suf) :
    getOrbitTrack ext satellite now = [] := by
  have hinc : (jsIncludes satellite.name "Aditya" || jsIncludes satellite.name "L1") = true := by
    rw [Bool.or_eq_true]
    exact h.imp (jsIncludes_iff _ _).mpr (jsIncludes_iff _ _).mpr
  unfold getOrbitTrack
  rw [if_pos hinc]

theorem getOrbitTrack_skips_named_witness :
    getOrbitTrack sampleExt adityaSat 0 = []
      ∧ getOrbitTrack throwingExt { noTleSat with name := "GSAT-L1" } 1000 = [] :=
  ⟨getOrbitTrack_skips_named sampleExt adityaSat 0 (Or.inl ⟨"", "-L1", by decide⟩),
    getOrbitTrack_skips_named throwingExt { noTleSat with name := "GSAT-L1" } 1000
      (Or.inr ⟨"GSAT-", "", by decide⟩)⟩

/-! ### Position resolver: coordinates and altitude -/

theorem getCurrentPosition_of_body_error (ext : Externals) (satellite : Satellite) (now : ℤ)
    (e : String) (h : getCurrentPositionBody ext satellite now = .error e) :
    getCurrentPosition ext satellite now
      = .error ("Failed to get position for " ++ satellite.name ++ ": " ++ e) := by
  unfold getCurrentPosition
  rw [h]

/-- C21: for a satellite with TLE lines, when the ephemeris answers the position query with
nothing, or with coordinates of which the latitude or the longitude is missing or not a
number, `getCurrentPosition` throws 'Invalid TLE data: unable to compute position'; when both
are numbers and one is `NaN` or infinite it throws 'TLE produced invalid coordinates (NaN or
Infinity)'; each wrapped in 'Failed to get position for <name>: '. So it returns a position
sample only for finite numeric coordinates, which the sample carries unchanged. -/
theorem getCurrentPosition_invalid_coordinates (ext : Externals) (satellite : Satellite)
    (now : ℤ) (tle : String) (htle : buildTleString satellite = .ok tle) :
    (ext.getLatLngObj tle now = .ok none →
        getCurrentPosition ext satellite now
          = .error ("Failed to get position for " ++ satellite.name ++ ": "
              ++ "Invalid TLE data: unable to compute position"))
      ∧ (∀ coords, ext.getLatLngObj tle now = .ok (some coords) →
          coords.lat = none ∨ coords.lng = none →
          getCurrentPosition ext satellite now
            = .error ("Failed to get position for " ++ satellite.name ++ ": "
                ++ "Invalid TLE data: unable to compute position"))
      ∧ (∀ coords x y, ext.getLatLngObj tle now = .ok (some coords) →
          coords.lat = some x → coords.lng = some y →
          x.isFinite = false ∨ y.isFinite = false →
          getCurrentPosition ext satellite now
            = .error ("Failed to get position for " ++ satellite.name ++ ": "
                ++ "TLE produced invalid coordinates (NaN or Infinity)"))
      ∧ (∀ coords, ext.getLatLngObj tle now = .ok (some coords) →
          isFiniteNumber coords.lat = false ∨ isFiniteNumber coords.lng = false →
          ∃ e, getCurrentPosition ext satellite now = .error e)
      ∧ (∀ p, getCurrentPosition ext satellite now = .ok p →
          ∃ coords, ext.getLatLngObj tle now = .ok (some coords)
            ∧ coords.lat = some (.fin p.latitude) ∧ coords.lng = some (.fin p.longitude)) := by
  have hnull : ext.getLatLngObj tle now = .ok none →
      getCurrentPosition ext satellite now
        = .error ("Failed to get position for " ++ satellite.name ++ ": "
            ++ "Invalid TLE data: unable to compute position") := by
    intro hq
    apply getCurrentPosition_of_body_error
    unfold getCurrentPositionBody
    rw [htle]
    simp only
    rw [hq]
  have hmissing : ∀ coords, ext.getLatLngObj tle now = .ok (some coords) →
      coords.lat = none ∨ coords.lng = none →
      getCurrentPosition ext satellite now
        = .error ("Failed to get position for " ++ satellite.name ++ ": "
            ++ "Invalid TLE data: unable to compute position") := by
    intro coords hq hbad
    apply getCurrentPosition_of_body_error
    unfold getCurrentPositionBody
    rw [htle]
    simp only
    rw [hq]
    obtain ⟨la, lo⟩ := coords
    simp only at hbad
    rcases hbad with h | h
    · subst h
      rfl
    · subst h
      rcases la with _ | (q | _ | _ | _) <;> rfl
  have hnonfinite : ∀ coords x y, ext.getLatLngObj tle now = .ok (some coords) →
      coords.lat = some x → coords.lng = some y →
      x.isFinite = false ∨ y.isFinite = false →
      getCurrentPosition ext satellite now
        = .error ("Failed to get position for " ++ satellite.name ++ ": "
            ++ "TLE produced invalid coordinates (NaN or Infinity)") := by
    intro coords x y hq hx hy hbad
    apply getCurrentPosition_of_body_error
    unfold getCurrentPositionBody
    rw [htle]
    simp only
    rw [hq]
    obtain ⟨la, lo⟩ := coords
    simp only at hx hy
    subst hx hy
    cases x <;> cases y <;> simp [JSNum.isFinite] at hbad <;> rfl
  refine ⟨hnull, hmissing, hnonfinite, ?_, ?_⟩
  · intro coords hq hbad
    cases hla : coords.lat with
    | none => exact ⟨_, hmissing coords hq (Or.inl hla)⟩
    | some x =>
      cases hlo : coords.lng with
      | none => exact ⟨_, hmissing coords hq (Or.inr hlo)⟩
      | some y =>
        rw [hla, hlo] at hbad
        exact ⟨_, hnonfinite coords x y hq hla hlo hbad⟩
  · intro p hp
    cases hq : ext.getLatLngObj tle now with
    | error e =>
      have : getCurrentPosition ext satellite now
          = .error ("Failed to get position for " ++ satellite.name ++ ": " ++ e) := by
        apply getCurrentPosition_of_body_error
        unfold getCurrentPositionBody
        rw [htle]
        simp only
        rw [hq]
      rw [this] at hp
      cases hp
    | ok r =>
      cases r with
      | none =>
        rw [hnull hq] at hp
        cases hp
      | some coords =>
        refine ⟨coords, rfl, ?_⟩
        cases hla : coords.lat with
        | none =>
          rw [hmissing coords hq (Or.inl hla)] at hp
          cases hp
        | some x =>
          cases hlo : coords.lng with
          | none =>
            rw [hmissing coords hq (Or.inr hlo)] at hp
            cases hp
          | some y =>
            by_cases hfin : x.isFinite = false ∨ y.isFinite = false
            · rw [hnonfinite coords x y hq hla hlo hfin] at hp
              cases hp
            · obtain ⟨la, lo⟩ := coords
              simp only at hla hlo
              subst hla hlo
              cases x <;> cases y <;> simp [JSNum.isFinite] at hfin
              rename_i a b
              unfold getCurrentPosition getCurrentPositionBody at hp
              rw [htle] at hp
              simp only at hp
              rw [hq] at hp
              simp only at hp
              split at hp
              · rename_i p' hp'
                split at hp'
                · cases hp'
                · simp only [Except.ok.injEq] at hp' hp
                  subst hp
                  subst hp'
                  exact ⟨rfl, rfl⟩
              · cases hp

theorem getCurrentPosition_invalid_coordinates_witness :
    getCurrentPosition nanCoordsExt sampleSat 0
      = .error ("Failed to get position for " ++ sampleSat.name ++ ": "
          ++ "TLE produced invalid coordinates (NaN or Infinity)") :=
  (getCurrentPosition_invalid_coordinates nanCoordsExt sampleSat 0 sampleTle sample_tle).2.2.1
    { lat := some (.fin (25 / 2)), lng := some .nan } (.fin (25 / 2)) .nan rfl rfl rfl
    (Or.inr rfl)

theorem getCurrentPosition_ok_altitude (ext : Externals) (satellite : Satellite) (now : ℤ)
    (tle : String) (htle : buildTleString satellite = .ok tle) (p : PositionSample)
    (hp : getCurrentPosition ext satellite now = .ok p) :
    p.altitudeKm = round2 (resolveAltitude ext tle now) := by
  unfold getCurrentPosition getCurrentPositionBody at hp
  rw [htle] at hp
  simp only at hp
  cases hq : ext.getLatLngObj tle now with
  | error e =>
    rw [hq] at hp
    cases hp
  | ok r =>
    rw [hq] at hp
    cases r with
    | none => cases hp
    | some coords =>
      obtain ⟨la, lo⟩ := coords
      rcases la with _ | (a | _ | _ | _) <;> rcases lo with _ | (b | _ | _ | _) <;>
        simp only at hp <;> try cases hp
      split at hp
      · rename_i p' hp'
        split at hp'
        · cases hp'
        · simp only [Except.ok.injEq] at hp' hp
          subst hp
          subst hp'
          rfl
      · cases hp

/-- C22: in `getCurrentPosition` the altitude resolved from the Earth-centre query is the
reported height when that is a finite number `> 0`; otherwise, when the reported range is a
finite number, it is `max(0, range - 6371)`; otherwise (also when the query throws or yields
nothing) it is 0; and a position sample returned carries that altitude rounded to two
decimals. -/
theorem getCurrentPosition_altitude_source (ext : Externals) (satellite : Satellite) (now : ℤ)
    (tle : String) (htle : buildTleString satellite = .ok tle) :
    (∀ info h, ext.getSatelliteInfo tle now 0 0 0 = .ok (some info) →
        info.height = some (.fin h) → 0 < h → resolveAltitude ext tle now = h)
      ∧ (∀ info r, ext.getSatelliteInfo tle now 0 0 0 = .ok (some info) →
          (∀ h, info.height = some (.fin h) → ¬ 0 < h) → info.range = some (.fin r) →
          resolveAltitude ext tle now = max 0 (r - 6371))
      ∧ (∀ info, ext.getSatelliteInfo tle now 0 0 0 = .ok (some info) →
          (∀ h, info.height = some (.fin h) → ¬ 0 < h) → isFiniteNumber info.range = false →
          resolveAltitude ext tle now = 0)
      ∧ ((∀ info, ext.getSatelliteInfo tle now 0 0 0 ≠ .ok (some info)) →
          resolveAltitude ext tle now = 0)
      ∧ (∀ p, getCurrentPosition ext satellite now = .ok p →
          p.altitudeKm = round2 (resolveAltitude ext tle now)) := by
  refine ⟨?_, ?_, ?_, ?_, getCurrentPosition_ok_altitude ext satellite now tle htle⟩
  · intro info h hq hh hpos
    unfold resolveAltitude
    rw [hq]
    simp only [hh, if_pos hpos]
  · intro info r hq hh hr
    unfold resolveAltitude
    rw [hq]
    obtain ⟨el, rg, ht⟩ := info
    simp only at hh hr
    subst hr
    rcases ht with _ | (h | _ | _ | _)
    · rfl
    · simp only [if_neg (hh h rfl)]
    · rfl
    · rfl
    · rfl
  · intro info hq hh hr
    unfold resolveAltitude
    rw [hq]
    obtain ⟨el, rg, ht⟩ := info
    simp only at hh hr
    have hrange : (match rg with
        | some (JSNum.fin r) => max 0 (r - 6371)
        | _ => (0 : ℚ)) = 0 := by
      rcases rg with _ | (r | _ | _ | _)
      · rfl
      · simp [isFiniteNumber, JSNum.isFinite] at hr
      · rfl
      · rfl
      · rfl
    rcases ht with _ | (h | _ | _ | _)
    · exact hrange
    · simp only [if_neg (hh h rfl)]
      exact hrange
    · exact hrange
    · exact hrange
    · exact hrange
  · intro hno
    unfold resolveAltitude
    cases hq : ext.getSatelliteInfo tle now 0 0 0 with
    | error e => rfl
    | ok r =>
      cases r with
      | none => rfl
      | some info => exact absurd hq (hno info)

theorem rangeOnly_position :
    getCurrentPosition rangeOnlyExt sampleSat 0
      = .ok { latitude := 25 / 2, longitude := 309 / 4, altitudeKm := 509, timestamp := 0 } :=
  toOption_eq_some (by decide!)

theorem getCurrentPosition_altitude_source_witness :
    resolveAltitude rangeOnlyExt sampleTle 0 = max 0 (6880 - 6371)
      ∧ (509 : ℚ) = round2 (resolveAltitude rangeOnlyExt sampleTle 0) :=
  ⟨(getCurrentPosition_altitude_source rangeOnlyExt sampleSat 0 sampleTle sample_tle).2.1
      { elevation := some (.fin (-40)), range := some (.fin 6880), height := none } 6880 rfl
      (fun h hh => by cases hh) rfl,
    (getCurrentPosition_altitude_source rangeOnlyExt sampleSat 0 sampleTle sample_tle).2.2.2.2
      { latitude := 25 / 2, longitude := 309 / 4, altitudeKm := 509, timestamp := 0 }
      rangeOnly_position⟩

/-! ### Pass scanner: day and night -/

/-- C25: when `computeNextPass` returns a window, `dayNight` is 'Daylight' exactly when the
solar altitude in degrees at the observer's `(lat, lon)` at the window's `startTime` is `> -6`
and 'Night' exactly otherwise; and the same window, with the same `dayNight`, is returned
whatever the almanac reports at any other time or place. -/
theorem computeNextPass_day_night (ext : Externals) (satellite : Satellite) (lat lon : ℚ)
    (now : ℤ) (tle : String) (w : PassWindow) (htle : buildTleString satellite = .ok tle)
    (h : computeNextPass ext satellite lat lon now = .ok (some w)) :
    (w.dayNight = "Daylight"
        ↔ (ext.solarAltitudeDeg w.startTime lat lon).gt (.fin (-6)) = true)
      ∧ (w.dayNight = "Night"
        ↔ (ext.solarAltitudeDeg w.startTime lat lon).gt (.fin (-6)) = false)
      ∧ (∀ sun : ℤ → ℚ → ℚ → JSNum,
          sun w.startTime lat lon = ext.solarAltitudeDeg w.startTime lat lon →
          computeNextPass { ext with solarAltitudeDeg := sun } satellite lat lon now
            = .ok (some w)) := by
  obtain ⟨st, a, b, k, hs, hak, hkb, hbN, hwin, hnext, hw⟩ :=
    computeNextPass_cases ext satellite lat lon now tle w htle h
  obtain ⟨hstart, hend, -⟩ := id hwin
  have hday : w.dayNight = getSolarPhase ext lat lon w.startTime := by rw [hw]
  have hstartw : w.startTime = stepTime now a := by rw [hw]
  refine ⟨?_, ?_, ?_⟩
  · rw [hday]
    unfold getSolarPhase
    cases hg : (ext.solarAltitudeDeg w.startTime lat lon).gt (.fin (-6))
    · simp
    · simp
  · rw [hday]
    unfold getSolarPhase
    cases hg : (ext.solarAltitudeDeg w.startTime lat lon).gt (.fin (-6))
    · simp
    · simp
  · intro sun hsun
    have hinit : ScanIdxInv ext tle lat lon now 0 scanInit :=
      Or.inl ⟨rfl, fun j hj => absurd hj (Nat.not_lt_zero j)⟩
    have hs' : scanLoop { ext with solarAltitudeDeg := sun } tle lat lon now 721 0 scanInit
        = .ok st :=
      scanLoop_agree ext { ext with solarAltitudeDeg := sun } tle lat lon now 720 (b + 1)
        (fun _ _ => rfl) 721 0 scanInit st rfl hinit hs ⟨b, le_refl _, hend⟩
    unfold computeNextPass
    rw [htle]
    simp only
    have hsteps : LOOKAHEAD_HOURS * 3600 / STEP_SECONDS + 1 = 721 := by decide
    rw [hsteps]
    rw [show scanLoop { ext with solarAltitudeDeg := sun } tle lat lon now 721 0
      { passStart := none, passEnd := none, maxElevation := .fin (-90) } = _ from hs']
    simp only [hstart, hend]
    rw [hw]
    unfold getSolarPhase
    rw [hstartw] at hsun
    simp only [hsun]

theorem computeNextPass_day_night_witness :
    (samplePass.dayNight = "Daylight"
        ↔ (passExt.solarAltitudeDeg samplePass.startTime 22 78).gt (.fin (-6)) = true)
      ∧ (samplePass.dayNight = "Night"
        ↔ (passExt.solarAltitudeDeg samplePass.startTime 22 78).gt (.fin (-6)) = false)
      ∧ (∀ sun : ℤ → ℚ → ℚ → JSNum,
          sun samplePass.startTime 22 78 = passExt.solarAltitudeDeg samplePass.startTime 22 78 →
          computeNextPass { passExt with solarAltitudeDeg := sun } sampleSat 22 78 0
            = .ok (some samplePass)) :=
  computeNextPass_day_night passExt sampleSat 22 78 0 sampleTle samplePass sample_tle
    (toOption_eq_some sample_pass)

/-! ### Point in polygon: crossing parity and rings -/

/-- The crossing test of an edge: the latitude at or above the lower endpoint and strictly
below the higher one, and the longitude west of the edge there. -/
theorem edgeIntersects_halfOpen (lon lat : ℚ) (vi vj : Vertex) :
    edgeIntersects lon lat vi vj
      = (halfOpenBetween lat vi vj && decide (lon < edgeLongitudeAt lat vi vj)) := by
  unfold edgeIntersects halfOpenBetween edgeLongitudeAt
  congr 1
  by_cases hi : vi.2 > lat <;> by_cases hj : vj.2 > lat
  · have h : ¬ (min vi.2 vj.2 ≤ lat ∧ lat < max vi.2 vj.2) := by
      rintro ⟨h1, -⟩
      rcases min_le_iff.mp h1 with h | h <;> linarith
    simp [hi, hj, h]
  · have h : min vi.2 vj.2 ≤ lat ∧ lat < max vi.2 vj.2 :=
      ⟨min_le_iff.mpr (Or.inr (not_lt.mp hj)), lt_max_iff.mpr (Or.inl hi)⟩
    simp [hi, hj, h]
  · have h : min vi.2 vj.2 ≤ lat ∧ lat < max vi.2 vj.2 :=
      ⟨min_le_iff.mpr (Or.inl (not_lt.mp hi)), lt_max_iff.mpr (Or.inr hj)⟩
    simp [hi, hj, h]
  · have h : ¬ (min vi.2 vj.2 ≤ lat ∧ lat < max vi.2 vj.2) := by
      rintro ⟨-, h2⟩
      rcases lt_max_iff.mp h2 with h | h
      · exact hi h
      · exact hj h
    simp [hi, hj, h]

theorem halfOpen_eq_strict (lat : ℚ) (vi vj : Vertex) (hi : vi.2 ≠ lat) (hj : vj.2 ≠ lat) :
    halfOpenBetween lat vi vj = strictlyBetween lat vi vj := by
  unfold halfOpenBetween strictlyBetween
  have hmin : min vi.2 vj.2 ≠ lat := by
    rcases min_choice vi.2 vj.2 with h | h <;> rw [h] <;> assumption
  have : (min vi.2 vj.2 ≤ lat ∧ lat < max vi.2 vj.2)
      ↔ (min vi.2 vj.2 < lat ∧ lat < max vi.2 vj.2) :=
    ⟨fun h => ⟨lt_of_le_of_ne h.1 hmin, h.2⟩, fun h => ⟨le_of_lt h.1, h.2⟩⟩
  simp only [this]

theorem pointInPolygon_eq_crossings (lon lat : ℚ) (ring : List Vertex)
    (rest : List (List Vertex)) (h3 : 3 ≤ ring.length) :
    pointInPolygon (lon, lat) (some { coordinates := some (ring :: rest) })
      = decide (crossings lon lat (edgesOf ring) % 2 = 1) := by
  have hne : ring ≠ [] := by
    intro h
    rw [h] at h3
    simp at h3
  rw [pointInPolygon_ring lon lat ring rest h3 hne, rayCast_eq_crossings]
  unfold edgesOf
  rw [getLastD_getLast ring hne]
  simp

/-- C23, amended: for a polygon whose first ring has at least 3 vertices, `pointInPolygon`
returns true exactly when the number of ring edges (consecutive vertex pairs, the first one
leading from the last vertex to the first) crossed by the ray is odd, an edge being crossed
when the latitude of the point is at or above the lower endpoint latitude and strictly below
the higher one and its longitude is less than the longitude of the edge at that latitude;
when no vertex of the ring has the latitude of the point this is the number of edges with the
latitude strictly between the endpoint latitudes. -/
theorem pointInPolygon_crossing_parity (lon lat : ℚ) (ring : List Vertex)
    (rest : List (List Vertex)) (h3 : 3 ≤ ring.length) :
    (pointInPolygon (lon, lat) (some { coordinates := some (ring :: rest) }) = true
        ↔ crossings lon lat (edgesOf ring) % 2 = 1)
      ∧ crossings lon lat (edgesOf ring)
          = (edgesOf ring).countP (fun e =>
              halfOpenBetween lat e.2 e.1 && decide (lon < edgeLongitudeAt lat e.2 e.1))
      ∧ ((∀ v ∈ ring, v.2 ≠ lat) →
          (pointInPolygon (lon, lat) (some { coordinates := some (ring :: rest) }) = true
            ↔ strictCrossings lon lat (edgesOf ring) % 2 = 1)) := by
  have hne : ring ≠ [] := by
    intro h
    rw [h] at h3
    simp at h3
  have hval := pointInPolygon_eq_crossings lon lat ring rest h3
  have hcount : crossings lon lat (edgesOf ring)
      = (edgesOf ring).countP (fun e =>
          halfOpenBetween lat e.2 e.1 && decide (lon < edgeLongitudeAt lat e.2 e.1)) := by
    unfold crossings
    exact List.countP_congr (fun e _ => by rw [edgeIntersects_halfOpen])
  refine ⟨by rw [hval, decide_eq_true_eq], hcount, ?_⟩
  intro hno
  have hstrict : strictCrossings lon lat (edgesOf ring) = crossings lon lat (edgesOf ring) := by
    rw [hcount]
    unfold strictCrossings
    apply List.countP_congr
    intro e he
    obtain ⟨h1, h2⟩ := mem_edgesOf ring hne e he
    rw [halfOpen_eq_strict lat e.2 e.1 (hno e.2 h2) (hno e.1 h1)]
  rw [hstrict, hval, decide_eq_true_eq]

theorem pointInPolygon_crossing_parity_witness :
    (pointInPolygon (1, 1) (some { coordinates := some [sampleTriangle] }) = true
        ↔ crossings 1 1 (edgesOf sampleTriangle) % 2 = 1)
      ∧ crossings 1 1 (edgesOf sampleTriangle)
          = (edgesOf sampleTriangle).countP (fun e =>
              halfOpenBetween 1 e.2 e.1 && decide ((1 : ℚ) < edgeLongitudeAt 1 e.2 e.1))
      ∧ ((∀ v ∈ sampleTriangle, v.2 ≠ 1) →
          (pointInPolygon (1, 1) (some { coordinates := some [sampleTriangle] }) = true
            ↔ strictCrossings 1 1 (edgesOf sampleTriangle) % 2 = 1)) :=
  pointInPolygon_crossing_parity 1 1 sampleTriangle [] (by decide)

/-- C23, counterexample: the centre of the diamond with vertices (0, -2), (2, 0), (0, 2),
(-2, 0) has the latitude of two vertices; `pointInPolygon` returns true there, while no edge
has that latitude strictly between its endpoint latitudes, so the number of such edges, 0, is
even. -/
theorem pointInPolygon_vertex_latitude :
    3 ≤ diamond.length
      ∧ pointInPolygon (0, 0) (some { coordinates := some [diamond] }) = true
      ∧ strictCrossings 0 0 (edgesOf diamond) = 0
      ∧ crossings 0 0 (edgesOf diamond) = 1 := by
  decide!

/-- C24: `pointInPolygon` reads the first ring only: two polygons whose `coordinates` have
the same first ring give the same result at every point, so the result for an outer ring with
holes is the result for the outer ring alone. -/
theorem pointInPolygon_first_ring_only (point : Vertex) (rings rings' : List (List Vertex))
    (h : rings.head? = rings'.head?) :
    pointInPolygon point (some { coordinates := some rings })
        = pointInPolygon point (some { coordinates := some rings' })
      ∧ ∀ outer holes, rings = outer :: holes →
          pointInPolygon point (some { coordinates := some rings })
            = pointInPolygon point (some { coordinates := some [outer] }) := by
  constructor
  · cases rings with
    | nil =>
      cases rings' with
      | nil => rfl
      | cons r' t' => simp at h
    | cons r t =>
      cases rings' with
      | nil => simp at h
      | cons r' t' =>
        simp only [List.head?_cons, Option.some.injEq] at h
        subst h
        rfl
  · intro outer holes hr
    subst hr
    rfl

theorem pointInPolygon_first_ring_only_witness :
    pointInPolygon (5, 5) (some { coordinates := some [outerSquare, holeSquare] })
        = pointInPolygon (5, 5) (some { coordinates := some [outerSquare] })
      ∧ pointInPolygon (5, 5) (some { coordinates := some [holeSquare] }) = true
      ∧ pointInPolygon (5, 5) (some { coordinates := some [outerSquare, holeSquare] }) = true :=
  ⟨(pointInPolygon_first_ring_only (5, 5) [outerSquare, holeSquare] [outerSquare] rfl).1,
    by decide!, by decide!⟩

/-! ### Ground track: the longitude adjustment -/

theorem normalizeLon_none (lng : ℚ) : normalizeLon none lng = lng := rfl

theorem normalizeLon_cases (prevLon : Option ℚ) (lng : ℚ) :
    normalizeLon prevLon lng = lng - 360 ∨ normalizeLon prevLon lng = lng
      ∨ normalizeLon prevLon lng = lng + 360 := by
  cases prevLon with
  | none => exact Or.inr (Or.inl rfl)
  | some prev =>
    simp only [normalizeLon]
    split_ifs
    · exact Or.inl rfl
    · exact Or.inr (Or.inr rfl)
    · exact Or.inr (Or.inl rfl)
    · exact Or.inr (Or.inl rfl)

theorem normalizeLon_ne (prevLon : Option ℚ) (lng : ℚ) (h : normalizeLon prevLon lng ≠ lng) :
    ∃ prev, prevLon = some prev ∧ |lng - prev| > 180 := by
  cases prevLon with
  | none => exact absurd rfl h
  | some prev =>
    refine ⟨prev, rfl, ?_⟩
    by_contra habs
    apply h
    simp only [normalizeLon, if_neg habs]

/-- The `k`-th point pushed carries the latitude of the `k`-th valid sample and its longitude
adjusted against the longitude pushed just before. -/
theorem emitPoints_get : ∀ (l : List (ℚ × ℚ)) (prevLon : Option ℚ) (k : ℕ) (p : TrackPoint),
    (emitPoints prevLon l)[k]? = some p →
    ∃ c, l[k]? = some c ∧ p.latitude = c.1
      ∧ p.longitude = normalizeLon
          (match k with
            | 0 => prevLon
            | j + 1 => ((emitPoints prevLon l)[j]?).map TrackPoint.longitude) c.2 := by
  intro l
  induction l with
  | nil =>
    intro prevLon k p h
    simp [emitPoints] at h
  | cons c rest ih =>
    intro prevLon k p h
    obtain ⟨lat, lng⟩ := c
    cases k with
    | zero =>
      simp only [emitPoints, List.getElem?_cons_zero, Option.some.injEq] at h
      subst h
      exact ⟨(lat, lng), List.getElem?_cons_zero, rfl, rfl⟩
    | succ k =>
      simp only [emitPoints, List.getElem?_cons_succ] at h
      obtain ⟨c', hc', hlat, hlon⟩ := ih _ k p h
      refine ⟨c', by simpa using hc', hlat, ?_⟩
      rw [hlon]
      cases k with
      | zero => simp [emitPoints]
      | succ j => simp [emitPoints]

/-- C27: every point of the track returned by `getOrbitTrack` is the point of a valid sample:
it keeps the latitude reported for that sample, and its longitude is the reported longitude
plus exactly one of -360, 0 and 360; the adjustment is not 0 only when there is a point
emitted just before and the reported longitude differs from the longitude of that point by
more than 180 degrees; the first point is never adjusted. -/
theorem getOrbitTrack_longitude_adjustment (ext : Externals) (satellite : Satellite) (now : ℤ)
    (tle : String) (htle : buildTleString satellite = .ok tle) (k : ℕ) (p : TrackPoint)
    (hp : (getOrbitTrack ext satellite now)[k]? = some p) :
    ∃ c, ((List.range 100).filterMap (sampleCoords ext tle now))[k]? = some c
      ∧ p.latitude = c.1
      ∧ (p.longitude = c.2 - 360 ∨ p.longitude = c.2 ∨ p.longitude = c.2 + 360)
      ∧ (p.longitude ≠ c.2 → ∃ j q, k = j + 1
          ∧ (getOrbitTrack ext satellite now)[j]? = some q ∧ |c.2 - q.longitude| > 180)
      ∧ (k = 0 → p.longitude = c.2) := by
  have hval : getOrbitTrack ext satellite now = []
      ∨ getOrbitTrack ext satellite now
          = emitPoints none ((List.range 100).filterMap (sampleCoords ext tle now)) := by
    unfold getOrbitTrack
    split_ifs
    · exact Or.inl rfl
    · right
      rw [htle]
      simp only
      rw [List.range_eq_range']
      exact trackLoop_eq ext tle now 100 0 none
  rcases hval with hval | hval
  · rw [hval] at hp
    simp at hp
  · rw [hval] at hp ⊢
    obtain ⟨c, hc, hlat, hlon⟩ := emitPoints_get _ none k p hp
    refine ⟨c, hc, hlat, ?_, ?_, ?_⟩
    · rw [hlon]
      exact normalizeLon_cases _ _
    · intro hne
      rw [hlon] at hne
      obtain ⟨prev, hprev, habs⟩ := normalizeLon_ne _ _ hne
      cases k with
      | zero => cases hprev
      | succ j =>
        simp only [Option.map_eq_some'] at hprev
        obtain ⟨q, hq, hqlon⟩ := hprev
        exact ⟨j, q, rfl, hq, by rw [hqlon]; exact habs⟩
    · intro hk
      subst hk
      rw [hlon]
      rfl

theorem eastbound_second_point :
    (getOrbitTrack eastboundExt sampleSat 0)[1]? = some { latitude := 0, longitude := 182 } := by
  decide!

theorem getOrbitTrack_longitude_adjustment_witness :
    ∃ c, ((List.range 100).filterMap (sampleCoords eastboundExt sampleTle 0))[1]? = some c
      ∧ (0 : ℚ) = c.1
      ∧ ((182 : ℚ) = c.2 - 360 ∨ (182 : ℚ) = c.2 ∨ (182 : ℚ) = c.2 + 360)
      ∧ ((182 : ℚ) ≠ c.2 → ∃ j q, 1 = j + 1
          ∧ (getOrbitTrack eastboundExt sampleSat 0)[j]? = some q ∧ |c.2 - q.longitude| > 180)
      ∧ (1 = 0 → (182 : ℚ) = c.2) :=
  getOrbitTrack_longitude_adjustment eastboundExt sampleSat 0 sampleTle sample_tle 1
    { latitude := 0, longitude := 182 } eastbound_second_point

/-! ### Position cache: writes and the lookahead parameter -/

theorem getRealtimePosition_no_tle (data : StaticData) (ext : Externals) (clock : Clock)
    (cache : PositionCache) (satellite : Satellite) (q : Option String)
    (htle : hasTle satellite = false) :
    (getRealtimePosition data ext clock cache (some satellite) q).1 = cache := by
  simp only [hasTle, Bool.not_eq_false'] at htle
  simp [getRealtimePosition, htle]

theorem recompute_error (data : StaticData) (ext : Externals) (clock : Clock)
    (cache : PositionCache) (satellite : Satellite) (q : Option String) (e : String)
    (h : getCurrentPosition ext satellite clock.position = .error e) :
    (recompute data ext clock cache satellite q).1 = cache := by
  unfold recompute
  rw [h]
  simp only
  split_ifs <;> rfl

theorem recompute_ok (data : StaticData) (ext : Externals) (clock : Clock)
    (cache : PositionCache) (satellite : Satellite) (q : Option String) (position : PositionSample)
    (h : getCurrentPosition ext satellite clock.position = .ok position) :
    recompute data ext clock cache satellite q
      = (cache.set satellite._id
          { timestamp := clock.handler
            response := freshResponse data ext clock satellite q position },
         .json (freshResponse data ext clock satellite q position)) := by
  unfold recompute
  rw [h]

theorem getRealtimePosition_hit_cache (data : StaticData) (ext : Externals) (clock : Clock)
    (cache : PositionCache) (satellite : Satellite) (q : Option String)
    (hhit : cacheHit cache satellite._id clock.handler) :
    (getRealtimePosition data ext clock cache (some satellite) q).1 = cache := by
  cases htle : hasTle satellite with
  | false => exact getRealtimePosition_no_tle data ext clock cache satellite q htle
  | true =>
    obtain ⟨entry, he, ha⟩ := hhit
    rw [getRealtimePosition_hit data ext clock cache satellite q entry htle he ha]

theorem afterRequests_hits (data : StaticData) (ext : Externals) (cache : PositionCache) :
    ∀ reads : List (Clock × Option Satellite × Option String),
      (∀ r ∈ reads, ∃ sat, r.2.1 = some sat ∧ cacheHit cache sat._id r.1.handler) →
      afterRequests data ext cache reads = cache := by
  intro reads
  induction reads with
  | nil => intro _; rfl
  | cons r rest ih =>
    intro h
    obtain ⟨clock, found, q⟩ := r
    obtain ⟨sat, hsat, hhit⟩ := h (clock, found, q) (List.mem_cons_self _ _)
    simp only at hsat
    subst hsat
    simp only [afterRequests]
    rw [getRealtimePosition_hit_cache data ext clock cache sat q hhit]
    exact ih (fun r' hr' => h r' (List.mem_cons_of_mem _ hr'))

/-- C28: a request leaves the position cache as it was unless it recomputes successfully, in
which case it overwrites the entry of the satellite key with the handler's time and the new
response. In particular a request served from the cache, a request for a record without TLE
lines and a request whose `getCurrentPosition` throws leave every entry unchanged; so after
any sequence of requests served from the cache the cache is the same, and a request for a
key whose entry is 5 s old or older recomputes whatever reads came in between. -/
theorem cache_written_only_by_recompute (data : StaticData) (ext : Externals) (clock : Clock)
    (cache : PositionCache) (satellite : Satellite) (q : Option String) :
    ((getRealtimePosition data ext clock cache (some satellite) q).1 = cache
        ∨ ∃ position, hasTle satellite = true
            ∧ ¬ cacheHit cache satellite._id clock.handler
            ∧ getCurrentPosition ext satellite clock.position = .ok position
            ∧ getRealtimePosition data ext clock cache (some satellite) q
                = (cache.set satellite._id
                    { timestamp := clock.handler
                      response := freshResponse data ext clock satellite q position },
                   .json (freshResponse data ext clock satellite q position)))
      ∧ (getRealtimePosition data ext clock cache none q).1 = cache
      ∧ (cacheHit cache satellite._id clock.handler →
          (getRealtimePosition data ext clock cache (some satellite) q).1 = cache)
      ∧ (hasTle satellite = false →
          (getRealtimePosition data ext clock cache (some satellite) q).1 = cache)
      ∧ (∀ e, getCurrentPosition ext satellite clock.position = .error e →
          (getRealtimePosition data ext clock cache (some satellite) q).1 = cache)
      ∧ (∀ reads : List (Clock × Option Satellite × Option String),
          (∀ r ∈ reads, ∃ sat, r.2.1 = some sat ∧ cacheHit cache sat._id r.1.handler) →
          afterRequests data ext cache reads = cache
            ∧ (hasTle satellite = true →
                ∀ entry, cache satellite._id = some entry →
                  clock.handler - entry.timestamp ≥ 5000 →
                  getRealtimePosition data ext clock (afterRequests data ext cache reads)
                      (some satellite) q
                    = recompute data ext clock cache satellite q)) := by
  have hhit := getRealtimePosition_hit_cache data ext clock cache satellite q
  have hnotle := getRealtimePosition_no_tle data ext clock cache satellite q
  have herr : ∀ e, getCurrentPosition ext satellite clock.position = .error e →
      (getRealtimePosition data ext clock cache (some satellite) q).1 = cache := by
    intro e he
    cases htle : hasTle satellite with
    | false => exact hnotle htle
    | true =>
      by_cases hh : cacheHit cache satellite._id clock.handler
      · exact hhit hh
      · rw [getRealtimePosition_miss data ext clock cache satellite q htle hh]
        exact recompute_error data ext clock cache satellite q e he
  refine ⟨?_, rfl, hhit, hnotle, herr, ?_⟩
  · cases htle : hasTle satellite with
    | false => exact Or.inl (hnotle htle)
    | true =>
      by_cases hh : cacheHit cache satellite._id clock.handler
      · exact Or.inl (hhit hh)
      · cases hpos : getCurrentPosition ext satellite clock.position with
        | error e => exact Or.inl (herr e hpos)
        | ok position =>
          refine Or.inr ⟨position, rfl, hh, rfl, ?_⟩
          rw [getRealtimePosition_miss data ext clock cache satellite q htle hh]
          exact recompute_ok data ext clock cache satellite q position hpos
  · intro reads hreads
    have hsame := afterRequests_hits data ext cache reads hreads
    refine ⟨hsame, ?_⟩
    intro htle entry hentry hage
    rw [hsame]
    apply getRealtimePosition_miss data ext clock cache satellite q htle
    rintro ⟨entry', he', ha'⟩
    rw [hentry] at he'
    cases he'
    unfold CACHE_TTL_MS at ha'
    omega

theorem firstRequest_hit (t : ℤ) (h : t - 1000 < 5000) :
    cacheHit firstRequest.1 sampleSat._id t := by
  refine ⟨{ timestamp := 1000
            response := freshResponse sampleData sampleExt (clockAt 1000) sampleSat none
              { latitude := 25 / 2, longitude := 309 / 4, altitudeKm := 50924 / 100,
                timestamp := 1000 } }, ?_, h⟩
  rw [firstRequest_eq]
  simp [PositionCache.set]

theorem cache_written_only_by_recompute_witness :
    afterRequests sampleData sampleExt firstRequest.1
        [(clockAt 3000, some sampleSat, none), (clockAt 4000, some sampleSat, some "60")]
        = firstRequest.1
      ∧ (hasTle sampleSat = true →
          ∀ entry, firstRequest.1 sampleSat._id = some entry →
            (clockAt 6000).handler - entry.timestamp ≥ 5000 →
            getRealtimePosition sampleData sampleExt (clockAt 6000)
                (afterRequests sampleData sampleExt firstRequest.1
                  [(clockAt 3000, some sampleSat, none),
                   (clockAt 4000, some sampleSat, some "60")])
                (some sampleSat) none
              = recompute sampleData sampleExt (clockAt 6000) firstRequest.1 sampleSat none) :=
  (cache_written_only_by_recompute sampleData sampleExt (clockAt 6000) firstRequest.1 sampleSat
    none).2.2.2.2.2
    [(clockAt 3000, some sampleSat, none), (clockAt 4000, some sampleSat, some "60")]
    (fun r hr => by
      simp only [List.mem_cons, List.mem_singleton, List.not_mem_nil, or_false] at hr
      rcases hr with rfl | rfl
      · exact ⟨sampleSat, rfl, firstRequest_hit 3000 (by decide)⟩
      · exact ⟨sampleSat, rfl, firstRequest_hit 4000 (by decide)⟩)

/-- A computed reply (`cached = false`) is the response just stored under the satellite
key, and without a `lookaheadMinutes` parameter it has no `next_pass`. -/
theorem computed_reply_stored (data : StaticData) (ext : Externals) (clock : Clock)
    (cache cache' : PositionCache) (satellite : Satellite) (q : Option String)
    (r : RealtimeResponse)
    (h : getRealtimePosition data ext clock cache (some satellite) q = (cache', .json r))
    (hfresh : r.cached = false) :
    cache' satellite._id = some { timestamp := clock.handler, response := r }
      ∧ r.next_pass = requestedNextPass data ext clock satellite q := by
  have htle := getRealtimePosition_json_tle _ _ _ _ _ _ _ _ h
  by_cases hhit : cacheHit cache satellite._id clock.handler
  · obtain ⟨entry, he, ha⟩ := hhit
    rw [getRealtimePosition_hit data ext clock cache satellite q entry htle he ha] at h
    simp only [Prod.mk.injEq, Reply.json.injEq] at h
    rw [← h.2] at hfresh
    simp at hfresh
  · rw [getRealtimePosition_miss data ext clock cache satellite q htle hhit] at h
    refine ⟨(recompute_json_not_cached _ _ _ _ _ _ _ _ h).2, ?_⟩
    cases hpos : getCurrentPosition ext satellite clock.position with
    | error e =>
      unfold recompute at h
      rw [hpos] at h
      simp only at h
      split_ifs at h <;> simp at h
    | ok position =>
      rw [recompute_ok data ext clock cache satellite q position hpos] at h
      simp only [Prod.mk.injEq, Reply.json.injEq] at h
      rw [← h.2]
      rfl

/-- C29: on a cache hit the reply of `getRealtimePosition` is the stored response with
`timestamp` and `cached` replaced, whatever the `lookaheadMinutes` parameter: it has
`next_pass` exactly when the stored response has it. So when a request without the parameter
was computed and stored, a request for the same satellite less than 5 s later, with any
parameter value, is answered without `next_pass`, by the first response with `timestamp` and
`cached` replaced. -/
theorem cache_hit_ignores_lookahead (data : StaticData) (ext : Externals) (clock : Clock)
    (cache : PositionCache) (satellite : Satellite) (q : Option String)
    (htle : hasTle satellite = true) :
    (∀ entry, cache satellite._id = some entry → clock.handler - entry.timestamp < 5000 →
        (∀ q', getRealtimePosition data ext clock cache (some satellite) q'
            = getRealtimePosition data ext clock cache (some satellite) q)
          ∧ ∃ body, (getRealtimePosition data ext clock cache (some satellite) q).2 = .json body
              ∧ body = { entry.response with timestamp := clock.handler, cached := true }
              ∧ body.next_pass = entry.response.next_pass)
      ∧ (∀ (data0 : StaticData) (ext0 : Externals) (clock0 : Clock) (cache0 : PositionCache)
          (r1 : RealtimeResponse),
          getRealtimePosition data0 ext0 clock0 cache0 (some satellite) none
              = (cache, .json r1) →
          r1.cached = false → clock.handler - clock0.handler < 5000 →
          r1.next_pass = none
            ∧ ∃ body, (getRealtimePosition data ext clock cache (some satellite) q).2 = .json body
                ∧ body = { r1 with timestamp := clock.handler, cached := true }
                ∧ body.next_pass = none) := by
  constructor
  · intro entry hentry hage
    have hq := fun q' => getRealtimePosition_hit data ext clock cache satellite q' entry htle
      hentry hage
    refine ⟨fun q' => by rw [hq q', hq q], _, by rw [hq q], rfl, rfl⟩
  · intro data0 ext0 clock0 cache0 r1 h1 hfresh hage
    obtain ⟨hstored, hnp⟩ := computed_reply_stored data0 ext0 clock0 cache0 cache satellite none
      r1 h1 hfresh
    have hnone : r1.next_pass = none := by
      rw [hnp]
      rfl
    refine ⟨hnone, _, ?_, rfl, hnone⟩
    rw [getRealtimePosition_hit data ext clock cache satellite q _ htle hstored hage]

theorem cache_hit_ignores_lookahead_witness :
    (freshResponse sampleData sampleExt (clockAt 1000) sampleSat none
          { latitude := 25 / 2, longitude := 309 / 4, altitudeKm := 50924 / 100,
            timestamp := 1000 }).next_pass = none
      ∧ ∃ body, (getRealtimePosition sampleData sampleExt (clockAt 3000)
            (emptyCache.set sampleSat._id
              { timestamp := 1000
                response := freshResponse sampleData sampleExt (clockAt 1000) sampleSat none
                  { latitude := 25 / 2, longitude := 309 / 4, altitudeKm := 50924 / 100,
                    timestamp := 1000 } })
            (some sampleSat) (some "60")).2 = .json body
          ∧ body = { freshResponse sampleData sampleExt (clockAt 1000) sampleSat none
                       { latitude := 25 / 2, longitude := 309 / 4, altitudeKm := 50924 / 100,
                         timestamp := 1000 } with
                     timestamp := (clockAt 3000).handler, cached := true }
          ∧ body.next_pass = none :=
  (cache_hit_ignores_lookahead sampleData sampleExt (clockAt 3000) _ sampleSat (some "60")
    (by decide)).2 sampleData sampleExt (clockAt 1000) emptyCache _ firstRequest_eq rfl
    (by decide)

/-! ### Best-observer pass selector: the returned pass -/

theorem round2_nonneg {x : ℚ} (h : 0 ≤ x) : 0 ≤ round2 x := by
  unfold round2 mathRound
  have hfl : (0 : ℤ) ≤ ⌊x * 100 + 1 / 2⌋ := Int.floor_nonneg.mpr (by linarith)
  have : (0 : ℚ) ≤ ((⌊x * 100 + 1 / 2⌋ : ℤ) : ℚ) := by exact_mod_cast hfl
  exact div_nonneg this (by norm_num)

theorem round2_pos {x : ℚ} (h : 1 / 200 ≤ x) : 0 < round2 x := by
  unfold round2 mathRound
  have hfl : (1 : ℤ) ≤ ⌊x * 100 + 1 / 2⌋ := Int.le_floor.mpr (by push_cast; linarith)
  have : (1 : ℚ) ≤ ((⌊x * 100 + 1 / 2⌋ : ℤ) : ℚ) := by exact_mod_cast hfl
  exact div_pos (by linarith) (by norm_num)

theorem getNextPass_some_tle (data : StaticData) (ext : Externals) (satellite : Satellite)
    (L S : ℕ) (now : ℤ) (p : NextPass) (h : getNextPass data ext satellite L S now = some p) :
    ∃ tle, buildTleString satellite = .ok tle := by
  cases htle : buildTleString satellite with
  | error e =>
    unfold getNextPass at h
    rw [htle] at h
    cases h
  | ok tle => exact ⟨tle, rfl⟩

theorem passTime_sub (now : ℤ) (S a b : ℕ) (hab : a ≤ b) :
    passTime now (S * 1000) b - passTime now (S * 1000) a = (((b - a) * S : ℕ) : ℤ) * 1000 := by
  unfold passTime
  push_cast [Nat.cast_sub hab]
  ring

/-- C30, amended: for a positive whole number of step seconds, every pass returned by
`getNextPass` has `maxElevationDeg >= 0`, being the rounding to two decimals of a peak
elevation `> 0` (so it is `> 0` whenever the peak is at least 0.005 degrees), has
`endTime >= startTime`, and has `durationSeconds` equal to the number of seconds between
`startTime` and `endTime`, which is a whole multiple of `stepSeconds`, not negative and at
most `lookaheadMinutes * 60`. -/
theorem getNextPass_pass_invariants (data : StaticData) (ext : Externals)
    (satellite : Satellite) (L S : ℕ) (now : ℤ) (p : NextPass) (hS : 0 < S)
    (h : getNextPass data ext satellite L S now = some p) :
    0 ≤ p.maxElevationDeg
      ∧ (∃ peak : ℚ, 0 < peak ∧ p.maxElevationDeg = round2 peak
          ∧ (1 / 200 ≤ peak → 0 < p.maxElevationDeg))
      ∧ p.startTime ≤ p.endTime
      ∧ (p.durationSeconds : ℚ) = ((p.endTime - p.startTime : ℤ) : ℚ) / 1000
      ∧ (∃ m : ℕ, p.durationSeconds = (m : ℤ) * S)
      ∧ 0 ≤ p.durationSeconds
      ∧ p.durationSeconds ≤ (L : ℤ) * 60 := by
  obtain ⟨tle, htle⟩ := getNextPass_some_tle data ext satellite L S now p h
  rcases getNextPass_cases data ext satellite L S now tle htle with
    ⟨hnone, -⟩ | ⟨a, b, k, st, hak, hkb, hbN, hwin, -, hval⟩
  · rw [hnone] at h
    cases h
  · rw [hval] at h
    simp only [Option.some.injEq] at h
    obtain ⟨-, -, -, hin, -, -, -, -⟩ := id hwin
    have hpeak : 0 < stepMax data ext tle now (S * 1000) k := hin k hak hkb
    have hab : a ≤ b := le_trans hak hkb
    have hsub := passTime_sub now S a b hab
    have hdur : mathRound
        (((passTime now (S * 1000) b - passTime now (S * 1000) a : ℤ) : ℚ) / 1000)
        = (((b - a) * S : ℕ) : ℤ) := by
      rw [hsub]
      apply mathRound_eq
      · push_cast
        rw [mul_div_assoc, div_self (by norm_num : (1000 : ℚ) ≠ 0)]
        linarith
      · push_cast
        rw [mul_div_assoc, div_self (by norm_num : (1000 : ℚ) ≠ 0)]
        linarith
    have hbound : (b - a) * S ≤ L * 60 := by
      have h1 : b * (S * 1000) ≤ L * 60 * 1000 :=
        le_trans (Nat.mul_le_mul_right _ hbN) (Nat.div_mul_le_self _ _)
      have h2 : b * S * 1000 ≤ L * 60 * 1000 := by
        rw [Nat.mul_assoc]
        exact h1
      have h3 : b * S ≤ L * 60 := Nat.le_of_mul_le_mul_right h2 (by norm_num)
      exact le_trans (Nat.mul_le_mul_right _ (Nat.sub_le b a)) h3
    rw [← h]
    simp only
    refine ⟨round2_nonneg (le_of_lt hpeak), ⟨_, hpeak, rfl, fun hp => round2_pos hp⟩, ?_, ?_, ?_,
      ?_, ?_⟩
    · exact (passTime_le_iff now (S * 1000) (by omega) a b).mpr hab
    · rw [hdur, hsub]
      push_cast
      rw [mul_div_assoc, div_self (by norm_num : (1000 : ℚ) ≠ 0), mul_one]
    · exact ⟨b - a, by rw [hdur]; push_cast; rfl⟩
    · rw [hdur]
      exact Int.natCast_nonneg _
    · rw [hdur]
      exact_mod_cast hbound

theorem grazing_pass :
    getNextPass sampleData grazingExt sampleSat 60 30 0
      = some { startTime := 60000, endTime := 60000, maxElevationDeg := 0, durationSeconds := 0,
               bestObserver := some { name := "Delhi", lat := 57 / 2, lon := 77 } } := by
  decide!

/-- C30, counterexample: for a pass whose only step above the horizon has elevation 0.001
degrees, `getNextPass` returns a pass (the peak is `> 0`) whose `maxElevationDeg`, the peak
rounded to two decimals, is 0. -/
theorem getNextPass_grazing_pass_zero :
    ∃ p, getNextPass sampleData grazingExt sampleSat 60 30 0 = some p
      ∧ p.maxElevationDeg = 0
      ∧ observedElevation grazingExt sampleTle 60000 { name := "Delhi", lat := 57 / 2, lon := 77 }
          = some (1 / 1000) :=
  ⟨_, grazing_pass, rfl, rfl⟩

theorem city_pass :
    getNextPass sampleData cityExt sampleSat 60 30 0
      = some { startTime := 60000, endTime := 90000, maxElevationDeg := 12, durationSeconds := 30,
               bestObserver := some { name := "Bengaluru", lat := 13, lon := 155 / 2 } } := by
  decide!

theorem getNextPass_pass_invariants_witness :
    (0 : ℚ) ≤ 12
      ∧ (∃ peak : ℚ, 0 < peak ∧ (12 : ℚ) = round2 peak ∧ (1 / 200 ≤ peak → (0 : ℚ) < 12))
      ∧ (60000 : ℤ) ≤ 90000
      ∧ ((30 : ℤ) : ℚ) = (((90000 : ℤ) - 60000 : ℤ) : ℚ) / 1000
      ∧ (∃ m : ℕ, (30 : ℤ) = (m : ℤ) * (30 : ℕ))
      ∧ (0 : ℤ) ≤ 30
      ∧ (30 : ℤ) ≤ ((60 : ℕ) : ℤ) * 60 :=
  getNextPass_pass_invariants sampleData cityExt sampleSat 60 30 0
    { startTime := 60000, endTime := 90000, maxElevationDeg := 12, durationSeconds := 30,
      bestObserver := some { name := "Bengaluru", lat := 13, lon := 155 / 2 } }
    (by decide) city_pass

/-! ### TLE refresh: the parsed map -/

theorem tleMapGet_set (m : TleMap) (key : ℤ) (value : TleEntry) (n : ℤ) :
    tleMapGet (tleMapSet m key value) n = if key = n then some value else tleMapGet m n := by
  induction m with
  | nil => simp [tleMapSet, tleMapGet]
  | cons kv rest ih =>
    obtain ⟨k, v⟩ := kv
    simp only [tleMapSet]
    by_cases hk : k = key
    · rw [if_pos hk]
      simp only [tleMapGet]
      subst hk
      by_cases hn : k = n
      · simp [hn]
      · simp [hn]
    · rw [if_neg hk]
      simp only [tleMapGet, ih]
      by_cases hn : k = n
      · have : ¬ key = n := fun h => hk (hn.trans h.symm)
        simp [hn, this]
      · simp [hn]

theorem parseTleStep_eq (ext : Externals) (lines : List String) (i : ℕ) (m : TleMap)
    (name line1 line2 : String) (rest : List String)
    (h : lines.drop i = name :: line1 :: line2 :: rest) :
    parseTleStep ext lines i m = applyGroup ext m (name, line1, line2)
      ∧ lines.drop (i + 3) = rest := by
  have h1 : lines.getD (i + 1) "" = line1 := by
    have := congrArg (fun l => l.getD 1 "") h
    simpa [List.getD, List.getElem?_drop, Nat.add_comm] using this
  have h2 : lines.getD (i + 2) "" = line2 := by
    have := congrArg (fun l => l.getD 2 "") h
    simpa [List.getD, List.getElem?_drop, Nat.add_comm] using this
  constructor
  · unfold parseTleStep applyGroup groupEntry
    rw [h1, h2]
    simp only
    split_ifs with hlen
    · cases ext.parseInt10 (jsTrim (substring27 (jsTrim line1))) <;> rfl
    · rfl
  · have : lines.drop (i + 3) = (lines.drop i).drop 3 := by
      rw [List.drop_drop, Nat.add_comm]
    rw [this, h]
    rfl

theorem parseTleLoop_eq (ext : Externals) (lines : List String) :
    ∀ (n i : ℕ) (m : TleMap), lines.length ≤ i + 3 * n →
      parseTleLoop ext lines n i m
        = (groupsOfThree (lines.drop i)).foldl (applyGroup ext) m := by
  intro n
  induction n with
  | zero =>
    intro i m hlen
    have : lines.drop i = [] := List.drop_eq_nil_of_le (by omega)
    rw [this]
    rfl
  | succ n ih =>
    intro i m hlen
    simp only [parseTleLoop]
    have hdl : (lines.drop i).length = lines.length - i := List.length_drop i lines
    rcases hd : lines.drop i with _ | ⟨name, _ | ⟨line1, _ | ⟨line2, rest⟩⟩⟩
    · rw [hd] at hdl
      simp only [List.length_nil] at hdl
      rw [if_pos (by omega)]
      rfl
    · rw [hd] at hdl
      simp only [List.length_cons, List.length_nil] at hdl
      rw [if_neg (by omega), if_pos (by omega)]
      rfl
    · rw [hd] at hdl
      simp only [List.length_cons, List.length_nil] at hdl
      rw [if_neg (by omega), if_pos (by omega)]
      rfl
    · rw [hd] at hdl
      simp only [List.length_cons] at hdl
      rw [if_neg (by omega), if_neg (by omega)]
      obtain ⟨hstep, hrest⟩ := parseTleStep_eq ext lines i m name line1 line2 rest hd
      rw [hstep, ih (i + 3) _ (by omega), hrest]
      rfl

theorem foldl_applyGroup_get (ext : Externals) (n : ℤ) :
    ∀ (gs : List (String × String × String)) (m : TleMap),
      tleMapGet (gs.foldl (applyGroup ext) m) n
        = match lastEntry n (gs.filterMap (groupEntry ext)) with
          | some v => some v
          | none => tleMapGet m n := by
  intro gs
  induction gs with
  | nil => intro m; rfl
  | cons g rest ih =>
    intro m
    simp only [List.foldl_cons, ih, List.filterMap_cons]
    cases hg : groupEntry ext g with
    | none =>
      simp only [applyGroup, hg]
    | some kv =>
      obtain ⟨k, e⟩ := kv
      simp only [applyGroup, hg, lastEntry]
      cases lastEntry n (List.filterMap (groupEntry ext) rest) with
      | some w => rfl
      | none =>
        simp only [tleMapGet_set]
        by_cases hk : k = n
        · simp [hk]
        · simp [hk, tleMapGet]

theorem lastEntry_none_iff (n : ℤ) :
    ∀ l : List (ℤ × TleEntry), lastEntry n l = none ↔ ∀ kv ∈ l, kv.1 ≠ n := by
  intro l
  induction l with
  | nil => simp [lastEntry]
  | cons kv rest ih =>
    obtain ⟨k, w⟩ := kv
    simp only [lastEntry, List.mem_cons, forall_eq_or_imp]
    cases hl : lastEntry n rest with
    | some w' =>
      rw [hl] at ih
      constructor
      · intro h
        cases h
      · rintro ⟨-, h⟩
        exact ih.mpr h
    | none =>
      rw [hl] at ih
      simp only [true_iff] at ih
      by_cases hk : k = n
      · simp [hk]
      · simp only [if_neg hk, true_iff]
        exact ⟨hk, ih⟩

theorem lastEntry_iff (n : ℤ) (v : TleEntry) :
    ∀ l : List (ℤ × TleEntry),
      lastEntry n l = some v ↔
        ∃ pre suf, l = pre ++ (n, v) :: suf ∧ ∀ kv ∈ suf, kv.1 ≠ n := by
  have hnone := lastEntry_none_iff n
  intro l
  induction l with
  | nil => simp [lastEntry]
  | cons kv rest ih =>
    obtain ⟨k, w⟩ := kv
    simp only [lastEntry]
    cases hl : lastEntry n rest with
    | some w' =>
      rw [hl] at ih
      simp only [Option.some.injEq]
      constructor
      · intro hw
        obtain ⟨pre, suf, hrest, hsuf⟩ := ih.mp (congrArg some hw)
        exact ⟨(k, w) :: pre, suf, by rw [hrest]; rfl, hsuf⟩
      · rintro ⟨pre, suf, hdec, hsuf⟩
        cases pre with
        | nil =>
          simp only [List.nil_append, List.cons.injEq] at hdec
          have := (hnone rest).mpr (by rw [hdec.2]; exact hsuf)
          rw [this] at hl
          cases hl
        | cons p pre' =>
          simp only [List.cons_append, List.cons.injEq] at hdec
          exact Option.some.inj (ih.mpr ⟨pre', suf, hdec.2, hsuf⟩)
    | none =>
      rw [hl] at ih
      have hall := (hnone rest).mp hl
      simp only
      constructor
      · intro h
        by_cases hk : k = n
        · rw [if_pos hk] at h
          simp only [Option.some.injEq] at h
          subst hk h
          exact ⟨[], rest, rfl, hall⟩
        · rw [if_neg hk] at h
          cases h
      · rintro ⟨pre, suf, hdec, hsuf⟩
        cases pre with
        | nil =>
          simp only [List.nil_append, List.cons.injEq, Prod.mk.injEq] at hdec
          obtain ⟨⟨hk, hw⟩, -⟩ := hdec
          rw [if_pos hk, hw]
        | cons p pre' =>
          simp only [List.cons_append, List.cons.injEq] at hdec
          have hmem : (n, v) ∈ rest := by
            rw [hdec.2]
            exact List.mem_append_right _ (List.mem_cons_self _ _)
          exact absurd rfl (hall (n, v) hmem)

/-- C26: `parseTleData` reads the non-empty lines of the trimmed text in consecutive groups
of three (name, line 1, line 2), a trailing group of fewer than three lines being left out;
a group yields an id and an entry when its trimmed line 1 has at least 7 characters and the
characters 3 to 7 of it parse as an integer `n`, the entry holding the trimmed lines 1 and 2;
the map sends `n` to the entry of the last group yielding `n`, groups yielding nothing
leaving the map as it is. -/
theorem parseTleData_groups (ext : Externals) (text : String) :
    parseTleData ext text = (groupsOfThree (tleLines text)).foldl (applyGroup ext) []
      ∧ (∀ n, tleMapGet (parseTleData ext text) n
          = lastEntry n ((groupsOfThree (tleLines text)).filterMap (groupEntry ext)))
      ∧ (∀ n v, tleMapGet (parseTleData ext text) n = some v ↔
          ∃ pre suf, (groupsOfThree (tleLines text)).filterMap (groupEntry ext)
              = pre ++ (n, v) :: suf ∧ ∀ kv ∈ suf, kv.1 ≠ n)
      ∧ (∀ n, tleMapGet (parseTleData ext text) n = none ↔
          ∀ kv ∈ (groupsOfThree (tleLines text)).filterMap (groupEntry ext), kv.1 ≠ n) := by
  have hval : parseTleData ext text
      = (groupsOfThree (tleLines text)).foldl (applyGroup ext) [] := by
    unfold parseTleData
    rw [parseTleLoop_eq ext (tleLines text) _ 0 [] (by omega)]
    rfl
  have hget : ∀ n, tleMapGet (parseTleData ext text) n
      = lastEntry n ((groupsOfThree (tleLines text)).filterMap (groupEntry ext)) := by
    intro n
    rw [hval, foldl_applyGroup_get]
    cases lastEntry n ((groupsOfThree (tleLines text)).filterMap (groupEntry ext)) <;> rfl
  exact ⟨hval, hget, fun n v => by rw [hget, lastEntry_iff],
    fun n => by rw [hget, lastEntry_none_iff]⟩

theorem sample_tle_map :
    parseTleData digitsExt sampleTleText
      = [(25544, { tle_line1 := "1 25544U second", tle_line2 := "2 25544 second" }),
         (44804, { tle_line1 := "1 44804U third", tle_line2 := "2 44804 third" })] := by
  decide!

theorem parseTleData_groups_witness :
    tleMapGet (parseTleData digitsExt sampleTleText) 25544
        = lastEntry 25544 ((groupsOfThree (tleLines sampleTleText)).filterMap
            (groupEntry digitsExt))
      ∧ tleMapGet (parseTleData digitsExt sampleTleText) 25544
        = some { tle_line1 := "1 25544U second", tle_line2 := "2 25544 second" }
      ∧ (groupsOfThree (tleLines sampleTleText)).length = 4 :=
  ⟨(parseTleData_groups digitsExt sampleTleText).2.1 25544, by decide!, by decide!⟩

end SatTracker
